import Mathlib

/-!
# HdfsLzoTextScanner: a shallow embedding

Lean model of `hdfs-lzo-text-scanner.cc`, the LZOP container scanner.  The
scanner's C++ member functions become functions on an explicit `Scanner`
record.  `DCHECK`s are compiled out (release build), logging is not modelled.
A C++ read outside a buffer has no defined result; the model returns `none`
there.
-/

namespace HdfsLzoTextScanner

/-- One `uint8_t`. -/
abbrev Byte := Fin 256

/-- Messages carried by an Impala `Status`; the formatted numbers and file
names of the C++ strings are dropped, one constructor per message text. -/
inductive Msg where
  | ReadOnly (num_read : Nat)
  | InvalidMagic
  | LaterVersion
  | IncompatibleLzoVersion
  | IncompatibleNeededVersion
  | InvalidCompressionMethod
  | UnsupportedFlags
  | InvalidHeaderChecksum
  | InvalidHeaderInformation
  | NoBlockIndex
  | BlockTooLarge
  | ChecksumFailed (compressed : Bool)
  | DecompressionFailed
  | UnexpectedReadSize
  | StreamIncompleteRead
  deriving DecidableEq, Repr

/-- An Impala `Status`: the list of error messages, `Status::OK` is the empty list. -/
abbrev Status := List Msg

/-- The test `status.ok()`. -/
def Status.ok (st : Status) : Bool := st.isEmpty

/-- The enum `LzoChecksum`. -/
inductive LzoChecksum where
  | CHECK_NONE
  | CHECK_CRC32
  | CHECK_ADLER
  deriving DecidableEq, Repr

/-- Modelled from the spec: the constants of `hdfs-lzo-text-scanner.h` (sizes,
version bounds, flag masks, checksum seeds), taken as parameters. -/
structure Consts where
  HEADER_SIZE : Nat
  MIN_HEADER_SIZE : Nat
  LZOP_VERSION : Nat
  MIN_LZO_VERSION : Nat
  LZO_MAX_BLOCK_SIZE : Int
  MAX_BLOCK_COMPRESSED_SIZE : Nat
  F_ADLER32_D : Nat
  F_ADLER32_C : Nat
  F_CRC32_D : Nat
  F_CRC32_C : Nat
  F_H_CRC32 : Nat
  F_H_EXTRA_FIELD : Nat
  F_RESERVED : Nat
  F_MULTIPART : Nat
  F_H_FILTER : Nat
  CRC32_INIT_VALUE : Nat
  ADLER32_INIT_VALUE : Nat

/-- Values for concrete runs: the versions, flag masks and checksum seeds of the
lzop format (lzop's `conf.h`), with representative sizes. -/
def lzopConsts : Consts where
  HEADER_SIZE := 300
  MIN_HEADER_SIZE := 34
  LZOP_VERSION := 0x1030
  MIN_LZO_VERSION := 0x0100
  LZO_MAX_BLOCK_SIZE := 64 * 1024 * 1024
  MAX_BLOCK_COMPRESSED_SIZE := 64 * 1024 * 1024 + 64 * 1024 * 1024 / 16 + 64 + 3
  F_ADLER32_D := 0x1
  F_ADLER32_C := 0x2
  F_CRC32_D := 0x100
  F_CRC32_C := 0x200
  F_H_CRC32 := 0x1000
  F_H_EXTRA_FIELD := 0x40
  F_RESERVED := 0x000FC000
  F_MULTIPART := 0x400
  F_H_FILTER := 0x800
  CRC32_INIT_VALUE := 0
  ADLER32_INIT_VALUE := 1

/-! ## The byte-range source -/

/-- Modelled from the spec: the byte-range source of §6 (`stream_`), as an
in-memory file with a cursor.  `pos` is `file_offset()`, `range_end` the first
offset past the assigned scan range. -/
structure Stream where
  data : List Byte
  pos : Nat
  range_end : Nat
  compact_data : Bool
  read_past_buffer_size : Nat
  deriving DecidableEq, Repr

/-- The stream with its cursor moved `n` bytes forward. -/
def Stream.advance (st : Stream) (n : Nat) : Stream := { st with pos := st.pos + n }

/-- Modelled from the spec: `eof()`, the source is at absolute end-of-file. -/
def Stream.eof (st : Stream) : Bool := decide (st.data.length ≤ st.pos)

/-- Modelled from the spec: `eosr()`, the source has reached the nominal end of
the assigned range (or the end of the file). -/
def Stream.eosr (st : Stream) : Bool := decide (st.range_end ≤ st.pos) || st.eof

/-- Modelled from the spec: `get_bytes(n) -> (ptr, count, eosr, status)`.  Hands
out up to `n` bytes from the cursor and advances it; fewer than `n` only when
the file ends.  Result: the bytes, the `eos` flag, the advanced stream; the
in-memory file has no I/O errors, the status is always OK.  Reading is not
bounded by `range_end`: the source reads past the range to finish a block. -/
def Stream.GetBytes (st : Stream) (n : Int) : List Byte × Bool × Stream :=
  let bytes := (st.data.drop st.pos).take n.toNat
  let st1 := st.advance bytes.length
  (bytes, st1.eosr, st1)

/-- Modelled from the spec: `skip(n)`.  Succeeds when `n ≥ 0` bytes are left in
the file; otherwise consumes what is left and reports an incomplete read. -/
def Stream.SkipBytes (st : Stream) (n : Int) : Status × Stream :=
  if 0 ≤ n ∧ st.pos + n.toNat ≤ st.data.length then
    ([], st.advance n.toNat)
  else
    ([Msg.StreamIncompleteRead], { st with pos := max st.pos st.data.length })

/-- Big-endian value of a byte string (`ReadWriteUtil::GetInt`). -/
def beNat : List Byte → Nat
  | [] => 0
  | b :: bs => b.val * 256 ^ bs.length + beNat bs

/-- Conversion of a 32-bit pattern to `int32_t`. -/
def toInt32 (n : Nat) : Int :=
  if n % 2 ^ 32 < 2 ^ 31 then (n % 2 ^ 32 : Nat) else (n % 2 ^ 32 : Nat) - 2 ^ 32

/-- Modelled from the spec: `read_int32() -> value`.  Reads four bytes
big-endian as an `int32_t`; with fewer than four bytes left it consumes them
and reports an incomplete read. -/
def Stream.ReadInt (st : Stream) : Status × Int × Stream :=
  let r := st.GetBytes 4
  if r.1.length = 4 then ([], toInt32 (beNat r.1), r.2.2)
  else ([Msg.StreamIncompleteRead], 0, r.2.2)

/-! ## Scanner state -/

/-- A `uint8_t*`: the bytes of the allocation pointed into, and the offset of
the pointer inside it. -/
structure Ptr where
  buf : List Byte
  off : Int
  deriving DecidableEq, Repr

/-- The bytes in `[p, p + n)`, as far as the allocation holds them. -/
def Ptr.span (p : Ptr) (n : Int) : List Byte := (p.buf.drop p.off.toNat).take n.toNat

/-- The struct `LzoFileHeader`. -/
structure LzoFileHeader where
  output_checksum_type_ : LzoChecksum
  input_checksum_type_ : LzoChecksum
  header_size_ : Int
  offsets : List Int
  deriving DecidableEq, Repr

/-- The scanner object: the members of `HdfsLzoTextScanner` the modelled
functions touch, with the stream, the host's `abort_on_error()` setting, and
counters for the calls of `HdfsTextScanner::ResetScanner` and the runs of the
decompression timer. -/
structure Scanner where
  stream_ : Stream
  header_ : LzoFileHeader
  block_buffer_ : List Byte
  block_buffer_len_ : Int
  block_buffer_ptr_ : Ptr
  bytes_remaining_ : Int
  past_eosr_ : Bool
  eos_read_ : Bool
  only_parsing_header_ : Bool
  disable_checksum_ : Bool
  abort_on_error : Bool
  byte_buffer_ptr_ : Ptr
  byte_buffer_read_size_ : Int
  byte_buffer_end_ : Ptr
  reset_scanner_calls : Nat
  decompress_timer_ : Nat
  deriving DecidableEq, Repr

/-! ## FindFirstBlock -/

/-- The loop of `std::upper_bound` over `v[first, first + len)`: binary search
for the first position whose element is greater than `val`.  The first
argument bounds the iterations; `len` at least halves each time, so `len`
iterations always suffice. -/
def upper_bound_loop (v : List Int) (val : Int) : Nat → Nat → Nat → Nat
  | 0, first, _ => first
  | fuel + 1, first, len =>
    if len = 0 then first
    else
      let half := len / 2
      let middle := first + half
      if val < v.getD middle 0 then upper_bound_loop v val fuel first half
      else upper_bound_loop v val fuel (middle + 1) (len - half - 1)

/-- The call `upper_bound(v.begin(), v.end(), val)`, as an index into `v`
(`v.length` is `end()`). -/
def upper_bound (v : List Int) (val : Int) : Nat :=
  upper_bound_loop v val v.length 0 v.length

/-- The member function `FindFirstBlock`. -/
def FindFirstBlock (s : Scanner) : Status × Scanner :=
  let offset : Int := s.stream_.pos
  let pos := upper_bound s.header_.offsets offset
  if pos = s.header_.offsets.length then
    ([Msg.NoBlockIndex], s)
  else
    let r := s.stream_.SkipBytes (s.header_.offsets.getD pos 0 - offset)
    (r.1, { s with stream_ := r.2 })

/-! ## Checksums -/

/-- One bit of the reflected CRC-32 (polynomial `0xEDB88320`). -/
def crc32_bit (c : Nat) : Nat :=
  (c >>> 1) ^^^ (if c % 2 = 1 then 0xEDB88320 else 0)

/-- One byte of CRC-32: the byte is folded into the low bits, then eight bit
steps; the value of `table[(crc ^ b) & 0xff] ^ (crc >> 8)`. -/
def crc32_byte (c : Nat) (b : Byte) : Nat :=
  crc32_bit^[8] (c ^^^ b.val)

/-- The LZO library's `lzo_crc32(c, buf, len)` over the `len` bytes `buf`. -/
def lzo_crc32 (c : Nat) (buf : List Byte) : Nat :=
  (buf.foldl crc32_byte ((c % 2 ^ 32) ^^^ 0xffffffff)) ^^^ 0xffffffff

/-- One byte of Adler-32 on the pair `(s1, s2)`, modulus 65521. -/
def adler32_byte (a : Nat × Nat) (b : Byte) : Nat × Nat :=
  ((a.1 + b.val) % 65521, (a.2 + (a.1 + b.val) % 65521) % 65521)

/-- The LZO library's `lzo_adler32(adler, buf, len)` over the `len` bytes `buf`. -/
def lzo_adler32 (adler : Nat) (buf : List Byte) : Nat :=
  let r := buf.foldl adler32_byte ((adler % 2 ^ 32) % 65536, ((adler % 2 ^ 32) / 65536) % 65536)
  r.2 * 65536 ||| r.1

/-- The member function `Checksum(type, source, expected_checksum, buffer,
length)`.  Of the scanner it reads the member `disable_checksum_` only, which
is passed in; `compressed` tells which of the two `source` labels is passed.
`none` when the checksum routine would read past the buffer. -/
def Checksum (K : Consts) (disable_checksum_ : Bool) (type : LzoChecksum) (compressed : Bool)
    (expected_checksum : Int) (buffer : List Byte) (length : Int) : Option Status :=
  if disable_checksum_ then some []
  else
    match type with
    | LzoChecksum.CHECK_NONE => some []
    | LzoChecksum.CHECK_CRC32 =>
      if 0 ≤ length ∧ length.toNat ≤ buffer.length then
        let calculated_checksum := toInt32 (lzo_crc32 K.CRC32_INIT_VALUE (buffer.take length.toNat))
        if calculated_checksum ≠ expected_checksum then some [Msg.ChecksumFailed compressed]
        else some []
      else none
    | LzoChecksum.CHECK_ADLER =>
      if 0 ≤ length ∧ length.toNat ≤ buffer.length then
        let calculated_checksum := toInt32 (lzo_adler32 K.ADLER32_INIT_VALUE (buffer.take length.toNat))
        if calculated_checksum ≠ expected_checksum then some [Msg.ChecksumFailed compressed]
        else some []
      else none

/-! ## ReadHeader -/

/-- The magic byte sequence at the beginning of an LZOP file. -/
def LZOP_MAGIC : List Byte := [0x89, 0x4c, 0x5a, 0x4f, 0x00, 0x0d, 0x0a, 0x1a, 0x0a]

/-- The pattern `if (cond) status.AddErrorMsg(msg)`. -/
def addErrorMsgIf (cond : Prop) [Decidable cond] (msg : Msg) (status : Status) : Status :=
  if cond then status ++ [msg] else status

/-- The `len` bytes at offset `off` of a buffer; `none` when they are not all
inside it. -/
def readAt (buf : List Byte) (off len : Nat) : Option (List Byte) :=
  if off + len ≤ buf.length then some ((buf.drop off).take len) else none

/-- The member function `ReadHeader`.  `magic` is the buffer `GetBytes` hands
out, `h_ptr` an offset into it. -/
def ReadHeader (K : Consts) (s : Scanner) : Option (Status × Scanner) := do
  let r := s.stream_.GetBytes K.HEADER_SIZE
  let magic := r.1
  let s1 : Scanner := { s with stream_ := r.2.2 }
  if magic.length < K.MIN_HEADER_SIZE then
    return ([Msg.ReadOnly magic.length], s1)
  let m ← readAt magic 0 9
  let status0 := addErrorMsgIf (m ≠ LZOP_MAGIC) Msg.InvalidMagic []
  let header := 9
  let version := beNat (← readAt magic header 2)
  let status1 := addErrorMsgIf (version > K.LZOP_VERSION) Msg.LaterVersion status0
  let libversion := beNat (← readAt magic (header + 2) 2)
  let status2 := addErrorMsgIf (libversion < K.MIN_LZO_VERSION) Msg.IncompatibleLzoVersion status1
  let neededversion := beNat (← readAt magic (header + 4) 2)
  let status3 :=
    addErrorMsgIf (neededversion > K.LZOP_VERSION) Msg.IncompatibleNeededVersion status2
  let method := beNat (← readAt magic (header + 6) 1)
  let status4 := addErrorMsgIf (method < 1 ∨ method > 3) Msg.InvalidCompressionMethod status3
  let _level ← readAt magic (header + 7) 1
  let flags := beNat (← readAt magic (header + 8) 4)
  let header_checksum :=
    if flags &&& K.F_H_CRC32 ≠ 0 then LzoChecksum.CHECK_CRC32 else LzoChecksum.CHECK_ADLER
  let output_checksum_type :=
    if flags &&& K.F_CRC32_D ≠ 0 then LzoChecksum.CHECK_CRC32
    else if flags &&& K.F_ADLER32_D ≠ 0 then LzoChecksum.CHECK_ADLER
    else LzoChecksum.CHECK_NONE
  let input_checksum_type :=
    if flags &&& K.F_CRC32_C ≠ 0 then LzoChecksum.CHECK_CRC32
    else if flags &&& K.F_ADLER32_C ≠ 0 then LzoChecksum.CHECK_ADLER
    else LzoChecksum.CHECK_NONE
  let s2 : Scanner := { s1 with header_ := { s1.header_ with
    output_checksum_type_ := output_checksum_type
    input_checksum_type_ := input_checksum_type } }
  let status5 :=
    addErrorMsgIf (flags &&& (K.F_RESERVED ||| K.F_MULTIPART ||| K.F_H_FILTER) ≠ 0)
      Msg.UnsupportedFlags status4
  -- skip flags (4), mode and time fields (12)
  let name_len := beNat (← readAt magic (header + 24) 1)
  let h_ptr := header + 24 + name_len + 1
  let expected_checksum := toInt32 (beNat (← readAt magic h_ptr 4))
  let covered ← readAt magic header (h_ptr - header)
  let computed_checksum :=
    if header_checksum = LzoChecksum.CHECK_CRC32 then toInt32 (lzo_crc32 K.CRC32_INIT_VALUE covered)
    else toInt32 (lzo_adler32 K.ADLER32_INIT_VALUE covered)
  let status6 :=
    addErrorMsgIf (computed_checksum ≠ expected_checksum) Msg.InvalidHeaderChecksum status5
  let h_ptr1 : Int := h_ptr + 4
  if flags &&& K.F_H_EXTRA_FIELD ≠ 0 then
    let ri := s2.stream_.ReadInt
    let s3 : Scanner := { s2 with stream_ := ri.2.2 }
    if !(Status.ok ri.1) then
      return (ri.1, s3)
    let h_ptr2 := h_ptr1 + (8 + ri.2.1)
    if !(Status.ok status6) then
      return (status6 ++ [Msg.InvalidHeaderInformation], s3)
    return ([], { s3 with header_ := { s3.header_ with header_size_ := h_ptr2 } })
  if !(Status.ok status6) then
    return (status6 ++ [Msg.InvalidHeaderInformation], s2)
  return ([], { s2 with header_ := { s2.header_ with header_size_ := h_ptr1 } })

/-! ## ReadAndDecompressData -/

/-- The LZO library's `lzo1x_decompress_safe(src, src_len, dst, &dst_len)`,
taken as a parameter: from the source bytes and the destination capacity to the
return code (`LZO_E_OK` is 0) and the bytes written. -/
abbrev Decompressor := List Byte → Nat → Int × List Byte

/-- The last part of `ReadAndDecompressData` (from `if (!stream_->compact_data())`
to the end), reached for a block that is not stored: decode buffer,
decompression, output checksum.  `s5` is the scanner after input
verification.  The code hands the decompressor `&uncompressed_len`, an
`int32_t`, through a cast to `lzo_uint*`; the model takes the 32-bit value as
the capacity going in and as the length written coming out. -/
def DecompressBlock (K : Consts) (lzo1x_decompress_safe : Decompressor) (s5 : Scanner)
    (uncompressed_len compressed_len out_checksum : Int) (compressed_data : List Byte) :
    Option (Status × Scanner) := do
  -- `block_buffer_len_` after `if (!stream_->compact_data())`
  let block_buffer_len6 : Int := if !s5.stream_.compact_data then 0 else s5.block_buffer_len_
  -- the buffer after `if (uncompressed_len > block_buffer_len_)`; fresh memory reads as zeros
  let grow : Bool := decide (uncompressed_len > block_buffer_len6)
  let s8 : Scanner := { s5 with
    block_buffer_ := if grow then List.replicate uncompressed_len.toNat 0 else s5.block_buffer_,
    block_buffer_len_ := if grow then uncompressed_len else block_buffer_len6,
    bytes_remaining_ := uncompressed_len,
    decompress_timer_ := s5.decompress_timer_ + 1 }
  if ¬ (0 ≤ compressed_len ∧ compressed_len.toNat ≤ compressed_data.length) then none
  let d := lzo1x_decompress_safe (compressed_data.take compressed_len.toNat) uncompressed_len.toNat
  let block_buffer := d.2 ++ s8.block_buffer_.drop d.2.length
  let s9 : Scanner := { s8 with block_buffer_ := block_buffer,
                                block_buffer_ptr_ := ⟨block_buffer, 0⟩ }
  let uncompressed_len1 : Int := d.2.length
  if d.1 ≠ 0 ∨ s9.bytes_remaining_ ≠ uncompressed_len1 then
    return ([Msg.DecompressionFailed], s9)
  let c2 ← Checksum K s9.disable_checksum_ s9.header_.output_checksum_type_ false out_checksum
    s9.block_buffer_ uncompressed_len1
  if !(Status.ok c2) then return (c2, s9)
  return ([], { s9 with eos_read_ := s9.stream_.eosr })

/-- The middle part of `ReadAndDecompressData` (from `int out_checksum` to the
stored-block return): checksum fields, payload, input verification.  `s2` is
the scanner after the two length fields.  `garbage` is the value of the local
`out_checksum` where the code reads it without having assigned it. -/
def ReadBlockBody (K : Consts) (lzo1x_decompress_safe : Decompressor) (garbage : Int)
    (s2 : Scanner) (uncompressed_len compressed_len : Int) : Option (Status × Scanner) := do
  let r3 : Status × Int × Stream :=
    if s2.header_.output_checksum_type_ ≠ LzoChecksum.CHECK_NONE then s2.stream_.ReadInt
    else ([], garbage, s2.stream_)
  let s3 : Scanner := { s2 with stream_ := r3.2.2 }
  if !(Status.ok r3.1) then return (r3.1, s3)
  let out_checksum := r3.2.1
  let r4 : Status × Int × Stream :=
    if compressed_len < uncompressed_len ∧
        s3.header_.input_checksum_type_ ≠ LzoChecksum.CHECK_NONE then s3.stream_.ReadInt
    else ([], out_checksum, s3.stream_)
  let s4 : Scanner := { s3 with stream_ := r4.2.2 }
  if !(Status.ok r4.1) then return (r4.1, s4)
  let in_checksum := r4.2.1
  let g := s4.stream_.GetBytes compressed_len
  let compressed_data := g.1
  let s5 : Scanner := { s4 with stream_ := g.2.2, eos_read_ := g.2.1 }
  let c1 ← Checksum K s5.disable_checksum_ s5.header_.input_checksum_type_ true in_checksum
    compressed_data compressed_len
  if !(Status.ok c1) then return (c1, s5)
  if compressed_len = uncompressed_len then
    return ([], { s5 with block_buffer_ptr_ := ⟨compressed_data, 0⟩,
                          bytes_remaining_ := uncompressed_len })
  DecompressBlock K lzo1x_decompress_safe s5 uncompressed_len compressed_len out_checksum
    compressed_data

/-- The member function `ReadAndDecompressData`: the length fields, then
`ReadBlockBody` and `DecompressBlock` for the rest of its body. -/
def ReadAndDecompressData (K : Consts) (lzo1x_decompress_safe : Decompressor) (garbage : Int)
    (s : Scanner) : Option (Status × Scanner) :=
  let s0 : Scanner := { s with bytes_remaining_ := 0 }
  let r1 := s0.stream_.ReadInt
  let s1 : Scanner := { s0 with stream_ := r1.2.2 }
  if !(Status.ok r1.1) then some (r1.1, s1)
  else
    let uncompressed_len := r1.2.1
    if uncompressed_len = 0 then some ([], { s1 with eos_read_ := true })
    else
      let r2 := s1.stream_.ReadInt
      let s2 : Scanner := { s1 with stream_ := r2.2.2 }
      if !(Status.ok r2.1) then some (r2.1, s2)
      else
        let compressed_len := r2.2.1
        if compressed_len > K.LZO_MAX_BLOCK_SIZE then some ([Msg.BlockTooLarge], s2)
        else ReadBlockBody K lzo1x_decompress_safe garbage s2 uncompressed_len compressed_len

/-! ## ReadData and FillByteBuffer -/

/-- The member function `ReadData`: the `do ... while (!stream_->eosr())` loop,
with a bound on the number of iterations (`none` when it is used up). -/
def ReadData (K : Consts) (lzo1x_decompress_safe : Decompressor) (garbage : Int) :
    Nat → Scanner → Option (Status × Scanner)
  | 0, _ => none
  | fuel + 1, s => do
    let r ← ReadAndDecompressData K lzo1x_decompress_safe garbage s
    if Status.ok r.1 || r.2.abort_on_error then return r
    -- On error try to skip forward to the next block.
    let f := FindFirstBlock r.2
    if !(Status.ok f.1) then
      if f.2.abort_on_error then return f
      return ([], { f.2 with eos_read_ := true, bytes_remaining_ := 0 })
    if !f.2.stream_.eosr then ReadData K lzo1x_decompress_safe garbage fuel f.2
    else return ([], { f.2 with reset_scanner_calls := f.2.reset_scanner_calls + 1 })

/-- The second half of `FillByteBuffer` (from the first
`if (bytes_remaining_ != 0)` to the end): the served span, the unexpected read
size check, the cursor update and the end flag.  `s2` is the scanner after the
block read, if any. -/
def ServeBytes (num_bytes : Int) (s2 : Scanner) : Status × Bool × Scanner :=
  -- first `if (bytes_remaining_ != 0)`: set the served span
  let serving : Bool := decide (s2.bytes_remaining_ ≠ 0)
  let s3 : Scanner := { s2 with
    byte_buffer_ptr_ := if serving then s2.block_buffer_ptr_ else s2.byte_buffer_ptr_,
    byte_buffer_read_size_ :=
      if serving then
        if s2.bytes_remaining_ ≥ num_bytes then
          if num_bytes = 0 then s2.bytes_remaining_ else num_bytes
        else num_bytes
      else s2.byte_buffer_read_size_ }
  -- We assume a block is larger than the largest request.
  if serving ∧ !s3.eos_read_ ∧ num_bytes > s3.bytes_remaining_ then
    ([Msg.UnexpectedReadSize], false, s3)
  else
    -- `byte_buffer_end_`, and second `if (bytes_remaining_ != 0)`
    let s5 : Scanner := { s3 with
      byte_buffer_end_ :=
        ⟨s3.byte_buffer_ptr_.buf, s3.byte_buffer_ptr_.off + s3.byte_buffer_read_size_⟩,
      bytes_remaining_ :=
        if serving then s3.bytes_remaining_ - s3.byte_buffer_read_size_ else s3.bytes_remaining_,
      block_buffer_ptr_ :=
        if serving then
          ⟨s3.block_buffer_ptr_.buf, s3.block_buffer_ptr_.off + s3.byte_buffer_read_size_⟩
        else s3.block_buffer_ptr_ }
    ([], s5.past_eosr_ || (s5.eos_read_ && decide (s5.bytes_remaining_ = 0)), s5)

/-- The member function `FillByteBuffer(eosr, num_bytes)`; the result carries
the status, the value left in `*eosr`, and the scanner.  Its second half is
`ServeBytes`. -/
def FillByteBuffer (K : Consts) (lzo1x_decompress_safe : Decompressor) (garbage : Int)
    (fuel : Nat) (num_bytes : Int) (s : Scanner) : Option (Status × Bool × Scanner) :=
  let s0 : Scanner := { s with byte_buffer_read_size_ := 0 }
  if s0.stream_.eof then some ([], true, s0)
  else
    -- `if (stream_->eosr())`: extend the read window, remember the split end is passed
    let at_eosr := s0.stream_.eosr
    let s1 : Scanner := { s0 with
      stream_ := if at_eosr then
          { s0.stream_ with read_past_buffer_size := K.MAX_BLOCK_COMPRESSED_SIZE }
        else s0.stream_,
      past_eosr_ := if at_eosr then true else s0.past_eosr_ }
    -- Figure out if we have enough data and read more if necessary.
    let r : Option (Status × Scanner) :=
      if (num_bytes = 0 ∧ s1.bytes_remaining_ = 0) ∨ num_bytes > s1.bytes_remaining_ then
        ReadData K lzo1x_decompress_safe garbage fuel s1
      else some ([], s1)
    match r with
    | none => none
    | some (status, s2) =>
      if !(Status.ok status) then some (status, false, s2)
      else some (ServeBytes num_bytes s2)

/-- The bytes a `FillByteBuffer` call hands to the consumer: the span
`[byte_buffer_ptr_, byte_buffer_end_)`. -/
def served (s : Scanner) : List Byte := s.byte_buffer_ptr_.span s.byte_buffer_read_size_

/-! ## Construction and layouts -/

/-- The flag `DEFINE_bool(disable_lzo_checksums, true, ...)`: its default value. -/
def FLAGS_disable_lzo_checksums : Bool := true

/-- The constructor `HdfsLzoTextScanner(scan_node, state)`, together with the
stream, the header object and the host's abort-on-error setting a split is
processed with. -/
def construct (stream : Stream) (header : LzoFileHeader) (abort_on_error : Bool) : Scanner where
  stream_ := stream
  header_ := header
  block_buffer_ := []
  block_buffer_len_ := 0
  block_buffer_ptr_ := ⟨[], 0⟩
  bytes_remaining_ := 0
  past_eosr_ := false
  eos_read_ := false
  only_parsing_header_ := false
  disable_checksum_ := FLAGS_disable_lzo_checksums
  abort_on_error := abort_on_error
  byte_buffer_ptr_ := ⟨[], 0⟩
  byte_buffer_read_size_ := 0
  byte_buffer_end_ := ⟨[], 0⟩
  reset_scanner_calls := 0
  decompress_timer_ := 0

/-- A `u16` field, big-endian. -/
def be16 (n : Nat) : List Byte := [Fin.ofNat (n / 256), Fin.ofNat n]

/-- A `u32` field, big-endian. -/
def be32 (n : Nat) : List Byte :=
  [Fin.ofNat (n / 16777216), Fin.ofNat (n / 65536), Fin.ofNat (n / 256), Fin.ofNat n]

/-- The header bytes the header checksum covers, in the layout of the spec's
§6: u16 version, u16 library version, u16 needed version, u8 method, u8 level,
u32 flags, three u32 fields, and the filename behind its length byte. -/
def headerBody (version libversion neededversion : Nat) (method level : Byte)
    (flags mode mtime gmtdiff : Nat) (name : List Byte) : List Byte :=
  be16 version ++ be16 libversion ++ be16 neededversion ++ [method, level] ++ be32 flags ++
    be32 mode ++ be32 mtime ++ be32 gmtdiff ++ [Fin.ofNat name.length] ++ name

/-- The header checksum an encoder stores: CRC32 of the covered bytes when the
header-checksum flag bit is set, Adler32 otherwise. -/
def headerChecksum (K : Consts) (flags : Nat) (body : List Byte) : Nat :=
  if flags &&& K.F_H_CRC32 ≠ 0 then lzo_crc32 K.CRC32_INIT_VALUE body
  else lzo_adler32 K.ADLER32_INIT_VALUE body

/-- A complete header without extra field: magic, covered bytes, checksum. -/
def mkHeader (K : Consts) (version libversion neededversion : Nat) (method level : Byte)
    (flags mode mtime gmtdiff : Nat) (name : List Byte) : List Byte :=
  LZOP_MAGIC ++ headerBody version libversion neededversion method level flags mode mtime gmtdiff name
    ++ be32 (headerChecksum K flags
      (headerBody version libversion neededversion method level flags mode mtime gmtdiff name))

/-- The checksum kind a pair of flag bits selects: the CRC32 bit takes
precedence over the Adler32 bit, `CHECK_NONE` when neither is set. -/
def checksumKind (flags crcBit adlerBit : Nat) : LzoChecksum :=
  if flags &&& crcBit ≠ 0 then LzoChecksum.CHECK_CRC32
  else if flags &&& adlerBit ≠ 0 then LzoChecksum.CHECK_ADLER
  else LzoChecksum.CHECK_NONE

/-- A scanner at offset `pos` of a 10-byte file indexed at `[2, 5, 9]`. -/
def indexScanner (pos : Nat) : Scanner :=
  construct ⟨List.replicate 10 0, pos, 10, true, 0⟩
    ⟨LzoChecksum.CHECK_NONE, LzoChecksum.CHECK_NONE, 0, [2, 5, 9]⟩ false

/-- The scanner over the same file with the byte at file offset `i` replaced
by `v`. -/
def corruptByte (s : Scanner) (i : Nat) (v : Byte) : Scanner :=
  { s with stream_ := { s.stream_ with data := s.stream_.data.set i v } }

/-- The header checksum `ReadHeader` computes over the `covered` bytes, as an
`int32_t`. -/
def headerComputed (K : Consts) (flags : Nat) (covered : List Byte) : Int :=
  if (if flags &&& K.F_H_CRC32 ≠ 0 then LzoChecksum.CHECK_CRC32 else LzoChecksum.CHECK_ADLER) =
      LzoChecksum.CHECK_CRC32 then toInt32 (lzo_crc32 K.CRC32_INIT_VALUE covered)
  else toInt32 (lzo_adler32 K.ADLER32_INIT_VALUE covered)

/-- What `ReadHeader` returns once the buffer is read, as a function of the
byte strings it read: magic `m`, the version fields, method, flags, filename
length, stored checksum, and the bytes `covered` by the checksum.  `s1` is the
scanner after `GetBytes`.  Used to reason about `ReadHeader`; see
`ReadHeader_of_reads`. -/
def headerResult (K : Consts) (s1 : Scanner)
    (m version libversion neededversion method flags name_len expected covered : List Byte) :
    Option (Status × Scanner) :=
  let status0 := addErrorMsgIf (m ≠ LZOP_MAGIC) Msg.InvalidMagic []
  let status1 := addErrorMsgIf (beNat version > K.LZOP_VERSION) Msg.LaterVersion status0
  let status2 :=
    addErrorMsgIf (beNat libversion < K.MIN_LZO_VERSION) Msg.IncompatibleLzoVersion status1
  let status3 :=
    addErrorMsgIf (beNat neededversion > K.LZOP_VERSION) Msg.IncompatibleNeededVersion status2
  let status4 :=
    addErrorMsgIf (beNat method < 1 ∨ beNat method > 3) Msg.InvalidCompressionMethod status3
  let s2 : Scanner := { s1 with header_ := { s1.header_ with
    output_checksum_type_ := checksumKind (beNat flags) K.F_CRC32_D K.F_ADLER32_D
    input_checksum_type_ := checksumKind (beNat flags) K.F_CRC32_C K.F_ADLER32_C } }
  let status5 :=
    addErrorMsgIf (beNat flags &&& (K.F_RESERVED ||| K.F_MULTIPART ||| K.F_H_FILTER) ≠ 0)
      Msg.UnsupportedFlags status4
  let status6 :=
    addErrorMsgIf (headerComputed K (beNat flags) covered ≠ toInt32 (beNat expected))
      Msg.InvalidHeaderChecksum status5
  let h_ptr1 : Int := ((9 + 24 + beNat name_len + 1 : Nat) : Int) + 4
  if beNat flags &&& K.F_H_EXTRA_FIELD ≠ 0 then
    let ri := s2.stream_.ReadInt
    let s3 : Scanner := { s2 with stream_ := ri.2.2 }
    if !(Status.ok ri.1) then some (ri.1, s3)
    else if !(Status.ok status6) then some (status6 ++ [Msg.InvalidHeaderInformation], s3)
    else some ([], { s3 with header_ := { s3.header_ with header_size_ := h_ptr1 + (8 + ri.2.1) } })
  else if !(Status.ok status6) then some (status6 ++ [Msg.InvalidHeaderInformation], s2)
  else some ([], { s2 with header_ := { s2.header_ with header_size_ := h_ptr1 } })

/-- A header as lzop writes it: version 0x1030, library 0x2060, needed version
0x0940, method 1, level 5, flags `F_ADLER32_D | F_ADLER32_C` with Unix OS bits,
filename `a.txt`. -/
def exampleHeader : List Byte :=
  mkHeader lzopConsts 0x1030 0x2060 0x0940 1 5 0x03000003 0x81a4 0x50000000 0
    [0x61, 0x2e, 0x74, 0x78, 0x74]

/-- A scanner about to parse `exampleHeader`, followed in the file by the
end-of-data sentinel. -/
def headerScanner : Scanner :=
  construct ⟨exampleHeader ++ [0, 0, 0, 0], 0, 300, true, 0⟩
    ⟨LzoChecksum.CHECK_NONE, LzoChecksum.CHECK_NONE, 0, []⟩ false

/-- The checksum an encoder stores for `bytes` under a checksum kind. -/
def blockChecksum (K : Consts) (type : LzoChecksum) (bytes : List Byte) : Nat :=
  match type with
  | LzoChecksum.CHECK_NONE => 0
  | LzoChecksum.CHECK_CRC32 => lzo_crc32 K.CRC32_INIT_VALUE bytes
  | LzoChecksum.CHECK_ADLER => lzo_adler32 K.ADLER32_INIT_VALUE bytes

/-- The record of a stored block (both length fields equal) carrying the
Adler32 output checksum of its payload. -/
def storedBlock (payload : List Byte) : List Byte :=
  be32 payload.length ++ (be32 payload.length ++
    (be32 (lzo_adler32 lzopConsts.ADLER32_INIT_VALUE payload) ++ payload))

/-- A decompressor that rejects every input (`LZO_E_ERROR`) and writes nothing. -/
def noDecompressor : Decompressor := fun _ _ => (-1, [])

/-- Payloads of three blocks: the lines `one`, `two`, `3rd`. -/
def block1 : List Byte := [0x6f, 0x6e, 0x65, 0x0a]

/-- Second payload. -/
def block2 : List Byte := [0x74, 0x77, 0x6f, 0x0a]

/-- Third payload. -/
def block3 : List Byte := [0x33, 0x72, 0x64, 0x0a]

/-- A file of three stored blocks behind `exampleHeader` (43 bytes), closed by
the end-of-data sentinel: the blocks start at offsets 43, 59 and 75. -/
def threeBlockFile : List Byte :=
  exampleHeader ++ (storedBlock block1 ++ (storedBlock block2 ++ (storedBlock block3 ++ be32 0)))

/-- The three-block file with the first payload byte of block 2 (file offset 71)
overwritten. -/
def corruptedFile : List Byte := threeBlockFile.set 71 0x54

/-- A scanner with checksum verification switched on and abort-on-error off,
about to read the file `data` from offset `pos` as a split ending at
`range_end`, with the parsed `exampleHeader` and the block index `offsets`. -/
def splitScanner (data : List Byte) (pos range_end : Nat) (offsets : List Int) : Scanner :=
  { construct ⟨data, pos, range_end, true, 0⟩
      ⟨LzoChecksum.CHECK_ADLER, LzoChecksum.CHECK_ADLER, 43, offsets⟩ false with
    disable_checksum_ := false }

/-- A compressed block record (`uncompressed_len` 8, `compressed_len` 4) whose
stored input checksum matches its payload. -/
def compressedRecord : List Byte :=
  be32 8 ++ (be32 4 ++ (be32 0 ++
    (be32 (lzo_adler32 lzopConsts.ADLER32_INIT_VALUE [0x11, 0x22, 0x33, 0x44]) ++
      [0x11, 0x22, 0x33, 0x44])))

/-- A file whose first block, at offset 43, is the compressed record, followed
by two stored blocks at offsets 63 and 79 and the sentinel. -/
def undecodableFile : List Byte :=
  exampleHeader ++ (compressedRecord ++ (storedBlock block2 ++ (storedBlock block3 ++ be32 0)))

/-- A compressed block record, `uncompressed_len` 8 and `compressed_len` 4, with
output checksum field, Adler32 input checksum of the payload
`[0x11, 0x22, 0x33, 0x44]`, and the payload with its second byte overwritten. -/
def corruptCompressedRecord : List Byte :=
  be32 8 ++ (be32 4 ++ (be32 0 ++
    (be32 (lzo_adler32 lzopConsts.ADLER32_INIT_VALUE [0x11, 0x22, 0x33, 0x44]) ++
      (([0x11, 0x22, 0x33, 0x44] : List Byte).set 1 0xFF ++ be32 0))))

/-- A stand-in for `lzo1x_decompress_safe` on the example data: it writes every
source byte twice, up to the capacity, and returns `LZO_E_OK`. -/
def doublingDecompressor : Decompressor :=
  fun src cap => (0, ((src.map fun b => [b, b]).flatten).take cap)

/-- A compressed block record for `doublingDecompressor`: `uncompressed_len` 4,
`compressed_len` 2, the Adler32 checksums of the decoded bytes and of the
payload, and the payload `[0x61, 0x0a]`. -/
def doubledRecord : List Byte :=
  be32 4 ++ (be32 2 ++
    (be32 (lzo_adler32 lzopConsts.ADLER32_INIT_VALUE [0x61, 0x61, 0x0a, 0x0a]) ++
      (be32 (lzo_adler32 lzopConsts.ADLER32_INIT_VALUE [0x61, 0x0a]) ++ [0x61, 0x0a])))

/-- A file with a stored block at offset 43 and the compressed `doubledRecord`
at offset 59, closed by the sentinel. -/
def mixedFile : List Byte :=
  exampleHeader ++ (storedBlock block1 ++ (doubledRecord ++ be32 0))

/-- What one `FillByteBuffer` call reports to its caller. -/
structure FillReport where
  status : Status
  eosr : Bool
  read_size : Int
  bytes : List Byte
  bytes_remaining : Int
  deriving DecidableEq, Repr

/-- A consumer that calls `FillByteBuffer` once for each request size of the
list, in order, and notes what each call reports. -/
def fillCalls (K : Consts) (lzo1x_decompress_safe : Decompressor) (garbage : Int) (fuel : Nat) :
    List Int → Scanner → Option (List FillReport × Scanner)
  | [], s => some ([], s)
  | n :: ns, s => do
    let r ← FillByteBuffer K lzo1x_decompress_safe garbage fuel n s
    let rest ← fillCalls K lzo1x_decompress_safe garbage fuel ns r.2.2
    return (⟨r.1, r.2.1, r.2.2.byte_buffer_read_size_, served r.2.2, r.2.2.bytes_remaining_⟩ ::
      rest.1, rest.2)

/-- The scanner of the split `[43, 50)` of the three-block file after its first
byte has been served: block 1 is buffered, the stream stands at offset 59. -/
def afterFirstByte : Scanner :=
  { splitScanner threeBlockFile 43 50 [43, 59, 75] with
    stream_ := ⟨threeBlockFile, 59, 50, true, 0⟩,
    block_buffer_ptr_ := ⟨block1, 1⟩, bytes_remaining_ := 3, eos_read_ := true,
    byte_buffer_ptr_ := ⟨block1, 0⟩, byte_buffer_read_size_ := 1,
    byte_buffer_end_ := ⟨block1, 1⟩ }

/-- The same scanner after its second byte has been served. -/
def afterSecondByte : Scanner :=
  { afterFirstByte with
    stream_ := ⟨threeBlockFile, 59, 50, true, lzopConsts.MAX_BLOCK_COMPRESSED_SIZE⟩,
    past_eosr_ := true,
    block_buffer_ptr_ := ⟨block1, 2⟩, bytes_remaining_ := 2,
    byte_buffer_ptr_ := ⟨block1, 1⟩, byte_buffer_end_ := ⟨block1, 2⟩ }

/-- The big-endian field of `len` bytes at offset `off` of a buffer. -/
def fieldAt (buf : List Byte) (off len : Nat) : Nat := beNat ((buf.drop off).take len)

/-- The seven checks the specification lists for a header buffer, each with the
message of its failure, in the order of the list: magic, version, library
version, needed version, method, unsupported flag bits, header checksum (over
the bytes from offset 9 up to the checksum field, which follows the filename). -/
def headerChecks (K : Consts) (buf : List Byte) : List (Bool × Msg) :=
  [(decide (buf.take 9 ≠ LZOP_MAGIC), Msg.InvalidMagic),
   (decide (fieldAt buf 9 2 > K.LZOP_VERSION), Msg.LaterVersion),
   (decide (fieldAt buf 11 2 < K.MIN_LZO_VERSION), Msg.IncompatibleLzoVersion),
   (decide (fieldAt buf 13 2 > K.LZOP_VERSION), Msg.IncompatibleNeededVersion),
   (decide (fieldAt buf 15 1 < 1 ∨ fieldAt buf 15 1 > 3), Msg.InvalidCompressionMethod),
   (decide (fieldAt buf 17 4 &&& (K.F_RESERVED ||| K.F_MULTIPART ||| K.F_H_FILTER) ≠ 0),
     Msg.UnsupportedFlags),
   (decide (headerComputed K (fieldAt buf 17 4) ((buf.drop 9).take (25 + fieldAt buf 33 1)) ≠
       toInt32 (fieldAt buf (34 + fieldAt buf 33 1) 4)), Msg.InvalidHeaderChecksum)]

/-- One message per failed check, in the order of the checks. -/
def failedChecks (checks : List (Bool × Msg)) : List Msg :=
  (checks.filter fun c => c.1).map fun c => c.2

/-- The bytes of `exampleHeader` with the first magic byte and the method byte
(offset 15, covered by the header checksum) overwritten. -/
def damagedHeader : List Byte := (exampleHeader.set 0 0x88).set 15 9

/-- A scanner about to parse `damagedHeader`, followed by the sentinel. -/
def damagedHeaderScanner : Scanner :=
  construct ⟨damagedHeader ++ [0, 0, 0, 0], 0, 300, true, 0⟩
    ⟨LzoChecksum.CHECK_NONE, LzoChecksum.CHECK_NONE, 0, []⟩ false

/-- The first half of `FillByteBuffer` for a stream that is not at end-of-file
(from `byte_buffer_read_size_ = 0` to the `ReadData` call): the status of the
block read, `OK` when none is needed, and the scanner after it. -/
def FillRead (K : Consts) (lzo1x_decompress_safe : Decompressor) (garbage : Int)
    (fuel : Nat) (num_bytes : Int) (s : Scanner) : Option (Status × Scanner) :=
  let s0 : Scanner := { s with byte_buffer_read_size_ := 0 }
  let at_eosr := s0.stream_.eosr
  let s1 : Scanner := { s0 with
    stream_ := if at_eosr then
        { s0.stream_ with read_past_buffer_size := K.MAX_BLOCK_COMPRESSED_SIZE }
      else s0.stream_,
    past_eosr_ := if at_eosr then true else s0.past_eosr_ }
  if (num_bytes = 0 ∧ s1.bytes_remaining_ = 0) ∨ num_bytes > s1.bytes_remaining_ then
    ReadData K lzo1x_decompress_safe garbage fuel s1
  else some ([], s1)

/-- A file whose header selects an Adler32 input checksum and no output
checksum (`F_ADLER32_C` without `F_ADLER32_D`): block records carry no output
checksum field, and a stored block carries no checksum field at all.  Here one
stored block with the payload `block1`, then the sentinel. -/
def inputChecksumOnlyFile : List Byte :=
  be32 4 ++ (be32 4 ++ (block1 ++ be32 0))

/-- A scanner at the stored block of `inputChecksumOnlyFile`, with checksum
verification switched on. -/
def inputChecksumOnlyScanner : Scanner :=
  { construct ⟨inputChecksumOnlyFile, 0, 16, true, 0⟩
      ⟨LzoChecksum.CHECK_NONE, LzoChecksum.CHECK_ADLER, 0, [0]⟩ false with
    disable_checksum_ := false }

/-- A header with the extra-field flag (`exampleHeader` with flag bit `0x40`),
followed by its extra field: the length 2, two extra bytes, and the 4-byte
checksum field of the extra field.  It ends at offset 53. -/
def extraFieldHeader : List Byte :=
  mkHeader lzopConsts 0x1030 0x2060 0x0940 1 5 0x03000043 0x81a4 0x50000000 0
    [0x61, 0x2e, 0x74, 0x78, 0x74] ++ (be32 2 ++ ([0xAA, 0xBB] ++ be32 0))

/-- A file of 73 bytes: `extraFieldHeader`, block 1 stored at offset 53, the
sentinel. -/
def shortExtraFieldFile : List Byte :=
  extraFieldHeader ++ (storedBlock block1 ++ be32 0)

/-- A file of 316 bytes: `extraFieldHeader`, a stored block of 247 bytes `0x61`
at offset 53 (its payload covers the file offsets 65 to 311), the sentinel. -/
def longExtraFieldFile : List Byte :=
  extraFieldHeader ++ (storedBlock (List.replicate 247 0x61) ++ be32 0)

/-- A scanner about to parse the header of the file `data`, with the header
scan range `[0, HEADER_SIZE)`. -/
def headerRangeScanner (data : List Byte) : Scanner :=
  construct ⟨data, 0, lzopConsts.HEADER_SIZE, true, 0⟩
    ⟨LzoChecksum.CHECK_NONE, LzoChecksum.CHECK_NONE, 0, []⟩ false

/-- A compressed block record for `doublingDecompressor`: `uncompressed_len` 8,
`compressed_len` 4, the Adler32 checksums of the decoded bytes and of the
payload, and the payload `block1`. -/
def doubledRecord8 : List Byte :=
  be32 8 ++ (be32 4 ++
    (be32 (lzo_adler32 lzopConsts.ADLER32_INIT_VALUE
        [0x6f, 0x6f, 0x6e, 0x6e, 0x65, 0x65, 0x0a, 0x0a]) ++
      (be32 (lzo_adler32 lzopConsts.ADLER32_INIT_VALUE block1) ++ block1)))

/-- A file with two compressed blocks behind `exampleHeader`: `doubledRecord8`
(8 decoded bytes) at offset 43 and `doubledRecord` (4 decoded bytes) at offset
63, closed by the sentinel. -/
def shrinkingFile : List Byte :=
  exampleHeader ++ (doubledRecord8 ++ (doubledRecord ++ be32 0))

/-- The scanner of `splitScanner` on a stream that does not compact data
(`compact_data()` false). -/
def nonCompactScanner (data : List Byte) (pos range_end : Nat) (offsets : List Int) : Scanner :=
  { splitScanner data pos range_end offsets with
    stream_ := ⟨data, pos, range_end, false, 0⟩ }

/-- The scanner of the split `[43, 85)` of `shrinkingFile` after its first
block is decoded, on a stream that compacts data. -/
def afterDoubledRecord8 : Scanner :=
  { splitScanner shrinkingFile 43 85 [43, 63] with
    stream_ := ⟨shrinkingFile, 63, 85, true, 0⟩,
    block_buffer_ := [0x6f, 0x6f, 0x6e, 0x6e, 0x65, 0x65, 0x0a, 0x0a],
    block_buffer_len_ := 8,
    block_buffer_ptr_ := ⟨[0x6f, 0x6f, 0x6e, 0x6e, 0x65, 0x65, 0x0a, 0x0a], 0⟩,
    bytes_remaining_ := 8,
    decompress_timer_ := 1 }

/-- The same scanner after its second block (4 decoded bytes) is decoded into
the buffer of capacity 8. -/
def afterDoubledRecord : Scanner :=
  { afterDoubledRecord8 with
    stream_ := ⟨shrinkingFile, 81, 85, true, 0⟩,
    block_buffer_ := [0x61, 0x61, 0x0a, 0x0a, 0x65, 0x65, 0x0a, 0x0a],
    block_buffer_ptr_ := ⟨[0x61, 0x61, 0x0a, 0x0a, 0x65, 0x65, 0x0a, 0x0a], 0⟩,
    bytes_remaining_ := 4,
    eos_read_ := false,
    decompress_timer_ := 2 }

/-- A file with three stored blocks behind `exampleHeader`: `block1` at offset
43, then 1500 bytes `0x61` at offset 59 and 1500 bytes `0x62` at offset 1571,
closed by the sentinel. -/
def longRowFile : List Byte :=
  exampleHeader ++ (storedBlock block1 ++ (storedBlock (List.replicate 1500 0x61) ++
    (storedBlock (List.replicate 1500 0x62) ++ be32 0)))

/-- A file cut off after 40 bytes: `exampleHeader` (43 bytes, filename length 5)
without its last three bytes, which belong to the header checksum field at
offsets 39 to 42. -/
def truncatedHeaderFile : List Byte := exampleHeader.take 40

/-- What a bounded run of the loop of `ReadData` ends in: a block read without
a defined result, the bound on the iterations used up, or a return with the
status and scanner returned and the number of successful resynchronizations
(`FindFirstBlock` calls that returned OK) the run performed. -/
inductive LoopResult where
  | undefined
  | outOfFuel
  | returned (r : Status × Scanner) (resyncs : Nat)
  deriving DecidableEq, Repr

/-- The loop of the member function `ReadData`, as in `ReadData`, keeping apart
the two ways of giving no result and counting the successful
resynchronizations. -/
def ReadDataLoop (K : Consts) (lzo1x_decompress_safe : Decompressor) (garbage : Int) :
    Nat → Scanner → LoopResult
  | 0, _ => LoopResult.outOfFuel
  | fuel + 1, s =>
    match ReadAndDecompressData K lzo1x_decompress_safe garbage s with
    | none => LoopResult.undefined
    | some r =>
      if Status.ok r.1 || r.2.abort_on_error then LoopResult.returned r 0
      else
        -- On error try to skip forward to the next block.
        let f := FindFirstBlock r.2
        if !(Status.ok f.1) then
          if f.2.abort_on_error then LoopResult.returned f 0
          else LoopResult.returned ([], { f.2 with eos_read_ := true, bytes_remaining_ := 0 }) 0
        else if !f.2.stream_.eosr then
          match ReadDataLoop K lzo1x_decompress_safe garbage fuel f.2 with
          | LoopResult.returned r2 n => LoopResult.returned r2 (n + 1)
          | LoopResult.undefined => LoopResult.undefined
          | LoopResult.outOfFuel => LoopResult.outOfFuel
        else
          LoopResult.returned
            ([], { f.2 with reset_scanner_calls := f.2.reset_scanner_calls + 1 }) 1

/-- The number of index entries greater than the file offset `pos`. -/
def indexAhead (offsets : List Int) (pos : Nat) : Nat :=
  offsets.countP fun x => decide ((pos : Int) < x)

/-- The three-block file with the last payload byte of block 1 (file offset 58)
overwritten. -/
def corruptedFirstBlockFile : List Byte := threeBlockFile.set 58 0x54

/-- A scanner at block 1 of `corruptedFirstBlockFile`, the split being the whole
data part `[43, 95)` and the index holding the three block starts. -/
def recoveryScanner : Scanner := splitScanner corruptedFirstBlockFile 43 95 [43, 59, 75]

/-- The scanner `ReadData` returns on `recoveryScanner`: the stream behind block
3, whose payload it has published. -/
def afterRecovery : Scanner :=
  { recoveryScanner with
    stream_ := ⟨corruptedFirstBlockFile, 91, 95, true, 0⟩,
    block_buffer_ptr_ := ⟨block3, 0⟩, bytes_remaining_ := 4 }

/-- A strictly increasing list is monotone along its positions. -/
theorem sorted_getD_le (v : List Int) (hs : v.Pairwise (· < ·)) (i j : Nat)
    (hij : i ≤ j) (hj : j < v.length) : v.getD i 0 ≤ v.getD j 0 := by
  rw [List.getD_eq_getElem v 0 hj, List.getD_eq_getElem v 0 (lt_of_le_of_lt hij hj)]
  rcases Nat.eq_or_lt_of_le hij with h | h
  · subst h; exact le_refl _
  · exact le_of_lt (List.pairwise_iff_getElem.mp hs i j (lt_of_le_of_lt hij hj) hj h)

/-- Invariant of the binary search: everything left of the result is at most
`val`, everything from the result on is greater. -/
theorem upper_bound_loop_spec (v : List Int) (val : Int) (hs : v.Pairwise (· < ·)) :
    ∀ (fuel first len : Nat), len ≤ fuel → first + len ≤ v.length →
      (∀ i, i < first → v.getD i 0 ≤ val) →
      (∀ i, first + len ≤ i → i < v.length → val < v.getD i 0) →
      upper_bound_loop v val fuel first len ≤ v.length ∧
      (∀ i, i < upper_bound_loop v val fuel first len → v.getD i 0 ≤ val) ∧
      (∀ i, upper_bound_loop v val fuel first len ≤ i → i < v.length → val < v.getD i 0) := by
  intro fuel
  induction fuel with
  | zero =>
    intro first len hl hb hlo hhi
    have : len = 0 := by omega
    subst this
    simp only [upper_bound_loop]
    exact ⟨by omega, hlo, fun i hi hlt => hhi i (by omega) hlt⟩
  | succ n ih =>
    intro first len hl hb hlo hhi
    simp only [upper_bound_loop]
    by_cases h0 : len = 0
    · subst h0
      simp only [if_true]
      exact ⟨by omega, hlo, fun i hi hlt => hhi i (by omega) hlt⟩
    · simp only [h0, if_false]
      have hmid : first + len / 2 < v.length := by omega
      by_cases hc : val < v.getD (first + len / 2) 0
      · simp only [hc, if_true]
        apply ih first (len / 2) (by omega) (by omega) hlo
        intro i hi hlt
        exact lt_of_lt_of_le hc (sorted_getD_le v hs _ _ hi hlt)
      · simp only [hc, if_false]
        apply ih (first + len / 2 + 1) (len - len / 2 - 1) (by omega) (by omega)
        · intro i hi
          exact le_trans (sorted_getD_le v hs i _ (by omega) hmid) (not_lt.mp hc)
        · intro i hi hlt
          exact hhi i (by omega) hlt

/-- On a strictly increasing index `upper_bound` returns the position of the
first offset greater than `val`. -/
theorem upper_bound_spec (v : List Int) (val : Int) (hs : v.Pairwise (· < ·)) :
    upper_bound v val ≤ v.length ∧
    (∀ i, i < upper_bound v val → v.getD i 0 ≤ val) ∧
    (∀ i, upper_bound v val ≤ i → i < v.length → val < v.getD i 0) := by
  unfold upper_bound
  exact upper_bound_loop_spec v val hs v.length 0 v.length (le_refl _) (by omega)
    (fun i hi => absurd hi (Nat.not_lt_zero i)) (fun i hi hlt => absurd hlt (by omega))

/-- Every member of a list sits at some position. -/
theorem mem_getD (v : List Int) (x : Int) (hx : x ∈ v) : ∃ i, i < v.length ∧ v.getD i 0 = x := by
  obtain ⟨i, hi, rfl⟩ := List.getElem_of_mem hx
  exact ⟨i, hi, List.getD_eq_getElem v 0 hi⟩

/-- C1. On a strictly increasing block index and from any file offset `o`:
when no indexed offset is greater than `o` (also for the empty index),
`FindFirstBlock` returns the no-block-index error and leaves the scanner as it
was; when one is, it asks the stream to skip to the smallest indexed offset `p`
greater than `o` and returns the skip's status, which is success with the
stream positioned at `p` whenever `p` lies within the file.  For the index
`[100, 500, 900]` over a file of at least 900 bytes: from 0 it lands on 100,
from 100 on 500, from 500 on 900, and from 900 and 901 it reports not found. -/
theorem C1_FindFirstBlock_successor (s : Scanner)
    (hs : s.header_.offsets.Pairwise (· < ·)) :
    ((¬ ∃ x ∈ s.header_.offsets, (s.stream_.pos : Int) < x) →
        FindFirstBlock s = ([Msg.NoBlockIndex], s)) ∧
    ((∃ x ∈ s.header_.offsets, (s.stream_.pos : Int) < x) →
        ∃ p ∈ s.header_.offsets, (s.stream_.pos : Int) < p ∧
          (∀ x ∈ s.header_.offsets, (s.stream_.pos : Int) < x → p ≤ x) ∧
          FindFirstBlock s =
            ((s.stream_.SkipBytes (p - s.stream_.pos)).1,
             { s with stream_ := (s.stream_.SkipBytes (p - s.stream_.pos)).2 }) ∧
          (p ≤ s.stream_.data.length →
            FindFirstBlock s = ([], { s with stream_ := { s.stream_ with pos := p.toNat } }))) ∧
    (s.header_.offsets = [100, 500, 900] → 900 ≤ s.stream_.data.length →
      (s.stream_.pos = 0 →
        FindFirstBlock s = ([], { s with stream_ := { s.stream_ with pos := 100 } })) ∧
      (s.stream_.pos = 100 →
        FindFirstBlock s = ([], { s with stream_ := { s.stream_ with pos := 500 } })) ∧
      (s.stream_.pos = 500 →
        FindFirstBlock s = ([], { s with stream_ := { s.stream_ with pos := 900 } })) ∧
      (s.stream_.pos = 900 → FindFirstBlock s = ([Msg.NoBlockIndex], s)) ∧
      (s.stream_.pos = 901 → FindFirstBlock s = ([Msg.NoBlockIndex], s))) := by
  obtain ⟨hle, hlo, hhi⟩ := upper_bound_spec s.header_.offsets s.stream_.pos hs
  refine ⟨?_, ?_, ?_⟩
  · intro hno
    have hend : upper_bound s.header_.offsets s.stream_.pos = s.header_.offsets.length := by
      rcases Nat.eq_or_lt_of_le hle with h | h
      · exact h
      · exfalso
        apply hno
        refine ⟨s.header_.offsets.getD _ 0, ?_, hhi _ (le_refl _) h⟩
        rw [List.getD_eq_getElem _ 0 h]
        exact List.getElem_mem h
    simp [FindFirstBlock, hend]
  · rintro ⟨x, hx, hox⟩
    obtain ⟨i, hi, hix⟩ := mem_getD _ x hx
    have hlt : upper_bound s.header_.offsets s.stream_.pos < s.header_.offsets.length := by
      by_contra hge
      have := hlo i (by omega)
      omega
    refine ⟨s.header_.offsets.getD (upper_bound s.header_.offsets s.stream_.pos) 0, ?_,
      hhi _ (le_refl _) hlt, ?_, ?_, ?_⟩
    · rw [List.getD_eq_getElem _ 0 hlt]
      exact List.getElem_mem hlt
    · intro y hy hoy
      obtain ⟨j, hj, hjy⟩ := mem_getD _ y hy
      have hrj : upper_bound s.header_.offsets s.stream_.pos ≤ j := by
        by_contra hnot
        have := hlo j (by omega)
        omega
      rw [← hjy]
      exact sorted_getD_le _ hs _ _ hrj hj
    · simp [FindFirstBlock, Nat.ne_of_lt hlt]
    · intro hfile
      have hpos := hhi _ (le_refl _) hlt
      simp only [FindFirstBlock, Nat.ne_of_lt hlt, if_false, Stream.SkipBytes, Stream.advance]
      have hcond : 0 ≤ s.header_.offsets.getD (upper_bound s.header_.offsets s.stream_.pos) 0
            - (s.stream_.pos : Int) ∧
          s.stream_.pos + (s.header_.offsets.getD (upper_bound s.header_.offsets s.stream_.pos) 0
            - (s.stream_.pos : Int)).toNat ≤ s.stream_.data.length := by
        constructor
        · omega
        · omega
      rw [if_pos hcond]
      have : s.stream_.pos + (s.header_.offsets.getD (upper_bound s.header_.offsets s.stream_.pos) 0
            - (s.stream_.pos : Int)).toNat
          = (s.header_.offsets.getD (upper_bound s.header_.offsets s.stream_.pos) 0).toNat := by
        omega
      rw [this]
  · intro hidx hlen
    clear hle hlo hhi hs
    refine ⟨?_, ?_, ?_, ?_, ?_⟩ <;> intro hp <;>
      simp [FindFirstBlock, upper_bound, upper_bound_loop, hidx, hp, Stream.SkipBytes,
        Stream.advance]
    · rw [if_pos (by omega)]; exact ⟨rfl, rfl⟩
    · rw [if_pos (by omega)]; exact ⟨rfl, rfl⟩
    · rw [if_pos (by omega)]; exact ⟨rfl, rfl⟩

/-- Witness for C1: the index `[2, 5, 9]` over a 10-byte file; from offset 9
nothing is found, from offset 5 the scanner lands on 9. -/
theorem C1_FindFirstBlock_successor_witness :
    ([2, 5, 9] : List Int).Pairwise (· < ·) ∧
    FindFirstBlock (indexScanner 9) = ([Msg.NoBlockIndex], indexScanner 9) ∧
    ∃ p ∈ (indexScanner 5).header_.offsets, (((indexScanner 5).stream_.pos : Nat) : Int) < p ∧
      (∀ x ∈ (indexScanner 5).header_.offsets, (((indexScanner 5).stream_.pos : Nat) : Int) < x →
        p ≤ x) ∧
      FindFirstBlock (indexScanner 5) =
        (((indexScanner 5).stream_.SkipBytes (p - (indexScanner 5).stream_.pos)).1,
         { indexScanner 5 with
           stream_ := ((indexScanner 5).stream_.SkipBytes (p - (indexScanner 5).stream_.pos)).2 }) ∧
      (p ≤ (indexScanner 5).stream_.data.length →
        FindFirstBlock (indexScanner 5) =
          ([], { indexScanner 5 with
            stream_ := { (indexScanner 5).stream_ with pos := p.toNat } })) :=
  ⟨by decide,
   (C1_FindFirstBlock_successor (indexScanner 9) (by decide)).1 (by decide),
   (C1_FindFirstBlock_successor (indexScanner 5) (by decide)).2.1 ⟨9, by decide, by decide⟩⟩

/-! ## Byte strings and the stream -/

theorem beNat_be16 (n : Nat) (h : n < 65536) : beNat (be16 n) = n := by
  simp [beNat, be16, Fin.ofNat]
  omega

theorem beNat_be32 (n : Nat) (h : n < 4294967296) : beNat (be32 n) = n := by
  simp only [beNat, be32, Fin.ofNat, List.length_cons, List.length_nil]
  norm_num
  omega

theorem readAt_eq (buf a c d : List Byte) (off len : Nat) (h : buf = a ++ (c ++ d))
    (ha : a.length = off) (hc : c.length = len) : readAt buf off len = some c := by
  subst h ha hc
  unfold readAt
  rw [if_pos (by simp)]
  simp

theorem beNat_be32_mod (n : Nat) : beNat (be32 n) = n % 4294967296 := by
  simp only [beNat, be32, Fin.ofNat, List.length_cons, List.length_nil]
  norm_num
  omega

theorem toInt32_mod (n : Nat) : toInt32 (n % 4294967296) = toInt32 n := by
  unfold toInt32
  norm_num

theorem GetBytes_bytes (st : Stream) (n : Nat) (bytes post : List Byte)
    (h : st.data.drop st.pos = bytes ++ post) (hn : bytes.length ≤ n) :
    (st.GetBytes n).1 = bytes ++ post.take (n - bytes.length) := by
  simp only [Stream.GetBytes, h, Int.toNat_ofNat]
  rw [List.take_append_eq_append_take, List.take_of_length_le hn]

/-- C2. Header round-trip: let the unread bytes of the stream start with a header
laid out as 9-byte magic, u16 version at most `LZOP_VERSION`, u16 library
version at least `MIN_LZO_VERSION`, u16 needed version at most `LZOP_VERSION`,
method 1, 2 or 3, any level, u32 flags without reserved, multipart,
header-filter or extra-field bit, three u32 fields, a filename of `n` bytes
behind its length byte, and the u32 checksum (CRC32 or Adler32 by the
header-checksum flag bit) of the bytes after the magic.  When the buffer
`GetBytes(HEADER_SIZE)` hands out holds the header (`38 + n ≤ HEADER_SIZE`) and
reaches `MIN_HEADER_SIZE`, `ReadHeader` succeeds, the two checksum kinds are the
ones the flag bits encode (CRC32 bit before Adler32 bit, else none), and
`header_size_` is `38 + n`. -/
theorem C2_ReadHeader_roundtrip (K : Consts) (s : Scanner)
    (version libversion neededversion : Nat) (method level : Byte)
    (flags mode mtime gmtdiff : Nat) (name rest : List Byte)
    (hv : version < 65536) (hlv : libversion < 65536) (hnv : neededversion < 65536)
    (hflags : flags < 4294967296) (hname : name.length < 256)
    (hversion : version ≤ K.LZOP_VERSION) (hlib : K.MIN_LZO_VERSION ≤ libversion)
    (hneeded : neededversion ≤ K.LZOP_VERSION)
    (hmethod : method.val = 1 ∨ method.val = 2 ∨ method.val = 3)
    (hunsupported : flags &&& (K.F_RESERVED ||| K.F_MULTIPART ||| K.F_H_FILTER) = 0)
    (hextra : flags &&& K.F_H_EXTRA_FIELD = 0)
    (hdata : s.stream_.data.drop s.stream_.pos =
      mkHeader K version libversion neededversion method level flags mode mtime gmtdiff name ++ rest)
    (hsize : 38 + name.length ≤ K.HEADER_SIZE)
    (hmin : K.MIN_HEADER_SIZE ≤ min K.HEADER_SIZE (38 + name.length + rest.length)) :
    ∃ s1, ReadHeader K s = some ([], s1) ∧
      s1.header_.output_checksum_type_ = checksumKind flags K.F_CRC32_D K.F_ADLER32_D ∧
      s1.header_.input_checksum_type_ = checksumKind flags K.F_CRC32_C K.F_ADLER32_C ∧
      s1.header_.header_size_ = 38 + name.length := by
  have hlen : (mkHeader K version libversion neededversion method level flags mode mtime gmtdiff
      name).length = 38 + name.length := by
    simp [mkHeader, headerBody, LZOP_MAGIC, be16, be32]
    omega
  have hbuf := GetBytes_bytes s.stream_ K.HEADER_SIZE _ _ hdata (by omega)
  rw [hlen] at hbuf
  generalize htail : rest.take (K.HEADER_SIZE - (38 + name.length)) = tail at hbuf
  have hn1 : beNat [(Fin.ofNat name.length : Byte)] = name.length := by
    simp [beNat, Fin.ofNat]; omega
  have h0 : readAt (mkHeader K version libversion neededversion method level flags mode mtime
      gmtdiff name ++ tail) 0 9 = some LZOP_MAGIC :=
    readAt_eq _ [] _ (headerBody version libversion neededversion method level flags mode mtime
      gmtdiff name ++ be32 (headerChecksum K flags (headerBody version libversion neededversion
      method level flags mode mtime gmtdiff name)) ++ tail) _ _
      (by simp [mkHeader, List.append_assoc]) rfl rfl
  have h1 : readAt (mkHeader K version libversion neededversion method level flags mode mtime
      gmtdiff name ++ tail) 9 2 = some (be16 version) :=
    readAt_eq _ LZOP_MAGIC _ (be16 libversion ++ be16 neededversion ++ [method, level] ++
      be32 flags ++ be32 mode ++ be32 mtime ++ be32 gmtdiff ++ [Fin.ofNat name.length] ++ name ++
      be32 (headerChecksum K flags (headerBody version libversion neededversion
      method level flags mode mtime gmtdiff name)) ++ tail) _ _
      (by simp [mkHeader, headerBody, List.append_assoc]) rfl rfl
  have h2 : readAt (mkHeader K version libversion neededversion method level flags mode mtime
      gmtdiff name ++ tail) (9 + 2) 2 = some (be16 libversion) :=
    readAt_eq _ (LZOP_MAGIC ++ be16 version) _ (be16 neededversion ++ [method, level] ++
      be32 flags ++ be32 mode ++ be32 mtime ++ be32 gmtdiff ++ [Fin.ofNat name.length] ++ name ++
      be32 (headerChecksum K flags (headerBody version libversion neededversion
      method level flags mode mtime gmtdiff name)) ++ tail) _ _
      (by simp [mkHeader, headerBody, List.append_assoc]) rfl rfl
  have h3 : readAt (mkHeader K version libversion neededversion method level flags mode mtime
      gmtdiff name ++ tail) (9 + 4) 2 = some (be16 neededversion) :=
    readAt_eq _ (LZOP_MAGIC ++ be16 version ++ be16 libversion) _ ([method, level] ++
      be32 flags ++ be32 mode ++ be32 mtime ++ be32 gmtdiff ++ [Fin.ofNat name.length] ++ name ++
      be32 (headerChecksum K flags (headerBody version libversion neededversion
      method level flags mode mtime gmtdiff name)) ++ tail) _ _
      (by simp [mkHeader, headerBody, List.append_assoc]) rfl rfl
  have h4 : readAt (mkHeader K version libversion neededversion method level flags mode mtime
      gmtdiff name ++ tail) (9 + 6) 1 = some [method] :=
    readAt_eq _ (LZOP_MAGIC ++ be16 version ++ be16 libversion ++ be16 neededversion) _ ([level] ++
      be32 flags ++ be32 mode ++ be32 mtime ++ be32 gmtdiff ++ [Fin.ofNat name.length] ++ name ++
      be32 (headerChecksum K flags (headerBody version libversion neededversion
      method level flags mode mtime gmtdiff name)) ++ tail) _ _
      (by simp [mkHeader, headerBody, List.append_assoc]) rfl rfl
  have h5 : readAt (mkHeader K version libversion neededversion method level flags mode mtime
      gmtdiff name ++ tail) (9 + 7) 1 = some [level] :=
    readAt_eq _ (LZOP_MAGIC ++ be16 version ++ be16 libversion ++ be16 neededversion ++ [method]) _
      (be32 flags ++ be32 mode ++ be32 mtime ++ be32 gmtdiff ++ [Fin.ofNat name.length] ++ name ++
      be32 (headerChecksum K flags (headerBody version libversion neededversion
      method level flags mode mtime gmtdiff name)) ++ tail) _ _
      (by simp [mkHeader, headerBody, List.append_assoc]) rfl rfl
  have h6 : readAt (mkHeader K version libversion neededversion method level flags mode mtime
      gmtdiff name ++ tail) (9 + 8) 4 = some (be32 flags) :=
    readAt_eq _ (LZOP_MAGIC ++ be16 version ++ be16 libversion ++ be16 neededversion ++
      [method, level]) _
      (be32 mode ++ be32 mtime ++ be32 gmtdiff ++ [Fin.ofNat name.length] ++ name ++
      be32 (headerChecksum K flags (headerBody version libversion neededversion
      method level flags mode mtime gmtdiff name)) ++ tail) _ _
      (by simp [mkHeader, headerBody, List.append_assoc]) rfl rfl
  have h7 : readAt (mkHeader K version libversion neededversion method level flags mode mtime
      gmtdiff name ++ tail) (9 + 24) 1 = some [Fin.ofNat name.length] :=
    readAt_eq _ (LZOP_MAGIC ++ be16 version ++ be16 libversion ++ be16 neededversion ++
      [method, level] ++ be32 flags ++ be32 mode ++ be32 mtime ++ be32 gmtdiff) _
      (name ++ be32 (headerChecksum K flags (headerBody version libversion neededversion
      method level flags mode mtime gmtdiff name)) ++ tail) _ _
      (by simp [mkHeader, headerBody, List.append_assoc]) rfl rfl
  have h8 : readAt (mkHeader K version libversion neededversion method level flags mode mtime
      gmtdiff name ++ tail) (9 + 24 + name.length + 1) 4 =
      some (be32 (headerChecksum K flags (headerBody version libversion neededversion
        method level flags mode mtime gmtdiff name))) :=
    readAt_eq _ (LZOP_MAGIC ++ headerBody version libversion neededversion
        method level flags mode mtime gmtdiff name) _ tail _ _
      (by simp [mkHeader, List.append_assoc])
      (by simp [headerBody, LZOP_MAGIC, be16, be32]; omega) rfl
  have h9 : readAt (mkHeader K version libversion neededversion method level flags mode mtime
      gmtdiff name ++ tail) 9 (9 + 24 + name.length + 1 - 9) =
      some (headerBody version libversion neededversion method level flags mode mtime
        gmtdiff name) :=
    readAt_eq _ LZOP_MAGIC _ (be32 (headerChecksum K flags (headerBody version libversion
        neededversion method level flags mode mtime gmtdiff name)) ++ tail) _ _
      (by simp [mkHeader, List.append_assoc]) rfl
      (by simp [headerBody, be16, be32]; omega)
  unfold ReadHeader
  simp only [hbuf]
  have htl : tail.length = min (K.HEADER_SIZE - (38 + name.length)) rest.length := by
    rw [← htail, List.length_take]
  rw [if_neg (by rw [List.length_append, hlen, htl]; omega)]
  simp only [h0, h1, h2, h3, h4, h5, h6, h7, hn1, h8, h9, Option.bind_eq_bind, Option.some_bind,
    Option.pure_def, beNat_be16 _ hv, beNat_be16 _ hlv, beNat_be16 _ hnv, beNat_be32 _ hflags]
  have hm : ¬ (beNat [method] = 0 ∨ 3 < beNat [method]) := by
    simp [beNat]; omega
  by_cases hc : flags &&& K.F_H_CRC32 = 0 <;>
    simp [addErrorMsgIf, hm, hc, hextra, hunsupported, beNat_be32_mod, toInt32_mod, headerChecksum,
      checksumKind, Status.ok, not_lt.mpr hversion, not_lt.mpr hlib, not_lt.mpr hneeded] <;>
    omega

/-- Witness for C2: `exampleHeader`, Adler32 header checksum, filename `a.txt`. -/
theorem C2_ReadHeader_roundtrip_witness :
    ∃ s1, ReadHeader lzopConsts headerScanner = some ([], s1) ∧
      s1.header_.output_checksum_type_ =
        checksumKind 0x03000003 lzopConsts.F_CRC32_D lzopConsts.F_ADLER32_D ∧
      s1.header_.input_checksum_type_ =
        checksumKind 0x03000003 lzopConsts.F_CRC32_C lzopConsts.F_ADLER32_C ∧
      s1.header_.header_size_ = 38 + (([0x61, 0x2e, 0x74, 0x78, 0x74] : List Byte).length : Int) :=
  C2_ReadHeader_roundtrip lzopConsts headerScanner 0x1030 0x2060 0x0940 1 5 0x03000003 0x81a4
    0x50000000 0 [0x61, 0x2e, 0x74, 0x78, 0x74] [0, 0, 0, 0]
    (by decide) (by decide) (by decide) (by decide) (by decide) (by decide) (by decide)
    (by decide) (by decide) (by decide) (by decide) rfl (by decide) (by decide)

theorem readAt_set_of_le (buf : List Byte) (i : Nat) (v : Byte) (off len : Nat)
    (h : off + len ≤ i) : readAt (buf.set i v) off len = readAt buf off len := by
  unfold readAt
  rw [List.length_set, List.take_drop, List.take_drop, List.set_take,
    List.set_eq_of_length_le (by rw [List.length_take]; omega)]

theorem readAt_set_inside (buf c : List Byte) (i : Nat) (v : Byte) (off len : Nat)
    (h : off ≤ i) (hc : readAt buf off len = some c) :
    readAt (buf.set i v) off len = some (c.set (i - off) v) := by
  unfold readAt at hc ⊢
  rw [List.length_set]
  split at hc
  · rename_i hle
    rw [if_pos hle]
    simp only [Option.some.injEq] at hc ⊢
    rw [← hc, ← List.set_take]
    congr 1
    rw [List.set_drop]
    congr 2
    omega
  · exact absurd hc (by simp)

theorem readAt_length (buf c : List Byte) (off len : Nat) (hc : readAt buf off len = some c) :
    c.length = len ∧ off + len ≤ buf.length := by
  unfold readAt at hc
  split at hc
  · simp only [Option.some.injEq] at hc
    subst hc
    simp
    omega
  · exact absurd hc (by simp)

theorem beNat_lt (c : List Byte) : beNat c < 256 ^ c.length := by
  induction c with
  | nil => simp [beNat]
  | cons b bs ih =>
    simp only [beNat, List.length_cons, pow_succ]
    have := b.isLt
    nlinarith

theorem beNat_set_ne (c : List Byte) (k : Nat) (v : Byte) (hk : k < c.length)
    (hv : v ≠ c.getD k 0) : beNat (c.set k v) ≠ beNat c := by
  induction c generalizing k with
  | nil => simp at hk
  | cons b bs ih =>
    cases k with
    | zero =>
      simp only [List.set_cons_zero, beNat, List.getD_cons_zero] at hv ⊢
      intro h
      have h2 : v.val * 256 ^ bs.length = b.val * 256 ^ bs.length := by omega
      have h3 : v.val = b.val := Nat.eq_of_mul_eq_mul_right (by positivity) h2
      exact hv (Fin.ext h3)
    | succ k =>
      simp only [List.set_cons_succ, beNat, List.length_set, List.getD_cons_succ] at hv ⊢
      have := ih k (by simpa using hk) hv
      omega

theorem toInt32_inj (a b : Nat) (ha : a < 4294967296) (hb : b < 4294967296)
    (h : toInt32 a = toInt32 b) : a = b := by
  unfold toInt32 at h
  rw [Nat.mod_eq_of_lt (by omega), Nat.mod_eq_of_lt (by omega)] at h
  split at h <;> split at h <;> omega

theorem GetBytes_corrupt_bytes (st : Stream) (n : Int) (i : Nat) (v : Byte) (h : st.pos ≤ i) :
    (Stream.GetBytes { st with data := st.data.set i v } n).1 =
      (st.GetBytes n).1.set (i - st.pos) v := by
  simp only [Stream.GetBytes]
  rw [← List.set_take, List.set_drop]
  congr 3
  omega

theorem GetBytes_corrupt_stream (st : Stream) (n : Int) (i : Nat) (v : Byte) :
    (Stream.GetBytes { st with data := st.data.set i v } n).2.2 =
      { (st.GetBytes n).2.2 with data := st.data.set i v } := by
  simp only [Stream.GetBytes, Stream.advance]
  have hl : (List.take n.toNat (List.drop st.pos (st.data.set i v))).length =
      (List.take n.toNat (List.drop st.pos st.data)).length := by
    simp [List.length_take, List.length_drop, List.length_set]
  rw [hl]

theorem GetBytes_data (st : Stream) (n : Int) : (st.GetBytes n).2.2.data = st.data := rfl

theorem GetBytes_pos (st : Stream) (n : Int) :
    (st.GetBytes n).2.2.pos = st.pos + (st.GetBytes n).1.length := rfl

theorem ReadInt_corrupt_behind (st : Stream) (i : Nat) (v : Byte) (h : i < st.pos) :
    (Stream.ReadInt { st with data := st.data.set i v }).1 = st.ReadInt.1 ∧
    (Stream.ReadInt { st with data := st.data.set i v }).2.1 = st.ReadInt.2.1 := by
  simp only [Stream.ReadInt, Stream.GetBytes]
  rw [List.drop_set_of_lt v st.data h]
  constructor <;> split <;> rfl

/-- With the buffer long enough and the reads inside it, `ReadHeader` returns
`headerResult` of what was read. -/
theorem ReadHeader_of_reads (K : Consts) (s : Scanner)
    (m version libversion neededversion method level flags name_len expected covered : List Byte)
    (hmin : ¬ (s.stream_.GetBytes K.HEADER_SIZE).1.length < K.MIN_HEADER_SIZE)
    (h0 : readAt (s.stream_.GetBytes K.HEADER_SIZE).1 0 9 = some m)
    (h1 : readAt (s.stream_.GetBytes K.HEADER_SIZE).1 9 2 = some version)
    (h2 : readAt (s.stream_.GetBytes K.HEADER_SIZE).1 (9 + 2) 2 = some libversion)
    (h3 : readAt (s.stream_.GetBytes K.HEADER_SIZE).1 (9 + 4) 2 = some neededversion)
    (h4 : readAt (s.stream_.GetBytes K.HEADER_SIZE).1 (9 + 6) 1 = some method)
    (h5 : readAt (s.stream_.GetBytes K.HEADER_SIZE).1 (9 + 7) 1 = some level)
    (h6 : readAt (s.stream_.GetBytes K.HEADER_SIZE).1 (9 + 8) 4 = some flags)
    (h7 : readAt (s.stream_.GetBytes K.HEADER_SIZE).1 (9 + 24) 1 = some name_len)
    (h8 : readAt (s.stream_.GetBytes K.HEADER_SIZE).1 (9 + 24 + beNat name_len + 1) 4 =
      some expected)
    (h9 : readAt (s.stream_.GetBytes K.HEADER_SIZE).1 9 (9 + 24 + beNat name_len + 1 - 9) =
      some covered) :
    ReadHeader K s = headerResult K { s with stream_ := (s.stream_.GetBytes K.HEADER_SIZE).2.2 }
      m version libversion neededversion method flags name_len expected covered := by
  unfold ReadHeader headerResult
  simp only []
  rw [if_neg hmin]
  simp only [h0, h1, h2, h3, h4, h5, h6, h7, h8, h9, Option.bind_eq_bind, Option.some_bind,
    Option.pure_def, checksumKind, headerComputed]

/-- A `ReadHeader` that returns on a buffer of at least the minimum size has
made all its reads inside the buffer. -/
theorem ReadHeader_reads (K : Consts) (s : Scanner) (r : Status × Scanner)
    (h : ReadHeader K s = some r)
    (hmin : ¬ (s.stream_.GetBytes K.HEADER_SIZE).1.length < K.MIN_HEADER_SIZE) :
    ∃ m version libversion neededversion method level flags name_len expected covered,
      readAt (s.stream_.GetBytes K.HEADER_SIZE).1 0 9 = some m ∧
      readAt (s.stream_.GetBytes K.HEADER_SIZE).1 9 2 = some version ∧
      readAt (s.stream_.GetBytes K.HEADER_SIZE).1 (9 + 2) 2 = some libversion ∧
      readAt (s.stream_.GetBytes K.HEADER_SIZE).1 (9 + 4) 2 = some neededversion ∧
      readAt (s.stream_.GetBytes K.HEADER_SIZE).1 (9 + 6) 1 = some method ∧
      readAt (s.stream_.GetBytes K.HEADER_SIZE).1 (9 + 7) 1 = some level ∧
      readAt (s.stream_.GetBytes K.HEADER_SIZE).1 (9 + 8) 4 = some flags ∧
      readAt (s.stream_.GetBytes K.HEADER_SIZE).1 (9 + 24) 1 = some name_len ∧
      readAt (s.stream_.GetBytes K.HEADER_SIZE).1 (9 + 24 + beNat name_len + 1) 4 =
        some expected ∧
      readAt (s.stream_.GetBytes K.HEADER_SIZE).1 9 (9 + 24 + beNat name_len + 1 - 9) =
        some covered := by
  unfold ReadHeader at h
  simp only [] at h
  rw [if_neg hmin] at h
  simp only [Option.bind_eq_bind, Option.pure_def, Option.bind_eq_some] at h
  obtain ⟨_, -, a, h0, a1, h1, a2, h2, a3, h3, a4, h4, a5, h5, a6, h6, a7, h7, a8, h8, a9, h9,
    -⟩ := h
  exact ⟨a, a1, a2, a3, a4, a5, a6, a7, a8, a9, h0, h1, h2, h3, h4, h5, h6, h7, h8, h9⟩

theorem ReadHeader_short (K : Consts) (s : Scanner)
    (hmin : (s.stream_.GetBytes K.HEADER_SIZE).1.length < K.MIN_HEADER_SIZE) :
    ReadHeader K s = some ([Msg.ReadOnly (s.stream_.GetBytes K.HEADER_SIZE).1.length],
      { s with stream_ := (s.stream_.GetBytes K.HEADER_SIZE).2.2 }) := by
  unfold ReadHeader
  simp only []
  rw [if_pos hmin]
  rfl

theorem readAt_getD (buf c : List Byte) (off len k : Nat) (hc : readAt buf off len = some c)
    (hk : k < len) : c.getD k 0 = buf.getD (off + k) 0 := by
  unfold readAt at hc
  split at hc
  · simp only [Option.some.injEq] at hc
    subst hc
    simp [List.getD_eq_getElem?_getD, List.getElem?_take, hk]
  · exact absurd hc (by simp)

theorem GetBytes_getD (st : Stream) (n : Int) (j : Nat) (hj : j < (st.GetBytes n).1.length) :
    (st.GetBytes n).1.getD j 0 = st.data.getD (st.pos + j) 0 := by
  simp only [Stream.GetBytes] at hj ⊢
  have : j < n.toNat := by
    rw [List.length_take] at hj
    omega
  simp [List.getD_eq_getElem?_getD, List.getElem?_take, this]

/-- An accepted header has a matching checksum and, with the extra-field flag,
a successful read of the extra-field length. -/
theorem headerResult_ok (K : Consts) (s0 s1 : Scanner)
    (m version libversion neededversion method flags name_len expected covered : List Byte)
    (h : headerResult K s0 m version libversion neededversion method flags name_len expected
      covered = some ([], s1)) :
    headerComputed K (beNat flags) covered = toInt32 (beNat expected) ∧
    (beNat flags &&& K.F_H_EXTRA_FIELD ≠ 0 → s0.stream_.ReadInt.1 = []) := by
  unfold headerResult at h
  simp only [] at h
  generalize (addErrorMsgIf (beNat flags &&& (K.F_RESERVED ||| K.F_MULTIPART ||| K.F_H_FILTER) ≠ 0)
    Msg.UnsupportedFlags _) = st5 at h
  by_cases hc : headerComputed K (beNat flags) covered = toInt32 (beNat expected)
  · refine ⟨hc, fun hx => ?_⟩
    rw [if_pos hx] at h
    by_cases hok : s0.stream_.ReadInt.1 = []
    · exact hok
    · rw [if_pos (by simpa [Status.ok] using hok)] at h
      simp only [Option.some.injEq, Prod.mk.injEq] at h
      exact absurd h.1 hok
  · exfalso
    have hne : addErrorMsgIf (headerComputed K (beNat flags) covered ≠ toInt32 (beNat expected))
        Msg.InvalidHeaderChecksum st5 ≠ [] := by
      simp [addErrorMsgIf, hc]
    split at h
    · split at h
      · rename_i hx hri
        simp only [Option.some.injEq, Prod.mk.injEq] at h
        simp [Status.ok, h.1] at hri
      · rw [if_pos (by simpa [Status.ok] using hne)] at h
        simp at h
    · rw [if_pos (by simpa [Status.ok] using hne)] at h
      simp at h

/-- A stored checksum that differs from the computed one is reported, whatever
else the header holds. -/
theorem headerResult_bad_checksum (K : Consts) (s0 : Scanner)
    (m version libversion neededversion method flags name_len expected covered : List Byte)
    (hc : headerComputed K (beNat flags) covered ≠ toInt32 (beNat expected))
    (hri : beNat flags &&& K.F_H_EXTRA_FIELD ≠ 0 → s0.stream_.ReadInt.1 = []) :
    ∃ st s2, headerResult K s0 m version libversion neededversion method flags name_len expected
      covered = some (st, s2) ∧ Msg.InvalidHeaderChecksum ∈ st := by
  unfold headerResult
  simp only []
  generalize (addErrorMsgIf (beNat flags &&& (K.F_RESERVED ||| K.F_MULTIPART ||| K.F_H_FILTER) ≠ 0)
    Msg.UnsupportedFlags _) = st5
  have hst : addErrorMsgIf (headerComputed K (beNat flags) covered ≠ toInt32 (beNat expected))
      Msg.InvalidHeaderChecksum st5 = st5 ++ [Msg.InvalidHeaderChecksum] := by
    simp [addErrorMsgIf, hc]
  rw [hst]
  by_cases hx : beNat flags &&& K.F_H_EXTRA_FIELD ≠ 0
  · rw [if_pos hx, if_neg (by simp [Status.ok, hri hx]), if_pos (by simp [Status.ok])]
    exact ⟨_, _, rfl, by simp⟩
  · rw [if_neg hx, if_pos (by simp [Status.ok])]
    exact ⟨_, _, rfl, by simp⟩

theorem beNat_singleton (c : List Byte) (h : c.length = 1) : beNat c = (c.getD 0 0).val := by
  match c, h with
  | [b], _ => simp [beNat]

/-- C3. For every header `ReadHeader` accepts, replacing any one of the four
bytes of the stored header checksum (file offset `pos + 34 + n + k`, `n` the
filename length byte, `k < 4`) by a different value makes `ReadHeader` return an
error that carries the invalid-header-checksum message, whatever the value `d`
of the scanner's checksum-disable switch. -/
theorem C3_header_checksum_byte_flip (K : Consts) (s s1 : Scanner)
    (hacc : ReadHeader K s = some ([], s1)) (k : Nat) (hk : k < 4) (v : Byte) (d : Bool)
    (hv : v ≠ s.stream_.data.getD
      (s.stream_.pos + 34 + ((s.stream_.data.drop s.stream_.pos).getD 33 0).val + k) 0) :
    ∃ st s2, ReadHeader K { corruptByte s
        (s.stream_.pos + 34 + ((s.stream_.data.drop s.stream_.pos).getD 33 0).val + k) v with
        disable_checksum_ := d } = some (st, s2) ∧
      Msg.InvalidHeaderChecksum ∈ st := by
  have hmin : ¬ (s.stream_.GetBytes K.HEADER_SIZE).1.length < K.MIN_HEADER_SIZE := by
    intro hlt
    rw [ReadHeader_short K s hlt] at hacc
    simp at hacc
  obtain ⟨m, ver, lib, need, meth, lev, fl, nl, ex, cov, h0, h1, h2, h3, h4, h5, h6, h7, h8, h9⟩ :=
    ReadHeader_reads K s _ hacc hmin
  rw [ReadHeader_of_reads K s m ver lib need meth lev fl nl ex cov hmin h0 h1 h2 h3 h4 h5 h6 h7
    h8 h9] at hacc
  obtain ⟨hcomp, hri⟩ := headerResult_ok K _ _ _ _ _ _ _ _ _ _ _ hacc
  obtain ⟨hl7, hb7⟩ := readAt_length _ _ _ _ h7
  obtain ⟨hl8, hb8⟩ := readAt_length _ _ _ _ h8
  have hnl : ((s.stream_.data.drop s.stream_.pos).getD 33 0).val = beNat nl := by
    rw [beNat_singleton nl hl7, readAt_getD _ _ _ _ 0 h7 (by omega),
      GetBytes_getD _ _ _ (by omega)]
    simp [List.getD_eq_getElem?_getD]
  rw [hnl] at hv ⊢
  generalize hn : beNat nl = n at *
  have hb : (Stream.GetBytes { s.stream_ with
        data := (s.stream_.data.set (s.stream_.pos + 34 + n + k) v) } K.HEADER_SIZE).1 =
      (s.stream_.GetBytes K.HEADER_SIZE).1.set (34 + n + k) v := by
    rw [GetBytes_corrupt_bytes _ _ _ _ (by omega)]
    congr 1
    omega
  have hex : ex.getD k 0 = s.stream_.data.getD (s.stream_.pos + 34 + n + k) 0 := by
    rw [readAt_getD _ _ _ _ k h8 hk, GetBytes_getD _ _ _ (by omega)]
    congr 1
    omega
  have hc : headerComputed K (beNat fl) cov ≠ toInt32 (beNat (ex.set k v)) := by
    rw [hcomp]
    intro heq
    have hlt1 := beNat_lt ex
    have hlt2 := beNat_lt (ex.set k v)
    rw [List.length_set] at hlt2
    rw [hl8] at hlt1 hlt2
    exact beNat_set_ne ex k v (by omega) (by rw [hex]; exact hv)
      (toInt32_inj _ _ (by omega) (by omega) heq).symm
  have h8a : readAt ((s.stream_.GetBytes K.HEADER_SIZE).1.set (34 + n + k) v) (9 + 24 + n + 1) 4 =
      some (ex.set k v) := by
    have := readAt_set_inside _ ex (34 + n + k) v (9 + 24 + n + 1) 4 (by omega) h8
    rw [this]
    congr 2
    omega
  rw [ReadHeader_of_reads K _ m ver lib need meth lev fl nl (ex.set k v) cov]
  · apply headerResult_bad_checksum K _ _ _ _ _ _ _ _ _ _ hc
    intro hx
    have hr := hri hx
    simp only [corruptByte]
    rw [GetBytes_corrupt_stream]
    have := (ReadInt_corrupt_behind (s.stream_.GetBytes K.HEADER_SIZE).2.2
      (s.stream_.pos + 34 + n + k) v (by rw [GetBytes_pos]; omega)).1
    rw [GetBytes_data] at this
    rw [this]
    exact hr
  · simp only [corruptByte]
    rw [hb, List.length_set]
    exact hmin
  · simp only [corruptByte]
    rw [hb, readAt_set_of_le _ _ _ _ _ (by omega)]
    exact h0
  · simp only [corruptByte]
    rw [hb, readAt_set_of_le _ _ _ _ _ (by omega)]
    exact h1
  · simp only [corruptByte]
    rw [hb, readAt_set_of_le _ _ _ _ _ (by omega)]
    exact h2
  · simp only [corruptByte]
    rw [hb, readAt_set_of_le _ _ _ _ _ (by omega)]
    exact h3
  · simp only [corruptByte]
    rw [hb, readAt_set_of_le _ _ _ _ _ (by omega)]
    exact h4
  · simp only [corruptByte]
    rw [hb, readAt_set_of_le _ _ _ _ _ (by omega)]
    exact h5
  · simp only [corruptByte]
    rw [hb, readAt_set_of_le _ _ _ _ _ (by omega)]
    exact h6
  · simp only [corruptByte]
    rw [hb, readAt_set_of_le _ _ _ _ _ (by omega)]
    exact h7
  · simp only [corruptByte]
    rw [hb, hn]
    exact h8a
  · simp only [corruptByte]
    rw [hb, hn, readAt_set_of_le _ _ _ _ _ (by omega)]
    exact h9

/-- Witness for C3: in `exampleHeader` (filename length 5) the third checksum
byte, at file offset 41, is replaced by `0xFF`. -/
theorem C3_header_checksum_byte_flip_witness :
    ∃ st s2, ReadHeader lzopConsts { corruptByte headerScanner
        (headerScanner.stream_.pos + 34 +
          ((headerScanner.stream_.data.drop headerScanner.stream_.pos).getD 33 0).val + 2) 0xFF with
        disable_checksum_ := true } = some (st, s2) ∧
      Msg.InvalidHeaderChecksum ∈ st :=
  C3_header_checksum_byte_flip lzopConsts headerScanner
    { headerScanner with
      stream_ := { headerScanner.stream_ with pos := 47 },
      header_ := ⟨LzoChecksum.CHECK_ADLER, LzoChecksum.CHECK_ADLER, 43, []⟩ }
    (by decide) 2 (by decide) 0xFF true (by decide)

/-! ## Block records -/

theorem drop_advance (data : List Byte) (pos : Nat) (bs rest : List Byte)
    (h : data.drop pos = bs ++ rest) : data.drop (pos + bs.length) = rest := by
  rw [← List.drop_drop, h, List.drop_left]

theorem GetBytes_ok (st : Stream) (bs rest : List Byte) (n : Int)
    (h : st.data.drop st.pos = bs ++ rest) (hn : n.toNat = bs.length) :
    st.GetBytes n = (bs, (st.advance bs.length).eosr, st.advance bs.length) := by
  simp only [Stream.GetBytes, h, hn, List.take_left]

theorem ReadInt_ok (st : Stream) (bs rest : List Byte)
    (h : st.data.drop st.pos = bs ++ rest) (hl : bs.length = 4) :
    st.ReadInt = ([], toInt32 (beNat bs), st.advance 4) := by
  unfold Stream.ReadInt
  rw [GetBytes_ok st bs rest 4 h (by rw [hl]; rfl)]
  simp [hl]

theorem advance_drop (st : Stream) (bs rest : List Byte)
    (h : st.data.drop st.pos = bs ++ rest) :
    (st.advance bs.length).data.drop (st.advance bs.length).pos = rest :=
  drop_advance _ _ _ _ h

theorem advance_advance (st : Stream) (a b : Nat) :
    (st.advance a).advance b = st.advance (a + b) := by
  simp [Stream.advance, Nat.add_assoc]

theorem be32_length (n : Nat) : (be32 n).length = 4 := rfl

theorem toInt32_be32 (n : Nat) (h : n < 2147483648) : toInt32 (beNat (be32 n)) = n := by
  rw [beNat_be32 n (by omega)]
  unfold toInt32
  rw [Nat.mod_eq_of_lt (by omega), if_pos (by omega)]

/-- C4. Stored-block identity: let the unread bytes of the stream start with a
block record whose two length fields both hold `len`, `0 < len ≤
LZO_MAX_BLOCK_SIZE`, followed by the output checksum field `ck` (present
exactly when the output checksum kind is not none) and `len` payload bytes, and
let the payload pass input verification.  Then `ReadAndDecompressData` succeeds,
whatever the decompressor is and without a run of the decompression timer, and
publishes the payload: `block_buffer_ptr_` points at the payload bytes handed
out by the stream and `bytes_remaining_` is `len`. -/
theorem C4_stored_block_identity (K : Consts) (L : Decompressor) (g : Int) (s : Scanner)
    (len : Nat) (ck payload post : List Byte)
    (hlen : 0 < len) (hlen31 : len < 2147483648) (hmax : (len : Int) ≤ K.LZO_MAX_BLOCK_SIZE)
    (hpay : payload.length = len)
    (hck : ck.length = if s.header_.output_checksum_type_ ≠ LzoChecksum.CHECK_NONE then 4 else 0)
    (hdata : s.stream_.data.drop s.stream_.pos = be32 len ++ (be32 len ++ (ck ++ (payload ++ post))))
    (hverify : Checksum K s.disable_checksum_ s.header_.input_checksum_type_ true
      (if s.header_.output_checksum_type_ ≠ LzoChecksum.CHECK_NONE then toInt32 (beNat ck) else g)
      payload len = some []) :
    ReadAndDecompressData K L g s = some ([],
      { s with
        stream_ := s.stream_.advance (4 + 4 + ck.length + payload.length),
        eos_read_ := (s.stream_.advance (4 + 4 + ck.length + payload.length)).eosr,
        block_buffer_ptr_ := ⟨payload, 0⟩,
        bytes_remaining_ := len }) := by
  have r1 := ReadInt_ok s.stream_ _ _ hdata (be32_length len)
  have d1 := advance_drop _ _ _ hdata
  rw [be32_length] at d1
  have r2 := ReadInt_ok _ _ _ d1 (be32_length len)
  have d2 := advance_drop _ _ _ d1
  rw [be32_length, advance_advance] at d2
  rw [advance_advance] at r2
  rw [toInt32_be32 len hlen31] at r1 r2
  have hne : ¬ ((len : Int) = 0) := by omega
  have hnmax : ¬ ((len : Int) > K.LZO_MAX_BLOCK_SIZE) := by omega
  unfold ReadAndDecompressData ReadBlockBody
  simp only [r1, r2]
  by_cases ho : s.header_.output_checksum_type_ = LzoChecksum.CHECK_NONE
  · have hck0 : ck = [] := by
      rw [ho] at hck
      exact List.length_eq_zero.mp (by simpa using hck)
    subst hck0
    have gb := GetBytes_ok _ payload post len d2 (by simp [hpay])
    rw [advance_advance] at gb
    simp only [ho, ne_eq, not_true_eq_false, if_false] at hverify
    simp [ho, gb, Status.ok, hne, hnmax, hverify, hpay]
  · have hck4 : ck.length = 4 := by simpa [ho] using hck
    have r3 := ReadInt_ok _ _ _ d2 hck4
    have d3 := advance_drop _ _ _ d2
    rw [advance_advance] at r3 d3
    have gb := GetBytes_ok _ payload post len d3 (by simp [hpay])
    rw [advance_advance, hck4] at gb
    simp only [ho, ne_eq, not_false_eq_true, if_true] at hverify
    simp [ho, r3, gb, Status.ok, hne, hnmax, hverify, hpay, hck4]

/-! ## Checksums detect a changed byte -/

/-- Folding the same bytes keeps two related states related. -/
theorem foldl_rel {σ : Type} (f : σ → Byte → σ) (R : σ → σ → Prop)
    (hstep : ∀ c c' b, R c c' → R (f c b) (f c' b)) (l : List Byte) :
    ∀ c c', R c c' → R (l.foldl f c) (l.foldl f c') := by
  induction l with
  | nil => intro c c' h; exact h
  | cons x xs ih => intro c c' h; exact ih _ _ (hstep c c' x h)

/-- Folding a byte string and the string with one byte replaced, from the same
state, ends in related states. -/
theorem foldl_set_rel {σ : Type} (f : σ → Byte → σ) (R : σ → σ → Prop) (D : σ → Prop)
    (hD : ∀ c b, D c → D (f c b))
    (hstep : ∀ c c' b, R c c' → R (f c b) (f c' b))
    (hbyte : ∀ c b b', D c → b ≠ b' → R (f c b) (f c b')) (l : List Byte) :
    ∀ (i : Nat) (v : Byte) (c0 : σ), i < l.length → v ≠ l.getD i 0 → D c0 →
      R (l.foldl f c0) ((l.set i v).foldl f c0) := by
  induction l with
  | nil => intro i v c0 hi; simp at hi
  | cons x xs ih =>
    intro i v c0 hi hv h0
    cases i with
    | zero =>
      simp only [List.set_cons_zero, List.foldl_cons, List.getD_cons_zero] at hv ⊢
      exact foldl_rel f R hstep xs _ _ (hbyte c0 x v h0 (Ne.symm hv))
    | succ k =>
      simp only [List.set_cons_succ, List.foldl_cons, List.getD_cons_succ] at hv ⊢
      exact ih k v (f c0 x) (by simpa using hi) hv (hD c0 x h0)

theorem crc32_bit_lt (c : Nat) (h : c < 2 ^ 32) : crc32_bit c < 2 ^ 32 := by
  unfold crc32_bit
  apply Nat.xor_lt_two_pow
  · rw [Nat.shiftRight_eq_div_pow]; omega
  · split <;> norm_num

theorem crc32_bit_inj (c c' : Nat) (h : c < 2 ^ 32) (h' : c' < 2 ^ 32)
    (he : crc32_bit c = crc32_bit c') : c = c' := by
  unfold crc32_bit at he
  rw [Nat.shiftRight_eq_div_pow, Nat.shiftRight_eq_div_pow] at he
  have hb : c / 2 ^ 1 < 2 ^ 31 := by omega
  have hb' : c' / 2 ^ 1 < 2 ^ 31 := by omega
  by_cases hc : c % 2 = 1 <;> by_cases hc' : c' % 2 = 1
  · rw [if_pos hc, if_pos hc'] at he
    have := Nat.xor_left_inj.mp he
    omega
  · rw [if_pos hc, if_neg hc'] at he
    exfalso
    have h1 := congrArg (fun x => x.testBit 31) he
    simp only [Nat.testBit_xor, Nat.testBit_lt_two_pow hb, Nat.testBit_lt_two_pow hb',
      Nat.xor_zero] at h1
    revert h1
    decide
  · rw [if_neg hc, if_pos hc'] at he
    exfalso
    have h1 := congrArg (fun x => x.testBit 31) he
    simp only [Nat.testBit_xor, Nat.testBit_lt_two_pow hb, Nat.testBit_lt_two_pow hb',
      Nat.xor_zero] at h1
    revert h1
    decide
  · rw [if_neg hc, if_neg hc'] at he
    simp only [Nat.xor_zero] at he
    omega

theorem crc32_bits_lt (n : Nat) (c : Nat) (h : c < 2 ^ 32) : crc32_bit^[n] c < 2 ^ 32 := by
  induction n generalizing c with
  | zero => exact h
  | succ n ih => rw [Function.iterate_succ_apply]; exact ih _ (crc32_bit_lt c h)

theorem crc32_bits_inj (n : Nat) (c c' : Nat) (h : c < 2 ^ 32) (h' : c' < 2 ^ 32)
    (he : crc32_bit^[n] c = crc32_bit^[n] c') : c = c' := by
  induction n generalizing c c' with
  | zero => exact he
  | succ n ih =>
    rw [Function.iterate_succ_apply, Function.iterate_succ_apply] at he
    exact crc32_bit_inj c c' h h' (ih _ _ (crc32_bit_lt c h) (crc32_bit_lt c' h') he)

theorem byte_lt_two_pow (b : Byte) : b.val < 2 ^ 32 := by
  have := b.isLt
  omega

theorem crc32_byte_lt (c : Nat) (b : Byte) (h : c < 2 ^ 32) : crc32_byte c b < 2 ^ 32 :=
  crc32_bits_lt 8 _ (Nat.xor_lt_two_pow h (byte_lt_two_pow b))

/-- CRC-32 of a byte string changes when one byte is replaced by another. -/
theorem lzo_crc32_set_ne (c : Nat) (l : List Byte) (i : Nat) (v : Byte) (hi : i < l.length)
    (hv : v ≠ l.getD i 0) : lzo_crc32 c l ≠ lzo_crc32 c (l.set i v) := by
  have hinit : (c % 2 ^ 32) ^^^ 0xffffffff < 2 ^ 32 :=
    Nat.xor_lt_two_pow (Nat.mod_lt _ (by norm_num)) (by norm_num)
  have key := foldl_set_rel crc32_byte (fun a b => a ≠ b ∧ a < 2 ^ 32 ∧ b < 2 ^ 32)
    (fun a => a < 2 ^ 32) (fun a b ha => crc32_byte_lt a b ha)
    (fun a a' b ⟨hne, ha, ha'⟩ =>
      ⟨fun he => hne (Nat.xor_left_inj.mp (crc32_bits_inj 8 _ _
          (Nat.xor_lt_two_pow ha (byte_lt_two_pow b)) (Nat.xor_lt_two_pow ha' (byte_lt_two_pow b))
          he)),
        crc32_byte_lt a b ha, crc32_byte_lt a' b ha'⟩)
    (fun a b b' ha hne =>
      ⟨fun he => hne (Fin.ext (Nat.xor_right_inj.mp (crc32_bits_inj 8 _ _
          (Nat.xor_lt_two_pow ha (byte_lt_two_pow b)) (Nat.xor_lt_two_pow ha (byte_lt_two_pow b'))
          he))),
        crc32_byte_lt a b ha, crc32_byte_lt a b' ha⟩)
    l i v _ hi hv hinit
  unfold lzo_crc32
  intro he
  exact key.1 (Nat.xor_left_inj.mp he)

theorem lzo_crc32_lt (c : Nat) (l : List Byte) : lzo_crc32 c l < 2 ^ 32 := by
  unfold lzo_crc32
  apply Nat.xor_lt_two_pow _ (by norm_num)
  have hinit : (c % 2 ^ 32) ^^^ 0xffffffff < 2 ^ 32 :=
    Nat.xor_lt_two_pow (Nat.mod_lt _ (by norm_num)) (by norm_num)
  generalize (c % 2 ^ 32) ^^^ 0xffffffff = c0 at hinit
  induction l generalizing c0 with
  | nil => exact hinit
  | cons x xs ih => exact ih _ (crc32_byte_lt c0 x hinit)

theorem adler_or_eq (x y : Nat) (hy : y < 65536) : x * 65536 ||| y = 65536 * x + y := by
  have := Nat.mul_add_lt_is_or (i := 16) (b := y) (by norm_num; exact hy) x
  norm_num at this
  rw [this, Nat.mul_comm]

theorem adler_fold_lt (l : List Byte) :
    ∀ a : Nat × Nat, a.1 < 65536 → a.2 < 65536 →
      (l.foldl adler32_byte a).1 < 65536 ∧ (l.foldl adler32_byte a).2 < 65536 := by
  induction l with
  | nil => intro a h1 h2; exact ⟨h1, h2⟩
  | cons x xs ih =>
    intro a _ _
    apply ih
    · simp only [adler32_byte]; omega
    · simp only [adler32_byte]; omega

theorem lzo_adler32_eq (adler : Nat) (l : List Byte) :
    lzo_adler32 adler l =
      65536 * (l.foldl adler32_byte
        ((adler % 2 ^ 32) % 65536, ((adler % 2 ^ 32) / 65536) % 65536)).2 +
      (l.foldl adler32_byte ((adler % 2 ^ 32) % 65536, ((adler % 2 ^ 32) / 65536) % 65536)).1 := by
  unfold lzo_adler32
  exact adler_or_eq _ _
    (adler_fold_lt l _ (Nat.mod_lt _ (by norm_num)) (Nat.mod_lt _ (by norm_num))).1

theorem lzo_adler32_lt (adler : Nat) (l : List Byte) : lzo_adler32 adler l < 2 ^ 32 := by
  rw [lzo_adler32_eq]
  have := adler_fold_lt l ((adler % 2 ^ 32) % 65536, ((adler % 2 ^ 32) / 65536) % 65536)
    (Nat.mod_lt _ (by norm_num)) (Nat.mod_lt _ (by norm_num))
  omega

/-- Adler-32 of a byte string changes when one byte is replaced by another. -/
theorem lzo_adler32_set_ne (adler : Nat) (l : List Byte) (i : Nat) (v : Byte)
    (hi : i < l.length) (hv : v ≠ l.getD i 0) :
    lzo_adler32 adler l ≠ lzo_adler32 adler (l.set i v) := by
  have key := foldl_set_rel adler32_byte
    (fun a b => a.1 ≠ b.1 ∧ a.1 < 65521 ∧ b.1 < 65521) (fun _ => True)
    (fun _ _ _ => trivial)
    (fun a a' b ⟨hne, ha, ha'⟩ => by
      simp only [adler32_byte]
      refine ⟨?_, Nat.mod_lt _ (by norm_num), Nat.mod_lt _ (by norm_num)⟩
      omega)
    (fun a b b' _ hne => by
      simp only [adler32_byte]
      refine ⟨?_, Nat.mod_lt _ (by norm_num), Nat.mod_lt _ (by norm_num)⟩
      have hb := b.isLt
      have hb' := b'.isLt
      have : b.val ≠ b'.val := fun h => hne (Fin.ext h)
      omega)
    l i v ((adler % 2 ^ 32) % 65536, ((adler % 2 ^ 32) / 65536) % 65536) hi hv trivial
  rw [lzo_adler32_eq, lzo_adler32_eq]
  have h1 := adler_fold_lt l ((adler % 2 ^ 32) % 65536, ((adler % 2 ^ 32) / 65536) % 65536)
    (Nat.mod_lt _ (by norm_num)) (Nat.mod_lt _ (by norm_num))
  have h2 := adler_fold_lt (l.set i v)
    ((adler % 2 ^ 32) % 65536, ((adler % 2 ^ 32) / 65536) % 65536)
    (Nat.mod_lt _ (by norm_num)) (Nat.mod_lt _ (by norm_num))
  have := key.1
  omega

theorem blockChecksum_lt (K : Consts) (type : LzoChecksum) (bytes : List Byte) :
    blockChecksum K type bytes < 4294967296 := by
  cases type
  · simp [blockChecksum]
  · exact lzo_crc32_lt _ _
  · exact lzo_adler32_lt _ _

theorem blockChecksum_set_ne (K : Consts) (type : LzoChecksum) (l : List Byte) (i : Nat)
    (v : Byte) (ht : type ≠ LzoChecksum.CHECK_NONE) (hi : i < l.length) (hv : v ≠ l.getD i 0) :
    blockChecksum K type l ≠ blockChecksum K type (l.set i v) := by
  cases type
  · exact absurd rfl ht
  · exact lzo_crc32_set_ne _ l i v hi hv
  · exact lzo_adler32_set_ne _ l i v hi hv

/-- With verification enabled, a buffer whose checksum is not the expected
value fails `Checksum`. -/
theorem Checksum_fail (K : Consts) (type : LzoChecksum) (c : Bool) (e : Int) (buf : List Byte)
    (len : Int) (ht : type ≠ LzoChecksum.CHECK_NONE) (hlen : len = buf.length)
    (hne : toInt32 (blockChecksum K type buf) ≠ e) :
    Checksum K false type c e buf len = some [Msg.ChecksumFailed c] := by
  subst hlen
  cases type
  · exact absurd rfl ht
  · simp [Checksum, blockChecksum] at hne ⊢
    exact hne
  · simp [Checksum, blockChecksum] at hne ⊢
    exact hne

/-- C5. Checksum enforcement: let checksum verification be enabled, the input
checksum kind be CRC32 or Adler32, and the unread bytes of the stream start
with a block record with `compressed_len < uncompressed_len`, `compressed_len`
at most `LZO_MAX_BLOCK_SIZE`, the output checksum field (when that kind is not
none), a stored input checksum that matches `payload`, and then the payload
with its byte `i` replaced by a different value `v`.  Then
`ReadAndDecompressData` fails with the checksum error of the compressed data,
whatever the decompressor is and without a run of the decompression timer, and
leaves `bytes_remaining_` at 0 and the block pointer where it was. -/
theorem C5_corrupt_payload_fails_input_checksum (K : Consts) (L : Decompressor) (g : Int)
    (s : Scanner) (ulen clen : Nat) (ock ick payload post : List Byte) (i : Nat) (v : Byte)
    (hen : s.disable_checksum_ = false)
    (hin : s.header_.input_checksum_type_ ≠ LzoChecksum.CHECK_NONE)
    (hlt : clen < ulen) (hu31 : ulen < 2147483648) (hmax : (clen : Int) ≤ K.LZO_MAX_BLOCK_SIZE)
    (hpay : payload.length = clen)
    (hock : ock.length = if s.header_.output_checksum_type_ ≠ LzoChecksum.CHECK_NONE then 4 else 0)
    (hick : ick.length = 4)
    (hmatch : toInt32 (beNat ick) =
      toInt32 (blockChecksum K s.header_.input_checksum_type_ payload))
    (hi : i < clen) (hv : v ≠ payload.getD i 0)
    (hdata : s.stream_.data.drop s.stream_.pos =
      be32 ulen ++ (be32 clen ++ (ock ++ (ick ++ (payload.set i v ++ post))))) :
    ReadAndDecompressData K L g s = some ([Msg.ChecksumFailed true],
      { s with
        stream_ := s.stream_.advance (4 + 4 + ock.length + 4 + clen),
        eos_read_ := (s.stream_.advance (4 + 4 + ock.length + 4 + clen)).eosr,
        bytes_remaining_ := 0 }) := by
  have r1 := ReadInt_ok s.stream_ _ _ hdata (be32_length ulen)
  have d1 := advance_drop _ _ _ hdata
  rw [be32_length] at d1
  have r2 := ReadInt_ok _ _ _ d1 (be32_length clen)
  have d2 := advance_drop _ _ _ d1
  rw [be32_length, advance_advance] at d2
  rw [advance_advance] at r2
  rw [toInt32_be32 ulen hu31] at r1
  rw [toInt32_be32 clen (by omega)] at r2
  have hne : ¬ ((ulen : Int) = 0) := by omega
  have hnmax : ¬ ((clen : Int) > K.LZO_MAX_BLOCK_SIZE) := by omega
  have hlt' : (clen : Int) < ulen := by omega
  have hneq : ¬ ((clen : Int) = ulen) := by omega
  have hfail : Checksum K false s.header_.input_checksum_type_ true (toInt32 (beNat ick))
      (payload.set i v) clen = some [Msg.ChecksumFailed true] := by
    apply Checksum_fail K _ _ _ _ _ hin (by simp [hpay])
    rw [hmatch]
    intro he
    exact blockChecksum_set_ne K _ payload i v hin (by omega) hv
      (toInt32_inj _ _ (blockChecksum_lt _ _ _) (blockChecksum_lt _ _ _) he).symm
  unfold ReadAndDecompressData ReadBlockBody
  simp only [r1, r2]
  by_cases ho : s.header_.output_checksum_type_ = LzoChecksum.CHECK_NONE
  · have hck0 : ock = [] := by
      rw [ho] at hock
      exact List.length_eq_zero.mp (by simpa using hock)
    subst hck0
    rw [List.nil_append] at d2
    have r4 := ReadInt_ok _ _ _ d2 hick
    have d4 := advance_drop _ _ _ d2
    rw [advance_advance, hick] at d4
    rw [advance_advance] at r4
    have gb := GetBytes_ok _ (payload.set i v) post clen d4 (by simp [hpay])
    rw [advance_advance, List.length_set, hpay] at gb
    simp [ho, r4, gb, Status.ok, hne, hnmax, hfail, hpay, hlt', hin, hen]
  · have hck4 : ock.length = 4 := by simpa [ho] using hock
    have r3 := ReadInt_ok _ _ _ d2 hck4
    have d3 := advance_drop _ _ _ d2
    rw [advance_advance] at r3 d3
    have r4 := ReadInt_ok _ _ _ d3 hick
    have d4 := advance_drop _ _ _ d3
    rw [advance_advance, hick, hck4] at d4
    rw [advance_advance, hck4] at r4
    have gb := GetBytes_ok _ (payload.set i v) post clen d4 (by simp [hpay])
    rw [advance_advance, List.length_set, hpay] at gb
    simp [ho, r3, r4, gb, Status.ok, hne, hnmax, hfail, hpay, hlt', hin, hen, hck4]

/-- Witness for C4: the first block of the three-block file, a stored block of
4 bytes with Adler32 checksum, read with verification on. -/
theorem C4_stored_block_identity_witness :
    ReadAndDecompressData lzopConsts noDecompressor 0
        (splitScanner threeBlockFile 43 95 [43, 59, 75]) = some ([],
      { splitScanner threeBlockFile 43 95 [43, 59, 75] with
        stream_ := (splitScanner threeBlockFile 43 95 [43, 59, 75]).stream_.advance
          (4 + 4 + (be32 (lzo_adler32 lzopConsts.ADLER32_INIT_VALUE block1)).length + block1.length),
        eos_read_ := ((splitScanner threeBlockFile 43 95 [43, 59, 75]).stream_.advance
          (4 + 4 + (be32 (lzo_adler32 lzopConsts.ADLER32_INIT_VALUE block1)).length +
            block1.length)).eosr,
        block_buffer_ptr_ := ⟨block1, 0⟩,
        bytes_remaining_ := ((4 : Nat) : Int) }) :=
  C4_stored_block_identity lzopConsts noDecompressor 0
    (splitScanner threeBlockFile 43 95 [43, 59, 75]) 4
    (be32 (lzo_adler32 lzopConsts.ADLER32_INIT_VALUE block1)) block1
    (storedBlock block2 ++ (storedBlock block3 ++ be32 0))
    (by decide) (by decide) (by decide) (by decide) (by decide) (by decide) (by decide)

/-- Witness for C5: a compressed record whose payload `[0x11, 0x22, 0x33, 0x44]`
has its second byte overwritten by `0xFF`. -/
theorem C5_corrupt_payload_fails_input_checksum_witness :
    ReadAndDecompressData lzopConsts noDecompressor 0
        (splitScanner corruptCompressedRecord 0 24 [0]) = some ([Msg.ChecksumFailed true],
      { splitScanner corruptCompressedRecord 0 24 [0] with
        stream_ := (splitScanner corruptCompressedRecord 0 24 [0]).stream_.advance
          (4 + 4 + (be32 0).length + 4 + 4),
        eos_read_ := ((splitScanner corruptCompressedRecord 0 24 [0]).stream_.advance
          (4 + 4 + (be32 0).length + 4 + 4)).eosr,
        bytes_remaining_ := 0 }) :=
  C5_corrupt_payload_fails_input_checksum lzopConsts noDecompressor 0
    (splitScanner corruptCompressedRecord 0 24 [0]) 8 4 (be32 0)
    (be32 (lzo_adler32 lzopConsts.ADLER32_INIT_VALUE [0x11, 0x22, 0x33, 0x44]))
    [0x11, 0x22, 0x33, 0x44] (be32 0) 1 0xFF
    (by decide) (by decide) (by decide) (by decide) (by decide) (by decide) (by decide)
    (by decide) (by decide) (by decide) (by decide) (by decide)

/-! ## Recovery and byte serving on concrete files -/

/-- The scanner on the intact three-block file: four requests for everything
available deliver the three payloads in order and then the end. -/
theorem threeBlockFile_served :
    (fillCalls lzopConsts noDecompressor 0 4 [0, 0, 0, 0]
        (splitScanner threeBlockFile 43 95 [43, 59, 75])).map Prod.fst =
      some [⟨[], false, 4, block1, 0⟩, ⟨[], false, 4, block2, 0⟩, ⟨[], false, 4, block3, 0⟩,
        ⟨[], true, 0, [], 0⟩] := by
  decide

/-- C6, the code at the failing inputs.  First: on the three-block file indexed
at its block starts 43, 59, 75, with block 2's payload corrupted and
abort-on-error off, the first `FillByteBuffer` call serves block 1 and the
second serves nothing and reports the end: the failed read stopped at offset
75, the search for an offset greater than 75 finds none, and block 3 is not
served.  Second: when the first block of a split fails to decompress and the
resynchronization lands at the end of the split, `ReadData` returns success
with `bytes_remaining_` still 8 and the block pointer at the buffer of the
failed block. -/
theorem C6_recovery_skips_clean_block :
    (fillCalls lzopConsts noDecompressor 0 4 [0, 0]
        (splitScanner corruptedFile 43 95 [43, 59, 75])).map Prod.fst =
      some [⟨[], false, 4, block1, 0⟩, ⟨[], true, 0, [], 0⟩] ∧
    (ReadData lzopConsts noDecompressor 0 4
        (splitScanner undecodableFile 43 63 [43, 63, 79])).map
        (fun r => (r.1, r.2.bytes_remaining_, r.2.block_buffer_ptr_, r.2.stream_.pos)) =
      some ([], 8, ⟨List.replicate 8 0, 0⟩, 79) := by
  constructor <;> decide

/-- C7, counterexample: the split `[43, 50)` of the three-block file ends inside
block 1 and is served one byte per call.  The first call reads the block and
serves one byte without the end flag.  The second call starts with the stream
past the split end, serves one byte and reports the end flag with 2 bytes of
the block still unserved, so the flag is true although neither `past_eosr_`
with an exhausted block nor `eos_read_` with an exhausted block holds. -/
theorem C7_counterexample :
    FillByteBuffer lzopConsts noDecompressor 0 4 1
        (splitScanner threeBlockFile 43 50 [43, 59, 75]) = some ([], false, afterFirstByte) ∧
    FillByteBuffer lzopConsts noDecompressor 0 4 1 afterFirstByte =
      some ([], true, afterSecondByte) ∧
    afterSecondByte.bytes_remaining_ = 2 ∧
    ¬ (true = true ↔
        ((afterSecondByte.past_eosr_ = true ∧ afterSecondByte.bytes_remaining_ = 0) ∨
          (afterSecondByte.eos_read_ = true ∧ afterSecondByte.bytes_remaining_ = 0))) := by
  refine ⟨by decide, by decide, by decide, by decide⟩

/-- C9, the code at the failing input: the split `[43, 59)` of `mixedFile` is
served by one request for everything available, which delivers block 1 and
reaches the end of the split, and then one request for 1024 bytes to finish the
last row.  That call reads and decodes the next block (4 bytes, `eos_read_`
set from `stream_->eosr()`), succeeds with a read size of 1024 although 4
bytes remain, and leaves `bytes_remaining_` at -1020. -/
theorem C9_oversized_serve :
    (fillCalls lzopConsts doublingDecompressor 0 4 [0, 1024]
        (splitScanner mixedFile 43 59 [43, 59])).map Prod.fst =
      some [⟨[], true, 4, block1, 0⟩, ⟨[], true, 1024, [0x61, 0x61, 0x0a, 0x0a], -1020⟩] := by
  decide

/-! ## ReadData and FillByteBuffer in general -/

/-- `DecompressBlock` changes neither the host's abort-on-error setting, nor
the header object, nor the flag `past_eosr_`. -/
theorem DecompressBlock_preserves (K : Consts) (L : Decompressor) (s5 : Scanner)
    (ulen clen ock : Int) (cd : List Byte) (r : Status × Scanner)
    (h : DecompressBlock K L s5 ulen clen ock cd = some r) :
    r.2.abort_on_error = s5.abort_on_error ∧ r.2.header_ = s5.header_ ∧
      r.2.past_eosr_ = s5.past_eosr_ := by
  unfold DecompressBlock at h
  simp only [Option.bind_eq_bind, Option.pure_def, Option.some_bind] at h
  split_ifs at h
  all_goals first
    | (cases h; exact ⟨rfl, rfl, rfl⟩)
    | (simp at h; done)
    | (rw [Option.bind_eq_some] at h
       obtain ⟨a, -, h⟩ := h
       split_ifs at h <;> (cases h; exact ⟨rfl, rfl, rfl⟩))

/-- `ReadBlockBody` changes neither the host's abort-on-error setting, nor the
header object, nor the flag `past_eosr_`. -/
theorem ReadBlockBody_preserves (K : Consts) (L : Decompressor) (g : Int) (s2 : Scanner)
    (ulen clen : Int) (r : Status × Scanner)
    (h : ReadBlockBody K L g s2 ulen clen = some r) :
    r.2.abort_on_error = s2.abort_on_error ∧ r.2.header_ = s2.header_ ∧
      r.2.past_eosr_ = s2.past_eosr_ := by
  unfold ReadBlockBody at h
  simp only [Option.bind_eq_bind, Option.pure_def, Option.some_bind] at h
  generalize (if s2.header_.output_checksum_type_ ≠ LzoChecksum.CHECK_NONE then s2.stream_.ReadInt
    else ([], g, s2.stream_)) = r3 at h
  generalize (if clen < ulen ∧ s2.header_.input_checksum_type_ ≠ LzoChecksum.CHECK_NONE then
    r3.2.2.ReadInt else ([], r3.2.1, r3.2.2)) = r4 at h
  generalize r4.2.2.GetBytes clen = gb at h
  split_ifs at h
  all_goals first
    | (simp only [Option.some.injEq] at h; subst h; exact ⟨rfl, rfl, rfl⟩)
    | (rw [Option.bind_eq_some] at h
       obtain ⟨a, -, h⟩ := h
       split_ifs at h
       all_goals first
         | (simp only [Option.some.injEq] at h; subst h; exact ⟨rfl, rfl, rfl⟩)
         | (have h2 := DecompressBlock_preserves K L _ _ _ _ _ r h
            exact h2))

/-- `ReadAndDecompressData` changes neither the host's abort-on-error setting,
nor the header object, nor the flag `past_eosr_`. -/
theorem ReadAndDecompressData_preserves (K : Consts) (L : Decompressor) (g : Int) (s : Scanner)
    (r : Status × Scanner) (h : ReadAndDecompressData K L g s = some r) :
    r.2.abort_on_error = s.abort_on_error ∧ r.2.header_ = s.header_ ∧
      r.2.past_eosr_ = s.past_eosr_ := by
  unfold ReadAndDecompressData at h
  simp only [] at h
  split_ifs at h
  all_goals first
    | (simp only [Option.some.injEq] at h; subst h; exact ⟨rfl, rfl, rfl⟩)
    | (have h2 := ReadBlockBody_preserves K L g _ _ _ r h
       exact h2)

/-- With no element greater than `val` the binary search never turns left and
ends at `end()`, sorted or not. -/
theorem upper_bound_loop_none (v : List Int) (val : Int) (hno : ∀ x ∈ v, ¬ val < x) :
    ∀ (fuel first len : Nat), len ≤ fuel → first + len = v.length →
      upper_bound_loop v val fuel first len = v.length := by
  intro fuel
  induction fuel with
  | zero =>
    intro first len hl hb
    simp only [upper_bound_loop]
    omega
  | succ n ih =>
    intro first len hl hb
    simp only [upper_bound_loop]
    by_cases h0 : len = 0
    · simp only [h0, if_true]; omega
    · simp only [h0, if_false]
      have hmid : first + len / 2 < v.length := by omega
      have hnot : ¬ val < v.getD (first + len / 2) 0 := by
        rw [List.getD_eq_getElem v 0 hmid]
        exact hno _ (List.getElem_mem hmid)
      simp only [hnot, if_false]
      exact ih _ _ (by omega) (by omega)

theorem FindFirstBlock_none (s : Scanner)
    (hno : ¬ ∃ x ∈ s.header_.offsets, (s.stream_.pos : Int) < x) :
    FindFirstBlock s = ([Msg.NoBlockIndex], s) := by
  have hend : upper_bound s.header_.offsets s.stream_.pos = s.header_.offsets.length :=
    upper_bound_loop_none _ _ (fun x hx hlt => hno ⟨x, hx, hlt⟩) _ 0 _ (le_refl _) (by omega)
  simp [FindFirstBlock, hend]

/-- C10. Outcomes of `ReadData` when the block read fails with status `r.1`,
leaving the scanner `r.2`: with abort-on-error set, `ReadData` returns exactly
that status and scanner, the stream where the failed read left it; with
abort-on-error off and no indexed offset greater than the file position after
the failed read, `ReadData` returns success with `eos_read_` set and
`bytes_remaining_` 0. -/
theorem C10_ReadData_failure_outcomes (K : Consts) (L : Decompressor) (g : Int) (fuel : Nat)
    (s : Scanner) (r : Status × Scanner)
    (h : ReadAndDecompressData K L g s = some r) (hfail : r.1 ≠ []) :
    (s.abort_on_error = true → ReadData K L g (fuel + 1) s = some r) ∧
    (s.abort_on_error = false →
      (¬ ∃ x ∈ s.header_.offsets, (r.2.stream_.pos : Int) < x) →
      ReadData K L g (fuel + 1) s =
        some ([], { r.2 with eos_read_ := true, bytes_remaining_ := 0 })) := by
  obtain ⟨hab, hhd, -⟩ := ReadAndDecompressData_preserves K L g s r h
  constructor
  · intro ha
    simp [ReadData, h, hab, ha]
  · intro ha hno
    have hf := FindFirstBlock_none r.2 (by rw [hhd]; exact hno)
    simp [ReadData, h, hab, ha, hf, Status.ok, hfail]

/-- Witness for C10: the corrupted three-block file, read from block 2 at
offset 59; the failed read stops at 75, the last indexed offset. -/
theorem C10_ReadData_failure_outcomes_witness :
    (ReadData lzopConsts noDecompressor 0 (3 + 1)
        { splitScanner corruptedFile 59 95 [43, 59, 75] with abort_on_error := true } =
      some ([Msg.ChecksumFailed true],
        { splitScanner corruptedFile 59 95 [43, 59, 75] with
          abort_on_error := true,
          stream_ := (splitScanner corruptedFile 59 95 [43, 59, 75]).stream_.advance 16 })) ∧
    (ReadData lzopConsts noDecompressor 0 (3 + 1) (splitScanner corruptedFile 59 95 [43, 59, 75]) =
      some ([], { splitScanner corruptedFile 59 95 [43, 59, 75] with
        stream_ := (splitScanner corruptedFile 59 95 [43, 59, 75]).stream_.advance 16,
        eos_read_ := true, bytes_remaining_ := 0 })) :=
  ⟨(C10_ReadData_failure_outcomes lzopConsts noDecompressor 0 3
      { splitScanner corruptedFile 59 95 [43, 59, 75] with abort_on_error := true }
      ([Msg.ChecksumFailed true],
        { splitScanner corruptedFile 59 95 [43, 59, 75] with
          abort_on_error := true,
          stream_ := (splitScanner corruptedFile 59 95 [43, 59, 75]).stream_.advance 16 })
      (by decide) (by decide)).1 rfl,
   (C10_ReadData_failure_outcomes lzopConsts noDecompressor 0 3
      (splitScanner corruptedFile 59 95 [43, 59, 75])
      ([Msg.ChecksumFailed true],
        { splitScanner corruptedFile 59 95 [43, 59, 75] with
          stream_ := (splitScanner corruptedFile 59 95 [43, 59, 75]).stream_.advance 16 })
      (by decide) (by decide)).2 rfl (by decide)⟩

/-- A block record that starts with `uncompressed_len == 0` ends the data: the
four bytes are consumed and `eos_read_` is set. -/
theorem ReadAndDecompressData_sentinel (K : Consts) (L : Decompressor) (g : Int) (s : Scanner)
    (post : List Byte) (hdata : s.stream_.data.drop s.stream_.pos = be32 0 ++ post) :
    ReadAndDecompressData K L g s =
      some ([], { s with bytes_remaining_ := 0, stream_ := s.stream_.advance 4,
                         eos_read_ := true }) := by
  have r1 := ReadInt_ok s.stream_ _ _ hdata (be32_length 0)
  rw [toInt32_be32 0 (by norm_num)] at r1
  unfold ReadAndDecompressData
  simp [r1, Status.ok]

/-- A block read that succeeds is what `ReadData` returns. -/
theorem ReadData_ok (K : Consts) (L : Decompressor) (g : Int) (fuel : Nat) (s : Scanner)
    (r : Status × Scanner) (h : ReadAndDecompressData K L g s = some r) (hok : r.1 = []) :
    ReadData K L g (fuel + 1) s = some r := by
  simp [ReadData, h, hok, Status.ok]

/-- C8. End-of-data sentinel: with no block bytes buffered and the unread bytes of
the stream starting with a block record whose `uncompressed_len` is 0 (so the
stream is not at end-of-file), `FillByteBuffer` succeeds for every request size
`num_bytes ≥ 0`, serves zero bytes, leaves `bytes_remaining_` at 0, sets
`eos_read_`, reports the end, and has moved the stream by the 4 bytes of the
length field only, whatever bytes `post` follow it. -/
theorem C8_end_of_data_sentinel (K : Consts) (L : Decompressor) (g : Int) (fuel : Nat)
    (num_bytes : Int) (s : Scanner) (post : List Byte)
    (hn : 0 ≤ num_bytes) (hrem : s.bytes_remaining_ = 0)
    (hdata : s.stream_.data.drop s.stream_.pos = be32 0 ++ post) :
    s.stream_.eof = false ∧
    ∃ s1, FillByteBuffer K L g (fuel + 1) num_bytes s = some ([], true, s1) ∧
      served s1 = [] ∧ s1.byte_buffer_read_size_ = 0 ∧ s1.bytes_remaining_ = 0 ∧
      s1.eos_read_ = true ∧ s1.stream_.pos = s.stream_.pos + 4 ∧
      s1.stream_.data = s.stream_.data := by
  have heof : s.stream_.eof = false := by
    simp only [Stream.eof, decide_eq_false_iff_not, not_le]
    by_contra hge
    have := List.drop_eq_nil_of_le (not_lt.mp hge)
    rw [this] at hdata
    simp [be32] at hdata
  refine ⟨heof, ?_⟩
  have hcond : (num_bytes = 0 ∧ s.bytes_remaining_ = 0) ∨ num_bytes > s.bytes_remaining_ := by
    rw [hrem]
    rcases eq_or_lt_of_le hn with h | h
    · exact Or.inl ⟨h.symm, rfl⟩
    · exact Or.inr h
  by_cases he : s.stream_.eosr = true
  · have hr := ReadData_ok K L g fuel _ _
      (ReadAndDecompressData_sentinel K L g
        { s with byte_buffer_read_size_ := 0,
                 stream_ := { s.stream_ with
                   read_past_buffer_size := K.MAX_BLOCK_COMPRESSED_SIZE },
                 past_eosr_ := true } post hdata) rfl
    unfold FillByteBuffer
    simp [heof, he, hcond, hr, Status.ok, ServeBytes, served, Ptr.span, Stream.advance]
  · have hr := ReadData_ok K L g fuel _ _
      (ReadAndDecompressData_sentinel K L g { s with byte_buffer_read_size_ := 0 } post hdata) rfl
    unfold FillByteBuffer
    simp [heof, he, hcond, hr, Status.ok, ServeBytes, served, Ptr.span, Stream.advance]

/-- Witness for C8: a sentinel followed by three more bytes, request size 1024. -/
theorem C8_end_of_data_sentinel_witness :
    (splitScanner (be32 0 ++ [1, 2, 3]) 0 7 []).stream_.eof = false ∧
    ∃ s1, FillByteBuffer lzopConsts noDecompressor 0 (0 + 1) 1024
        (splitScanner (be32 0 ++ [1, 2, 3]) 0 7 []) = some ([], true, s1) ∧
      served s1 = [] ∧ s1.byte_buffer_read_size_ = 0 ∧ s1.bytes_remaining_ = 0 ∧
      s1.eos_read_ = true ∧
      s1.stream_.pos = (splitScanner (be32 0 ++ [1, 2, 3]) 0 7 []).stream_.pos + 4 ∧
      s1.stream_.data = (splitScanner (be32 0 ++ [1, 2, 3]) 0 7 []).stream_.data :=
  C8_end_of_data_sentinel lzopConsts noDecompressor 0 0 1024
    (splitScanner (be32 0 ++ [1, 2, 3]) 0 7 []) [1, 2, 3] (by decide) rfl rfl

/-- The end flag `ServeBytes` reports on success. -/
theorem ServeBytes_end_flag (num_bytes : Int) (s2 s1 : Scanner) (eosr : Bool)
    (h : ServeBytes num_bytes s2 = ([], eosr, s1)) :
    eosr = true ↔ (s1.past_eosr_ = true ∨ (s1.eos_read_ = true ∧ s1.bytes_remaining_ = 0)) := by
  unfold ServeBytes at h
  simp only [] at h
  split at h
  · injection h with h1 h2
    exact absurd h1 (List.cons_ne_nil _ _)
  · injection h with h1 h2
    injection h2 with hflag hs
    rw [← hs, ← hflag]
    simp only [Bool.or_eq_true, Bool.and_eq_true, decide_eq_true_eq]

/-- The end flag of a successful `FillByteBuffer` call, in terms of the scanner
it leaves: true exactly when the stream was at end-of-file when the call began,
or `past_eosr_` is set, or `eos_read_` is set and `bytes_remaining_` is 0. -/
theorem FillByteBuffer_end_flag (K : Consts) (L : Decompressor) (g : Int) (fuel : Nat) (num_bytes : Int)
    (s s1 : Scanner) (eosr : Bool)
    (h : FillByteBuffer K L g fuel num_bytes s = some ([], eosr, s1)) :
    eosr = true ↔
      (s.stream_.eof = true ∨ s1.past_eosr_ = true ∨
        (s1.eos_read_ = true ∧ s1.bytes_remaining_ = 0)) := by
  unfold FillByteBuffer at h
  simp only [] at h
  by_cases heof : s.stream_.eof = true
  · rw [if_pos heof] at h
    injection h with h
    injection h with h1 h2
    injection h2 with hflag hs
    rw [← hflag]
    exact ⟨fun _ => Or.inl heof, fun _ => rfl⟩
  · rw [if_neg heof] at h
    split at h
    · exact absurd h (by simp)
    · rename_i status s2 _
      by_cases hnok : (!Status.ok status) = true
      · rw [if_pos hnok] at h
        injection h with h
        injection h with h1 h2
        rw [h1] at hnok
        exact absurd hnok (by decide)
      · rw [if_neg hnok] at h
        injection h with h
        exact (ServeBytes_end_flag num_bytes s2 s1 eosr h).trans
          ⟨fun hx => Or.inr hx, fun hx => hx.resolve_left heof⟩

/-! ## ReadHeader: the accumulated checks -/

theorem addErrorMsgIf_eq (c : Prop) [Decidable c] (m : Msg) (st : Status) :
    addErrorMsgIf c m st = st ++ failedChecks [(decide c, m)] := by
  by_cases h : c <;> simp [addErrorMsgIf, failedChecks, h]

theorem failedChecks_append (a b : List (Bool × Msg)) :
    failedChecks a ++ failedChecks b = failedChecks (a ++ b) := by
  simp [failedChecks]

theorem readAt_of_le (buf : List Byte) (off len : Nat) (h : off + len ≤ buf.length) :
    readAt buf off len = some ((buf.drop off).take len) := by
  unfold readAt
  rw [if_pos h]

/-- Without the extra-field flag `headerResult` reports the failed checks
followed by the summary message, or assigns the header size. -/
theorem headerResult_checks (K : Consts) (s1 : Scanner)
    (m version libversion neededversion method flags name_len expected covered : List Byte)
    (hextra : beNat flags &&& K.F_H_EXTRA_FIELD = 0) (failed : List Msg)
    (hf : failed = failedChecks
      [(decide (m ≠ LZOP_MAGIC), Msg.InvalidMagic),
       (decide (beNat version > K.LZOP_VERSION), Msg.LaterVersion),
       (decide (beNat libversion < K.MIN_LZO_VERSION), Msg.IncompatibleLzoVersion),
       (decide (beNat neededversion > K.LZOP_VERSION), Msg.IncompatibleNeededVersion),
       (decide (beNat method < 1 ∨ beNat method > 3), Msg.InvalidCompressionMethod),
       (decide (beNat flags &&& (K.F_RESERVED ||| K.F_MULTIPART ||| K.F_H_FILTER) ≠ 0),
         Msg.UnsupportedFlags),
       (decide (headerComputed K (beNat flags) covered ≠ toInt32 (beNat expected)),
         Msg.InvalidHeaderChecksum)]) :
    ∃ s2, headerResult K s1 m version libversion neededversion method flags name_len expected
        covered =
      some (if failed = [] then [] else failed ++ [Msg.InvalidHeaderInformation], s2) ∧
      (failed = [] →
        s2.header_.header_size_ = ((9 + 24 + beNat name_len + 1 : Nat) : Int) + 4) ∧
      (failed ≠ [] → s2.header_.header_size_ = s1.header_.header_size_) := by
  unfold headerResult
  simp only [addErrorMsgIf_eq, List.nil_append, List.append_assoc, failedChecks_append,
    List.singleton_append, List.cons_append]
  rw [← hf, if_neg (by simp [hextra])]
  by_cases h : failed = []
  · rw [if_neg (by simp [Status.ok, h]), if_pos h]
    exact ⟨_, rfl, fun _ => rfl, fun hne => absurd h hne⟩
  · rw [if_pos (by simpa [Status.ok] using h), if_neg h]
    exact ⟨_, rfl, fun he => absurd he h, fun _ => rfl⟩

/-- The accumulated checks of `ReadHeader` on a buffer that holds the whole
header.  Let `buf` be the buffer `GetBytes(HEADER_SIZE)` hands out, of at least
`MIN_HEADER_SIZE` bytes, holding the header up to the end of its checksum field
(`38 + n` bytes, `n` the filename length byte), without the extra-field flag.
`ReadHeader` returns an error if and only if at least one of the seven checks
fails: magic, version, library version, needed version, method, unsupported
flag bits, header checksum.  All checks are evaluated: the error carries one
message per failed check, in the order of the checks, followed by the summary
message "Invalid header information"; on error `header_size_` keeps its value,
and on success it is `38 + n`. -/
theorem ReadHeader_error_iff_of_fit (K : Consts) (s : Scanner) (buf : List Byte)
    (hbuf : (s.stream_.GetBytes K.HEADER_SIZE).1 = buf)
    (hmin : K.MIN_HEADER_SIZE ≤ buf.length)
    (hfit : 38 + fieldAt buf 33 1 ≤ buf.length)
    (hextra : fieldAt buf 17 4 &&& K.F_H_EXTRA_FIELD = 0) :
    ∃ st s1, ReadHeader K s = some (st, s1) ∧
      (st ≠ [] ↔
        (buf.take 9 ≠ LZOP_MAGIC ∨ fieldAt buf 9 2 > K.LZOP_VERSION ∨
         fieldAt buf 11 2 < K.MIN_LZO_VERSION ∨ fieldAt buf 13 2 > K.LZOP_VERSION ∨
         (fieldAt buf 15 1 < 1 ∨ fieldAt buf 15 1 > 3) ∨
         fieldAt buf 17 4 &&& (K.F_RESERVED ||| K.F_MULTIPART ||| K.F_H_FILTER) ≠ 0 ∨
         headerComputed K (fieldAt buf 17 4) ((buf.drop 9).take (25 + fieldAt buf 33 1)) ≠
           toInt32 (fieldAt buf (34 + fieldAt buf 33 1) 4))) ∧
      st = (if failedChecks (headerChecks K buf) = [] then []
            else failedChecks (headerChecks K buf) ++ [Msg.InvalidHeaderInformation]) ∧
      (st ≠ [] → s1.header_.header_size_ = s.header_.header_size_) ∧
      (st = [] → s1.header_.header_size_ = 38 + (fieldAt buf 33 1 : Int)) := by
  have hmin2 : ¬ (s.stream_.GetBytes K.HEADER_SIZE).1.length < K.MIN_HEADER_SIZE := by
    rw [hbuf]; omega
  have hrd := ReadHeader_of_reads K s _ _ _ _ _ _ _ _ _ _ hmin2
    (readAt_of_le _ 0 9 (by rw [hbuf]; omega)) (readAt_of_le _ 9 2 (by rw [hbuf]; omega))
    (readAt_of_le _ (9 + 2) 2 (by rw [hbuf]; omega))
    (readAt_of_le _ (9 + 4) 2 (by rw [hbuf]; omega))
    (readAt_of_le _ (9 + 6) 1 (by rw [hbuf]; omega))
    (readAt_of_le _ (9 + 7) 1 (by rw [hbuf]; omega))
    (readAt_of_le _ (9 + 8) 4 (by rw [hbuf]; omega))
    (readAt_of_le _ 33 1 (by rw [hbuf]; omega))
    (readAt_of_le _ (9 + 24 + beNat (((s.stream_.GetBytes K.HEADER_SIZE).1.drop 33).take 1)
      + 1) 4 (by rw [hbuf]; unfold fieldAt at hfit; omega))
    (readAt_of_le _ 9 (9 + 24 + beNat (((s.stream_.GetBytes K.HEADER_SIZE).1.drop 33).take 1)
      + 1 - 9) (by rw [hbuf]; unfold fieldAt at hfit; omega))
  rw [hbuf] at hrd
  obtain ⟨s2, hres, hok, herr⟩ := headerResult_checks K
    { s with stream_ := (s.stream_.GetBytes K.HEADER_SIZE).2.2 } _ _ _ _ _ _ _ _ _
    hextra _ rfl
  rw [hres] at hrd
  have hchecks : failedChecks (headerChecks K buf) = failedChecks
      [(decide ((buf.drop 0).take 9 ≠ LZOP_MAGIC), Msg.InvalidMagic),
       (decide (beNat ((buf.drop 9).take 2) > K.LZOP_VERSION), Msg.LaterVersion),
       (decide (beNat ((buf.drop 11).take 2) < K.MIN_LZO_VERSION), Msg.IncompatibleLzoVersion),
       (decide (beNat ((buf.drop 13).take 2) > K.LZOP_VERSION),
         Msg.IncompatibleNeededVersion),
       (decide (beNat ((buf.drop 15).take 1) < 1 ∨ beNat ((buf.drop 15).take 1) > 3),
         Msg.InvalidCompressionMethod),
       (decide (beNat ((buf.drop 17).take 4) &&&
           (K.F_RESERVED ||| K.F_MULTIPART ||| K.F_H_FILTER) ≠ 0), Msg.UnsupportedFlags),
       (decide (headerComputed K (beNat ((buf.drop 17).take 4))
           ((buf.drop 9).take (9 + 24 + beNat ((buf.drop 33).take 1) + 1 - 9)) ≠
           toInt32 (beNat ((buf.drop (9 + 24 + beNat ((buf.drop 33).take 1) + 1)).take 4))),
         Msg.InvalidHeaderChecksum)] := by
    have e1 : 9 + 24 + beNat ((buf.drop 33).take 1) + 1 - 9 =
        25 + beNat ((buf.drop 33).take 1) := by omega
    have e2 : 9 + 24 + beNat ((buf.drop 33).take 1) + 1 =
        34 + beNat ((buf.drop 33).take 1) := by omega
    rw [e1, e2]
    simp only [headerChecks, fieldAt, List.drop_zero]
  rw [← hchecks] at hrd hok herr
  refine ⟨_, s2, hrd, ?_, rfl, ?_, ?_⟩
  · have hnil : failedChecks (headerChecks K buf) = [] ↔
        (¬ buf.take 9 ≠ LZOP_MAGIC ∧ ¬ fieldAt buf 9 2 > K.LZOP_VERSION ∧
         ¬ fieldAt buf 11 2 < K.MIN_LZO_VERSION ∧ ¬ fieldAt buf 13 2 > K.LZOP_VERSION ∧
         ¬ (fieldAt buf 15 1 < 1 ∨ fieldAt buf 15 1 > 3) ∧
         ¬ fieldAt buf 17 4 &&& (K.F_RESERVED ||| K.F_MULTIPART ||| K.F_H_FILTER) ≠ 0 ∧
         ¬ headerComputed K (fieldAt buf 17 4) ((buf.drop 9).take (25 + fieldAt buf 33 1)) ≠
           toInt32 (fieldAt buf (34 + fieldAt buf 33 1) 4)) := by
      simp [failedChecks, headerChecks, List.filter_eq_nil_iff]
    by_cases he : failedChecks (headerChecks K buf) = []
    · rw [if_pos he]
      have := hnil.mp he
      tauto
    · rw [if_neg he]
      have := fun h => he (hnil.mpr h)
      constructor
      · intro _
        tauto
      · intro _
        simp
  · intro hne
    rw [herr (by
      intro he
      rw [if_pos he] at hne
      exact hne rfl)]
  · intro he
    rw [hok (by
      by_contra hne
      rw [if_neg hne] at he
      simp at he)]
    unfold fieldAt
    push_cast
    omega

/-- On `damagedHeader` three checks fail and all three are reported, followed by
the summary message. -/
theorem damagedHeader_messages :
    (ReadHeader lzopConsts damagedHeaderScanner).map Prod.fst =
      some [Msg.InvalidMagic, Msg.InvalidCompressionMethod, Msg.InvalidHeaderChecksum,
        Msg.InvalidHeaderInformation] := by
  decide

/-- The accumulated checks on `damagedHeader`, a 47-byte buffer with filename
length 5. -/
theorem ReadHeader_error_iff_of_fit_damagedHeader :
    ∃ st s1, ReadHeader lzopConsts damagedHeaderScanner = some (st, s1) ∧
      (st ≠ [] ↔
        ((damagedHeader ++ [0, 0, 0, 0]).take 9 ≠ LZOP_MAGIC ∨
         fieldAt (damagedHeader ++ [0, 0, 0, 0]) 9 2 > lzopConsts.LZOP_VERSION ∨
         fieldAt (damagedHeader ++ [0, 0, 0, 0]) 11 2 < lzopConsts.MIN_LZO_VERSION ∨
         fieldAt (damagedHeader ++ [0, 0, 0, 0]) 13 2 > lzopConsts.LZOP_VERSION ∨
         (fieldAt (damagedHeader ++ [0, 0, 0, 0]) 15 1 < 1 ∨
           fieldAt (damagedHeader ++ [0, 0, 0, 0]) 15 1 > 3) ∨
         fieldAt (damagedHeader ++ [0, 0, 0, 0]) 17 4 &&&
           (lzopConsts.F_RESERVED ||| lzopConsts.F_MULTIPART ||| lzopConsts.F_H_FILTER) ≠ 0 ∨
         headerComputed lzopConsts (fieldAt (damagedHeader ++ [0, 0, 0, 0]) 17 4)
             (((damagedHeader ++ [0, 0, 0, 0]).drop 9).take
               (25 + fieldAt (damagedHeader ++ [0, 0, 0, 0]) 33 1)) ≠
           toInt32 (fieldAt (damagedHeader ++ [0, 0, 0, 0])
             (34 + fieldAt (damagedHeader ++ [0, 0, 0, 0]) 33 1) 4))) ∧
      st = (if failedChecks (headerChecks lzopConsts (damagedHeader ++ [0, 0, 0, 0])) = [] then []
            else failedChecks (headerChecks lzopConsts (damagedHeader ++ [0, 0, 0, 0])) ++
              [Msg.InvalidHeaderInformation]) ∧
      (st ≠ [] → s1.header_.header_size_ = damagedHeaderScanner.header_.header_size_) ∧
      (st = [] → s1.header_.header_size_ =
        38 + (fieldAt (damagedHeader ++ [0, 0, 0, 0]) 33 1 : Int)) :=
  ReadHeader_error_iff_of_fit lzopConsts damagedHeaderScanner (damagedHeader ++ [0, 0, 0, 0])
    (by decide) (by decide) (by decide) (by decide)

/-! ## FillByteBuffer: the unexpected read size -/

/-- `FillByteBuffer` is its end-of-file test, then `FillRead`, then `ServeBytes`. -/
theorem FillByteBuffer_halves (K : Consts) (L : Decompressor) (g : Int) (fuel : Nat)
    (num_bytes : Int) (s : Scanner) :
    FillByteBuffer K L g fuel num_bytes s =
      if s.stream_.eof then some ([], true, { s with byte_buffer_read_size_ := 0 })
      else
        match FillRead K L g fuel num_bytes s with
        | none => none
        | some (status, s2) =>
          if !(Status.ok status) then some (status, false, s2)
          else some (ServeBytes num_bytes s2) := rfl

/-- C13, the code at the failing inputs: on the three-block file indexed at its
block starts 43, 59, 75, `FindFirstBlock` called at the indexed offset 59
succeeds and leaves the stream at 75, having skipped the 16 bytes of block 2;
called at the last indexed offset 75 it fails with "No block index" and leaves
the stream where it was. -/
theorem C13_indexed_offset_skipped :
    (FindFirstBlock (splitScanner threeBlockFile 59 95 [43, 59, 75])).1 = [] ∧
    (FindFirstBlock (splitScanner threeBlockFile 59 95 [43, 59, 75])).2.stream_.pos = 75 ∧
    FindFirstBlock (splitScanner threeBlockFile 75 95 [43, 59, 75]) =
      ([Msg.NoBlockIndex], splitScanner threeBlockFile 75 95 [43, 59, 75]) := by
  refine ⟨by decide, by decide, by decide⟩

/-- C14, counterexample: a scanner constructed with the default configuration
has `disable_checksum_` set, and its `Checksum` accepts block 1 against the
expected Adler32 value 0, which is not the block's checksum. -/
theorem C14_counterexample :
    (construct ⟨threeBlockFile, 43, 95, true, 0⟩
      ⟨LzoChecksum.CHECK_ADLER, LzoChecksum.CHECK_ADLER, 43, [43, 59, 75]⟩
      false).disable_checksum_ = true ∧
    toInt32 (lzo_adler32 lzopConsts.ADLER32_INIT_VALUE block1) ≠ 0 ∧
    Checksum lzopConsts
      (construct ⟨threeBlockFile, 43, 95, true, 0⟩
        ⟨LzoChecksum.CHECK_ADLER, LzoChecksum.CHECK_ADLER, 43, [43, 59, 75]⟩
        false).disable_checksum_
      LzoChecksum.CHECK_ADLER true 0 block1 4 = some [] := by
  refine ⟨by decide, by decide, by decide⟩

/-- C14, as the code has it.  The switch is on by default: a scanner constructed
with the default configuration has `disable_checksum_ == true`, and with the
switch on `Checksum` succeeds for every kind, expected value, buffer and
length, without computing anything (also for a length that exceeds the
buffer).  With the switch off, `Checksum` succeeds for kind None without
computing anything, and for kind CRC32 or Adler32 it returns an error when the
checksum computed over the first `len` bytes of the buffer differs from the expected
one and succeeds when they are equal. -/
theorem C14_checksum_switch (K : Consts) (stream : Stream) (header : LzoFileHeader)
    (abort : Bool) (type : LzoChecksum) (c : Bool) (e : Int) (buf : List Byte) (len : Int) :
    (construct stream header abort).disable_checksum_ = true ∧
    Checksum K true type c e buf len = some [] ∧
    Checksum K false LzoChecksum.CHECK_NONE c e buf len = some [] ∧
    (type ≠ LzoChecksum.CHECK_NONE → 0 ≤ len → len.toNat ≤ buf.length →
      toInt32 (blockChecksum K type (buf.take len.toNat)) ≠ e →
      Checksum K false type c e buf len = some [Msg.ChecksumFailed c]) ∧
    (type ≠ LzoChecksum.CHECK_NONE → 0 ≤ len → len.toNat ≤ buf.length →
      toInt32 (blockChecksum K type (buf.take len.toNat)) = e →
      Checksum K false type c e buf len = some []) := by
  refine ⟨rfl, by simp [Checksum], by simp [Checksum], ?_, ?_⟩
  · intro ht h0 hle hne
    cases type
    · exact absurd rfl ht
    · simp only [blockChecksum] at hne
      simp [Checksum, h0, hle, hne]
    · simp only [blockChecksum] at hne
      simp [Checksum, h0, hle, hne]
  · intro ht h0 hle heq
    cases type
    · exact absurd rfl ht
    · simp only [blockChecksum] at heq
      simp [Checksum, h0, hle, heq]
    · simp only [blockChecksum] at heq
      simp [Checksum, h0, hle, heq]

/-- Witness for C14: with the switch off, block 1 fails against the expected
Adler32 value 0 and passes against its own checksum. -/
theorem C14_checksum_switch_witness :
    Checksum lzopConsts false LzoChecksum.CHECK_ADLER true 0 block1 4 =
      some [Msg.ChecksumFailed true] ∧
    Checksum lzopConsts false LzoChecksum.CHECK_ADLER true
      (toInt32 (blockChecksum lzopConsts LzoChecksum.CHECK_ADLER block1)) block1 4 = some [] :=
  ⟨(C14_checksum_switch lzopConsts ⟨[], 0, 0, true, 0⟩
      ⟨LzoChecksum.CHECK_ADLER, LzoChecksum.CHECK_ADLER, 43, []⟩ false LzoChecksum.CHECK_ADLER true
      0 block1 4).2.2.2.1 (by decide) (by decide) (by decide) (by decide),
   (C14_checksum_switch lzopConsts ⟨[], 0, 0, true, 0⟩
      ⟨LzoChecksum.CHECK_ADLER, LzoChecksum.CHECK_ADLER, 43, []⟩ false LzoChecksum.CHECK_ADLER true
      (toInt32 (blockChecksum lzopConsts LzoChecksum.CHECK_ADLER block1)) block1 4).2.2.2.2
      (by decide) (by decide) (by decide) rfl⟩

/-! ## Block records: length and checksum fields -/

/-- The first two reads of `ReadAndDecompressData` on a record that starts with
the 4-byte fields `ub` and `cb`, the first not zero. -/
theorem ReadAndDecompressData_lengths (K : Consts) (L : Decompressor) (g : Int) (s : Scanner)
    (ub cb post : List Byte) (hub : ub.length = 4) (hcb : cb.length = 4)
    (hdata : s.stream_.data.drop s.stream_.pos = ub ++ (cb ++ post))
    (hu : toInt32 (beNat ub) ≠ 0) :
    ReadAndDecompressData K L g s =
      if toInt32 (beNat cb) > K.LZO_MAX_BLOCK_SIZE then
        some ([Msg.BlockTooLarge],
          { s with bytes_remaining_ := 0, stream_ := s.stream_.advance 8 })
      else ReadBlockBody K L g
        { s with bytes_remaining_ := 0, stream_ := s.stream_.advance 8 }
        (toInt32 (beNat ub)) (toInt32 (beNat cb)) := by
  have r1 := ReadInt_ok s.stream_ _ _ hdata hub
  have d1 := advance_drop _ _ _ hdata
  rw [hub] at d1
  have r2 := ReadInt_ok _ _ _ d1 hcb
  rw [advance_advance] at r2
  unfold ReadAndDecompressData
  simp only [r1, r2, hub]
  simp [Status.ok, hu]

/-- C15. Let the unread bytes of the stream start with a block record whose
first field, `uncompressed_len`, is not 0, followed by the 4 bytes of
`compressed_len`.  When `compressed_len` (as an `int32_t`) exceeds
`LZO_MAX_BLOCK_SIZE`, `ReadAndDecompressData` fails with the block-too-large
error, the stream moved by exactly the 8 bytes of the two length fields
whatever bytes follow, `bytes_remaining_` 0 and nothing else changed.
Consequently, whenever a call on such a record moves the stream beyond the two
length fields (to read checksums or payload), `compressed_len` is at most
`LZO_MAX_BLOCK_SIZE`. -/
theorem C15_block_too_large (K : Consts) (L : Decompressor) (g : Int) (s : Scanner)
    (ub cb post : List Byte) (hub : ub.length = 4) (hcb : cb.length = 4)
    (hdata : s.stream_.data.drop s.stream_.pos = ub ++ (cb ++ post))
    (hu : toInt32 (beNat ub) ≠ 0) :
    (toInt32 (beNat cb) > K.LZO_MAX_BLOCK_SIZE →
      ReadAndDecompressData K L g s =
        some ([Msg.BlockTooLarge],
          { s with bytes_remaining_ := 0, stream_ := s.stream_.advance 8 })) ∧
    (∀ r, ReadAndDecompressData K L g s = some r → s.stream_.pos + 8 < r.2.stream_.pos →
      toInt32 (beNat cb) ≤ K.LZO_MAX_BLOCK_SIZE) := by
  have h := ReadAndDecompressData_lengths K L g s ub cb post hub hcb hdata hu
  constructor
  · intro hc
    rw [h, if_pos hc]
  · intro r hr hpos
    by_contra hc
    rw [h, if_pos (not_le.mp hc)] at hr
    simp only [Option.some.injEq] at hr
    subst hr
    simp [Stream.advance] at hpos

/-- Witness for C15: a record with `uncompressed_len` 4 and `compressed_len`
`0x7fffffff`, followed by three more bytes. -/
theorem C15_block_too_large_witness :
    (toInt32 (beNat (be32 0x7fffffff)) > lzopConsts.LZO_MAX_BLOCK_SIZE →
      ReadAndDecompressData lzopConsts noDecompressor 0
          (splitScanner (be32 4 ++ (be32 0x7fffffff ++ [1, 2, 3])) 0 11 []) =
        some ([Msg.BlockTooLarge],
          { splitScanner (be32 4 ++ (be32 0x7fffffff ++ [1, 2, 3])) 0 11 [] with
            bytes_remaining_ := 0,
            stream_ :=
              (splitScanner (be32 4 ++ (be32 0x7fffffff ++ [1, 2, 3])) 0 11 []).stream_.advance
                8 })) ∧
    (∀ r, ReadAndDecompressData lzopConsts noDecompressor 0
          (splitScanner (be32 4 ++ (be32 0x7fffffff ++ [1, 2, 3])) 0 11 []) = some r →
      (splitScanner (be32 4 ++ (be32 0x7fffffff ++ [1, 2, 3])) 0 11 []).stream_.pos + 8 <
        r.2.stream_.pos →
      toInt32 (beNat (be32 0x7fffffff)) ≤ lzopConsts.LZO_MAX_BLOCK_SIZE) :=
  C15_block_too_large lzopConsts noDecompressor 0
    (splitScanner (be32 4 ++ (be32 0x7fffffff ++ [1, 2, 3])) 0 11 [])
    (be32 4) (be32 0x7fffffff) [1, 2, 3] rfl rfl rfl (by decide)

/-- C16, the code at the failing input: the stored block of
`inputChecksumOnlyFile` has neither an output nor an input checksum field, and
the input checksum kind is Adler32 with verification on.  The value the payload
is verified against is the uninitialised local `out_checksum`: when it happens
to hold the Adler32 checksum of the payload the block is accepted, and when it
holds 0, or 7, the block is rejected with the checksum error of the compressed
data, the stream behind the payload. -/
theorem C16_uninitialised_out_checksum :
    (ReadAndDecompressData lzopConsts noDecompressor
        (toInt32 (lzo_adler32 lzopConsts.ADLER32_INIT_VALUE block1))
        inputChecksumOnlyScanner).map (fun r => (r.1, r.2.bytes_remaining_)) = some ([], 4) ∧
    (ReadAndDecompressData lzopConsts noDecompressor 0 inputChecksumOnlyScanner).map
        (fun r => (r.1, r.2.stream_.pos)) = some ([Msg.ChecksumFailed true], 12) ∧
    (ReadAndDecompressData lzopConsts noDecompressor 7 inputChecksumOnlyScanner).map
        (fun r => (r.1, r.2.stream_.pos)) = some ([Msg.ChecksumFailed true], 12) := by
  refine ⟨by decide, by decide, by decide⟩

set_option maxRecDepth 100000 in
/-- C17, the code at the failing inputs.  Both files start with
`extraFieldHeader`: 43 header bytes with the extra-field flag, then the
extra-field length 2, two extra bytes and the extra-field checksum, 53 bytes in
all.  `ReadHeader` takes the extra-field length from the stream behind the
`HEADER_SIZE` bytes it has already consumed.  On the file of 73 bytes the
stream is at its end, the read of the length fails and `ReadHeader` returns that
error without assigning `header_size_`.  On the file of 316 bytes the length is
read at the file offsets 300 to 303, inside the payload of the first block, and
`header_size_` becomes `43 + 8 + 0x61616161` instead of 53. -/
theorem C17_extra_length_read_behind_buffer :
    extraFieldHeader.length = 53 ∧
    (ReadHeader lzopConsts (headerRangeScanner shortExtraFieldFile)).map
        (fun r => (r.1, r.2.header_.header_size_, r.2.stream_.pos)) =
      some ([Msg.StreamIncompleteRead], 0, 73) ∧
    (ReadHeader lzopConsts (headerRangeScanner longExtraFieldFile)).map
        (fun r => (r.1, r.2.header_.header_size_, r.2.stream_.pos)) =
      some ([], 43 + 8 + 0x61616161, 304) := by
  refine ⟨by decide, by decide, by decide⟩

/-! ## The decode buffer capacity -/

theorem ReadInt_compact (st : Stream) : st.ReadInt.2.2.compact_data = st.compact_data := by
  unfold Stream.ReadInt
  simp only []
  split <;> rfl

theorem GetBytes_compact (st : Stream) (n : Int) :
    (st.GetBytes n).2.2.compact_data = st.compact_data := rfl

/-- The capacity after `if (!compact_data) block_buffer_len_ = 0` and
`if (uncompressed_len > block_buffer_len_) block_buffer_len_ = uncompressed_len`. -/
theorem grown_len (compact : Bool) (len ulen : Int) :
    (compact = true → len ≤
      (if decide (ulen > if (!compact) = true then 0 else len) = true then ulen
       else if (!compact) = true then 0 else len)) ∧
    (ulen ≤
      (if decide (ulen > if (!compact) = true then 0 else len) = true then ulen
       else if (!compact) = true then 0 else len)) ∧
    (compact = false → 0 ≤ ulen →
      (if decide (ulen > if (!compact) = true then 0 else len) = true then ulen
       else if (!compact) = true then 0 else len) = ulen) := by
  cases compact <;> simp <;> (try split_ifs) <;> (try omega)

/-- What `DecompressBlock` does to the decode buffer capacity. -/
theorem DecompressBlock_len (K : Consts) (L : Decompressor) (s5 : Scanner)
    (ulen clen ock : Int) (cd : List Byte) (r : Status × Scanner)
    (h : DecompressBlock K L s5 ulen clen ock cd = some r) :
    r.2.decompress_timer_ = s5.decompress_timer_ + 1 ∧
    (s5.stream_.compact_data = true → s5.block_buffer_len_ ≤ r.2.block_buffer_len_) ∧
    (r.1 = [] → r.2.bytes_remaining_ ≤ r.2.block_buffer_len_) ∧
    (s5.stream_.compact_data = false → r.1 = [] →
      r.2.block_buffer_len_ = r.2.bytes_remaining_) := by
  obtain ⟨g1, g2, g3⟩ := grown_len s5.stream_.compact_data s5.block_buffer_len_ ulen
  unfold DecompressBlock at h
  simp only [Option.bind_eq_bind, Option.pure_def, Option.some_bind] at h
  generalize hd : L (List.take clen.toNat cd) ulen.toNat = d at h
  by_cases hb : ¬ (0 ≤ clen ∧ clen.toNat ≤ cd.length)
  · rw [if_pos hb] at h
    simp at h
  · rw [if_neg hb] at h
    by_cases hf : d.1 ≠ 0 ∨ ulen ≠ (d.2.length : Int)
    · rw [if_pos hf] at h
      simp only [Option.some.injEq] at h
      subst h
      exact ⟨rfl, g1, fun hnil => absurd hnil (List.cons_ne_nil _ _),
        fun _ hnil => absurd hnil (List.cons_ne_nil _ _)⟩
    · rw [if_neg hf] at h
      have hu : 0 ≤ ulen := by
        have : ulen = (d.2.length : Int) := by
          by_contra hne
          exact hf (Or.inr hne)
        omega
      rw [Option.bind_eq_some] at h
      obtain ⟨a, -, h⟩ := h
      by_cases hok : (!Status.ok a) = true
      · rw [if_pos hok] at h
        simp only [Option.some.injEq] at h
        subst h
        exact ⟨rfl, g1, fun _ => g2, fun hc _ => g3 hc hu⟩
      · rw [if_neg hok] at h
        simp only [Option.some.injEq] at h
        subst h
        exact ⟨rfl, g1, fun _ => g2, fun hc _ => g3 hc hu⟩

/-- What `ReadBlockBody` does to the decode buffer capacity. -/
theorem ReadBlockBody_len (K : Consts) (L : Decompressor) (g : Int) (s2 : Scanner)
    (ulen clen : Int) (r : Status × Scanner)
    (h : ReadBlockBody K L g s2 ulen clen = some r) :
    (s2.stream_.compact_data = true → s2.block_buffer_len_ ≤ r.2.block_buffer_len_) ∧
    (r.1 = [] → r.2.decompress_timer_ ≠ s2.decompress_timer_ →
      r.2.bytes_remaining_ ≤ r.2.block_buffer_len_) ∧
    (s2.stream_.compact_data = false → r.1 = [] →
      r.2.decompress_timer_ ≠ s2.decompress_timer_ →
      r.2.block_buffer_len_ = r.2.bytes_remaining_) := by
  unfold ReadBlockBody at h
  simp only [Option.bind_eq_bind, Option.pure_def, Option.some_bind] at h
  have hc3 : (if s2.header_.output_checksum_type_ ≠ LzoChecksum.CHECK_NONE then s2.stream_.ReadInt
      else ([], g, s2.stream_)).2.2.compact_data = s2.stream_.compact_data := by
    split
    · exact ReadInt_compact _
    · rfl
  generalize (if s2.header_.output_checksum_type_ ≠ LzoChecksum.CHECK_NONE then s2.stream_.ReadInt
    else ([], g, s2.stream_)) = r3 at h hc3
  have hc4 : (if clen < ulen ∧ s2.header_.input_checksum_type_ ≠ LzoChecksum.CHECK_NONE then
      r3.2.2.ReadInt else ([], r3.2.1, r3.2.2)).2.2.compact_data = s2.stream_.compact_data := by
    split
    · rw [ReadInt_compact, hc3]
    · exact hc3
  generalize (if clen < ulen ∧ s2.header_.input_checksum_type_ ≠ LzoChecksum.CHECK_NONE then
    r3.2.2.ReadInt else ([], r3.2.1, r3.2.2)) = r4 at h hc4
  have hc5 : (r4.2.2.GetBytes clen).2.2.compact_data = s2.stream_.compact_data := by
    rw [GetBytes_compact, hc4]
  generalize r4.2.2.GetBytes clen = gb at h hc5
  by_cases h3 : (!Status.ok r3.1) = true
  · rw [if_pos h3] at h
    simp only [Option.some.injEq] at h
    subst h
    exact ⟨fun _ => le_refl _, fun _ hne => absurd rfl hne, fun _ _ hne => absurd rfl hne⟩
  · rw [if_neg h3] at h
    by_cases h4 : (!Status.ok r4.1) = true
    · rw [if_pos h4] at h
      simp only [Option.some.injEq] at h
      subst h
      exact ⟨fun _ => le_refl _, fun _ hne => absurd rfl hne, fun _ _ hne => absurd rfl hne⟩
    · rw [if_neg h4] at h
      rw [Option.bind_eq_some] at h
      obtain ⟨a, -, h⟩ := h
      by_cases h5 : (!Status.ok a) = true
      · rw [if_pos h5] at h
        simp only [Option.some.injEq] at h
        subst h
        exact ⟨fun _ => le_refl _, fun _ hne => absurd rfl hne, fun _ _ hne => absurd rfl hne⟩
      · rw [if_neg h5] at h
        by_cases h6 : clen = ulen
        · rw [if_pos h6] at h
          simp only [Option.some.injEq] at h
          subst h
          exact ⟨fun _ => le_refl _, fun _ hne => absurd rfl hne, fun _ _ hne => absurd rfl hne⟩
        · rw [if_neg h6] at h
          obtain ⟨-, d2, d3, d4⟩ := DecompressBlock_len K L _ _ _ _ _ r h
          exact ⟨fun hc => d2 (by rw [← hc]; exact hc5), fun hnil _ => d3 hnil,
            fun hc hnil _ => d4 (by rw [← hc]; exact hc5) hnil⟩

/-- What `ReadAndDecompressData` does to the decode buffer capacity. -/
theorem ReadAndDecompressData_len (K : Consts) (L : Decompressor) (g : Int) (s : Scanner)
    (r : Status × Scanner) (h : ReadAndDecompressData K L g s = some r) :
    (s.stream_.compact_data = true → s.block_buffer_len_ ≤ r.2.block_buffer_len_) ∧
    (r.1 = [] → r.2.decompress_timer_ ≠ s.decompress_timer_ →
      r.2.bytes_remaining_ ≤ r.2.block_buffer_len_) ∧
    (s.stream_.compact_data = false → r.1 = [] →
      r.2.decompress_timer_ ≠ s.decompress_timer_ →
      r.2.block_buffer_len_ = r.2.bytes_remaining_) := by
  unfold ReadAndDecompressData at h
  simp only [] at h
  have hc1 := ReadInt_compact s.stream_
  generalize s.stream_.ReadInt = r1 at h hc1
  have hc2 := ReadInt_compact r1.2.2
  generalize r1.2.2.ReadInt = r2 at h hc2
  split_ifs at h
  all_goals first
    | (simp only [Option.some.injEq] at h; subst h
       exact ⟨fun _ => le_refl _, fun _ hne => absurd rfl hne, fun _ _ hne => absurd rfl hne⟩)
    | (obtain ⟨b1, b2, b3⟩ := ReadBlockBody_len K L g _ _ _ r h
       exact ⟨fun hc => b1 (by rw [← hc]; exact hc2.trans hc1), b2,
         fun hc => b3 (by rw [← hc]; exact hc2.trans hc1)⟩)

/-- C18, counterexample: on a stream that does not compact data, two compressed
blocks are read in turn, the first of 8 decoded bytes, the second of 4.  Both
reads succeed; the decode buffer capacity is 8 after the first and 4 after the
second. -/
theorem C18_counterexample :
    ((ReadAndDecompressData lzopConsts doublingDecompressor 0
        (nonCompactScanner shrinkingFile 43 85 [43, 63])).bind fun r1 =>
      (ReadAndDecompressData lzopConsts doublingDecompressor 0 r1.2).map fun r2 =>
        (r1.1, r1.2.block_buffer_len_, r2.1, r2.2.block_buffer_len_)) =
      some ([], 8, [], 4) := by
  decide

/-- C18, as the code has it.  For every call of `ReadAndDecompressData` that
returns: on a stream that compacts data (`compact_data()` true) the decode
buffer capacity `block_buffer_len_` after the call is at least its value before
the call; after every successfully decompressed block (a successful call that
ran the decompressor) the capacity is at least that block's
`uncompressed_len`, which is the `bytes_remaining_` the call leaves; and on a
stream that does not compact data the capacity after such a call is exactly
that block's `uncompressed_len`, the capacity having been reset to 0 first. -/
theorem C18_block_buffer_len (K : Consts) (L : Decompressor) (g : Int) (s : Scanner)
    (r : Status × Scanner) (h : ReadAndDecompressData K L g s = some r) :
    (s.stream_.compact_data = true → s.block_buffer_len_ ≤ r.2.block_buffer_len_) ∧
    (r.1 = [] → r.2.decompress_timer_ ≠ s.decompress_timer_ →
      r.2.bytes_remaining_ ≤ r.2.block_buffer_len_) ∧
    (s.stream_.compact_data = false → r.1 = [] →
      r.2.decompress_timer_ ≠ s.decompress_timer_ →
      r.2.block_buffer_len_ = r.2.bytes_remaining_) :=
  ReadAndDecompressData_len K L g s r h

/-- Witness for C18: the second block of `shrinkingFile` (4 decoded bytes) read
on a stream that compacts data, with capacity 8 from the first block. -/
theorem C18_block_buffer_len_witness :
    ReadAndDecompressData lzopConsts doublingDecompressor 0 afterDoubledRecord8 =
      some ([], afterDoubledRecord) ∧
    (afterDoubledRecord8.stream_.compact_data = true →
      afterDoubledRecord8.block_buffer_len_ ≤ afterDoubledRecord.block_buffer_len_) ∧
    (([] : Status) = [] →
      afterDoubledRecord.decompress_timer_ ≠ afterDoubledRecord8.decompress_timer_ →
      afterDoubledRecord.bytes_remaining_ ≤ afterDoubledRecord.block_buffer_len_) ∧
    (afterDoubledRecord8.stream_.compact_data = false → ([] : Status) = [] →
      afterDoubledRecord.decompress_timer_ ≠ afterDoubledRecord8.decompress_timer_ →
      afterDoubledRecord.block_buffer_len_ = afterDoubledRecord.bytes_remaining_) :=
  ⟨by decide,
   C18_block_buffer_len lzopConsts doublingDecompressor 0 afterDoubledRecord8
    ([], afterDoubledRecord) (by decide)⟩

/-! ## Bytes left in a block when the next one is read -/

set_option maxRecDepth 1000000 in
/-- C19, the code at the failing input: the split `[43, 59)` of `longRowFile`
is served by one request for everything available, which delivers block 1 and
reaches the end of the split, and then by requests for 1024 bytes to finish the
last row.  The first of them reads the block of 1500 bytes `0x61` and serves
1024 of them, leaving 476.  The second, asking for more than the 476 bytes
left, reads the next block and serves its first 1024 bytes `0x62`: the 476
bytes left of the block before are never served. -/
theorem C19_leftover_bytes_dropped :
    (fillCalls lzopConsts noDecompressor 0 4 [0, 1024, 1024]
        (splitScanner longRowFile 43 59 [43, 59, 1571])).map Prod.fst =
      some [⟨[], true, 4, block1, 0⟩,
        ⟨[], true, 1024, List.replicate 1024 0x61, 476⟩,
        ⟨[], true, 1024, List.replicate 1024 0x62, 476⟩] := by
  decide!

/-! ## ReadHeader: reads behind the buffer -/

theorem readAt_none (buf : List Byte) (off len : Nat) (h : buf.length < off + len) :
    readAt buf off len = none := by
  unfold readAt
  rw [if_neg (by omega)]

/-- A buffer of at least `MIN_HEADER_SIZE` bytes that holds the filename length
byte but ends before the end of the header checksum field makes `ReadHeader`
read past the buffer. -/
theorem ReadHeader_past_buffer (K : Consts) (s : Scanner) (buf : List Byte)
    (hbuf : (s.stream_.GetBytes K.HEADER_SIZE).1 = buf)
    (hmin : K.MIN_HEADER_SIZE ≤ buf.length) (h34 : 34 ≤ buf.length)
    (hshort : buf.length < 38 + fieldAt buf 33 1) :
    ReadHeader K s = none := by
  unfold ReadHeader
  simp only []
  rw [hbuf, if_neg (by omega)]
  simp only [readAt_of_le buf 0 9 (by omega), readAt_of_le buf 9 2 (by omega),
    readAt_of_le buf (9 + 2) 2 (by omega), readAt_of_le buf (9 + 4) 2 (by omega),
    readAt_of_le buf (9 + 6) 1 (by omega), readAt_of_le buf (9 + 7) 1 (by omega),
    readAt_of_le buf (9 + 8) 4 (by omega), readAt_of_le buf (9 + 24) 1 (by omega),
    Option.bind_eq_bind, Option.some_bind]
  have h8 : readAt buf (9 + 24 + beNat ((buf.drop (9 + 24)).take 1) + 1) 4 = none :=
    readAt_none buf _ 4 (by
      unfold fieldAt at hshort
      have e : (9 + 24 : Nat) = 33 := rfl
      rw [e]
      omega)
  rw [h8]
  rfl

/-- C20, the code at the failing input: `truncatedHeaderFile` gives `ReadHeader`
a buffer of 40 bytes, at least `MIN_HEADER_SIZE`; its filename length byte, at
offset 33, is 5, so the header checksum field is read at the offsets 39 to 42,
of which 40 to 42 lie outside the buffer: the read has no defined result. -/
theorem C20_checksum_field_past_buffer :
    ((headerRangeScanner truncatedHeaderFile).stream_.GetBytes lzopConsts.HEADER_SIZE).1.length
      = 40 ∧
    lzopConsts.MIN_HEADER_SIZE ≤ 40 ∧
    fieldAt truncatedHeaderFile 33 1 = 5 ∧
    readAt truncatedHeaderFile (34 + 5) 4 = none ∧
    ReadHeader lzopConsts (headerRangeScanner truncatedHeaderFile) = none := by
  refine ⟨by decide, by decide, by decide, by decide, by decide⟩

/-! ## ReadData: the recovery loop terminates -/

/-- `ReadData` and `ReadDataLoop` are the same loop. -/
theorem ReadData_eq_loop (K : Consts) (L : Decompressor) (g : Int) :
    ∀ (fuel : Nat) (s : Scanner),
      ReadData K L g fuel s =
        match ReadDataLoop K L g fuel s with
        | LoopResult.returned r _ => some r
        | _ => none := by
  intro fuel
  induction fuel with
  | zero => intro s; rfl
  | succ n ih =>
    intro s
    unfold ReadData ReadDataLoop
    cases hr : ReadAndDecompressData K L g s with
    | none => rfl
    | some r =>
      simp only [Option.bind_eq_bind, Option.some_bind, Option.pure_def]
      by_cases h1 : (Status.ok r.1 || r.2.abort_on_error) = true
      · rw [if_pos h1, if_pos h1]
      · rw [if_neg h1, if_neg h1]
        by_cases h2 : (!Status.ok (FindFirstBlock r.2).1) = true
        · rw [if_pos h2, if_pos h2]
          by_cases h3 : (FindFirstBlock r.2).2.abort_on_error = true
          · rw [if_pos h3, if_pos h3]
          · rw [if_neg h3, if_neg h3]
        · rw [if_neg h2, if_neg h2]
          by_cases h4 : (!(FindFirstBlock r.2).2.stream_.eosr) = true
          · rw [if_pos h4, if_pos h4, ih]
            cases ReadDataLoop K L g n (FindFirstBlock r.2).2 <;> rfl
          · rw [if_neg h4, if_neg h4]

/-- The position the binary search returns is `end()` or holds an element
greater than `val`, sorted or not: the right end of the searched range only
moves to a position that was compared greater. -/
theorem upper_bound_loop_gt (v : List Int) (val : Int) :
    ∀ (fuel first len : Nat), len ≤ fuel → first + len ≤ v.length →
      (first + len < v.length → val < v.getD (first + len) 0) →
      upper_bound_loop v val fuel first len ≤ v.length ∧
      (upper_bound_loop v val fuel first len < v.length →
        val < v.getD (upper_bound_loop v val fuel first len) 0) := by
  intro fuel
  induction fuel with
  | zero =>
    intro first len hl hb hr
    have h0 : len = 0 := by omega
    subst h0
    simp only [upper_bound_loop]
    exact ⟨by omega, hr⟩
  | succ n ih =>
    intro first len hl hb hr
    simp only [upper_bound_loop]
    by_cases h0 : len = 0
    · subst h0
      simp only [if_true]
      exact ⟨by omega, hr⟩
    · simp only [h0, if_false]
      by_cases hc : val < v.getD (first + len / 2) 0
      · simp only [hc, if_true]
        exact ih first (len / 2) (by omega) (by omega) (fun _ => hc)
      · simp only [hc, if_false]
        have e : first + len / 2 + 1 + (len - len / 2 - 1) = first + len := by omega
        exact ih (first + len / 2 + 1) (len - len / 2 - 1) (by omega) (by omega)
          (by rw [e]; exact hr)

/-- A successful `FindFirstBlock` leaves the stream at an indexed offset greater
than the offset it started from, and changes nothing but the stream. -/
theorem FindFirstBlock_ok (s : Scanner) (h : (FindFirstBlock s).1 = []) :
    ((FindFirstBlock s).2.stream_.pos : Int) ∈ s.header_.offsets ∧
    s.stream_.pos < (FindFirstBlock s).2.stream_.pos ∧
    (FindFirstBlock s).2.header_ = s.header_ := by
  obtain ⟨hle, hgt⟩ := upper_bound_loop_gt s.header_.offsets s.stream_.pos
    s.header_.offsets.length 0 s.header_.offsets.length (le_refl _) (by omega)
    (fun hlt => absurd hlt (by omega))
  unfold FindFirstBlock at h ⊢
  simp only [] at h ⊢
  unfold upper_bound at h ⊢
  by_cases hend : upper_bound_loop s.header_.offsets s.stream_.pos s.header_.offsets.length 0
      s.header_.offsets.length = s.header_.offsets.length
  · rw [if_pos hend] at h
    exact absurd h (List.cons_ne_nil _ _)
  · rw [if_neg hend] at h ⊢
    have hlt := lt_of_le_of_ne hle hend
    have hx := hgt hlt
    generalize upper_bound_loop s.header_.offsets s.stream_.pos s.header_.offsets.length 0
      s.header_.offsets.length = i at h hlt hx ⊢
    have hmem : s.header_.offsets.getD i 0 ∈ s.header_.offsets := by
      rw [List.getD_eq_getElem _ 0 hlt]
      exact List.getElem_mem hlt
    generalize s.header_.offsets.getD i 0 = x at h hx hmem ⊢
    unfold Stream.SkipBytes at h ⊢
    by_cases hs : 0 ≤ x - (s.stream_.pos : Int) ∧
        s.stream_.pos + (x - (s.stream_.pos : Int)).toNat ≤ s.stream_.data.length
    · rw [if_pos hs]
      have e : ((s.stream_.pos + (x - (s.stream_.pos : Int)).toNat : Nat) : Int) = x := by
        omega
      refine ⟨?_, ?_, rfl⟩
      · show ((s.stream_.pos + (x - (s.stream_.pos : Int)).toNat : Nat) : Int) ∈ s.header_.offsets
        rw [e]
        exact hmem
      · show s.stream_.pos < s.stream_.pos + (x - (s.stream_.pos : Int)).toNat
        omega
    · rw [if_neg hs] at h
      exact absurd h (List.cons_ne_nil _ _)

theorem ReadInt_pos_le (st : Stream) : st.pos ≤ st.ReadInt.2.2.pos := by
  unfold Stream.ReadInt
  simp only []
  split <;> simp [Stream.GetBytes, Stream.advance]

theorem GetBytes_pos_le (st : Stream) (n : Int) : st.pos ≤ (st.GetBytes n).2.2.pos := by
  simp [Stream.GetBytes, Stream.advance]

/-- `DecompressBlock` leaves the stream as it is. -/
theorem DecompressBlock_stream (K : Consts) (L : Decompressor) (s5 : Scanner)
    (ulen clen ock : Int) (cd : List Byte) (r : Status × Scanner)
    (h : DecompressBlock K L s5 ulen clen ock cd = some r) :
    r.2.stream_ = s5.stream_ := by
  unfold DecompressBlock at h
  simp only [Option.bind_eq_bind, Option.pure_def, Option.some_bind] at h
  generalize hd : L (List.take clen.toNat cd) ulen.toNat = d at h
  by_cases hb : ¬ (0 ≤ clen ∧ clen.toNat ≤ cd.length)
  · rw [if_pos hb] at h
    simp at h
  · rw [if_neg hb] at h
    by_cases hf : d.1 ≠ 0 ∨ ulen ≠ (d.2.length : Int)
    · rw [if_pos hf] at h
      simp only [Option.some.injEq] at h
      subst h
      rfl
    · rw [if_neg hf] at h
      rw [Option.bind_eq_some] at h
      obtain ⟨a, -, h⟩ := h
      by_cases hok : (!Status.ok a) = true
      · rw [if_pos hok] at h
        simp only [Option.some.injEq] at h
        subst h
        rfl
      · rw [if_neg hok] at h
        simp only [Option.some.injEq] at h
        subst h
        rfl

/-- `ReadBlockBody` only moves the stream forward. -/
theorem ReadBlockBody_pos (K : Consts) (L : Decompressor) (g : Int) (s2 : Scanner)
    (ulen clen : Int) (r : Status × Scanner)
    (h : ReadBlockBody K L g s2 ulen clen = some r) :
    s2.stream_.pos ≤ r.2.stream_.pos := by
  unfold ReadBlockBody at h
  simp only [Option.bind_eq_bind, Option.pure_def, Option.some_bind] at h
  have hp3 : s2.stream_.pos ≤ (if s2.header_.output_checksum_type_ ≠ LzoChecksum.CHECK_NONE then
      s2.stream_.ReadInt else ([], g, s2.stream_)).2.2.pos := by
    split
    · exact ReadInt_pos_le _
    · exact le_refl _
  generalize (if s2.header_.output_checksum_type_ ≠ LzoChecksum.CHECK_NONE then s2.stream_.ReadInt
    else ([], g, s2.stream_)) = r3 at h hp3
  have hp4 : s2.stream_.pos ≤ (if clen < ulen ∧
      s2.header_.input_checksum_type_ ≠ LzoChecksum.CHECK_NONE then
      r3.2.2.ReadInt else ([], r3.2.1, r3.2.2)).2.2.pos := by
    split
    · exact le_trans hp3 (ReadInt_pos_le _)
    · exact hp3
  generalize (if clen < ulen ∧ s2.header_.input_checksum_type_ ≠ LzoChecksum.CHECK_NONE then
    r3.2.2.ReadInt else ([], r3.2.1, r3.2.2)) = r4 at h hp4
  have hp5 : s2.stream_.pos ≤ (r4.2.2.GetBytes clen).2.2.pos :=
    le_trans hp4 (GetBytes_pos_le _ _)
  generalize r4.2.2.GetBytes clen = gb at h hp5
  by_cases h3 : (!Status.ok r3.1) = true
  · rw [if_pos h3] at h
    simp only [Option.some.injEq] at h
    subst h
    exact hp3
  · rw [if_neg h3] at h
    by_cases h4 : (!Status.ok r4.1) = true
    · rw [if_pos h4] at h
      simp only [Option.some.injEq] at h
      subst h
      exact hp4
    · rw [if_neg h4] at h
      rw [Option.bind_eq_some] at h
      obtain ⟨a, -, h⟩ := h
      by_cases h5 : (!Status.ok a) = true
      · rw [if_pos h5] at h
        simp only [Option.some.injEq] at h
        subst h
        exact hp5
      · rw [if_neg h5] at h
        by_cases h6 : clen = ulen
        · rw [if_pos h6] at h
          simp only [Option.some.injEq] at h
          subst h
          exact hp5
        · rw [if_neg h6] at h
          have hst := DecompressBlock_stream K L _ _ _ _ _ r h
          rw [hst]
          exact hp5

/-- `ReadAndDecompressData` only moves the stream forward. -/
theorem ReadAndDecompressData_pos (K : Consts) (L : Decompressor) (g : Int) (s : Scanner)
    (r : Status × Scanner) (h : ReadAndDecompressData K L g s = some r) :
    s.stream_.pos ≤ r.2.stream_.pos := by
  unfold ReadAndDecompressData at h
  simp only [] at h
  have hp1 := ReadInt_pos_le s.stream_
  generalize s.stream_.ReadInt = r1 at h hp1
  have hp2 := ReadInt_pos_le r1.2.2
  generalize r1.2.2.ReadInt = r2 at h hp2
  split_ifs at h
  all_goals first
    | (simp only [Option.some.injEq] at h; subst h; exact hp1)
    | (simp only [Option.some.injEq] at h; subst h; exact le_trans hp1 hp2)
    | (have hb := ReadBlockBody_pos K L g _ _ _ r h
       exact le_trans (le_trans hp1 hp2) hb)

/-- Moving to an indexed offset ahead leaves fewer index entries ahead. -/
theorem indexAhead_lt (offsets : List Int) (p q : Nat) (hpq : p < q)
    (hq : (q : Int) ∈ offsets) : indexAhead offsets q < indexAhead offsets p := by
  unfold indexAhead
  induction offsets with
  | nil => simp at hq
  | cons x xs ih =>
    have hmono : List.countP (fun x => decide ((q : Int) < x)) xs ≤
        List.countP (fun x => decide ((p : Int) < x)) xs :=
      List.countP_mono_left (fun y _ hy => by
        simp only [decide_eq_true_eq] at hy ⊢
        omega)
    rw [List.countP_cons, List.countP_cons]
    rcases List.mem_cons.mp hq with hx | hx
    · subst hx
      have h1 : decide ((q : Int) < (q : Int)) = false := by simp
      have h2 : decide ((p : Int) < (q : Int)) = true := by simp; omega
      rw [h1, h2]
      simp only [if_true, Bool.false_eq_true, if_false]
      omega
    · have := ih hx
      by_cases hc : (q : Int) < x
      · have hc2 : (p : Int) < x := by omega
        simp only [hc, hc2, decide_True, if_true]
        omega
      · simp only [hc, decide_False, Bool.false_eq_true, if_false]
        split <;> omega

theorem indexAhead_le (offsets : List Int) (p : Nat) : indexAhead offsets p ≤ offsets.length :=
  List.countP_le_length _

theorem indexAhead_mono (offsets : List Int) (p q : Nat) (hpq : p ≤ q) :
    indexAhead offsets q ≤ indexAhead offsets p :=
  List.countP_mono_left (fun y _ hy => by
    simp only [decide_eq_true_eq] at hy ⊢
    omega)

/-- With more iterations allowed than there are index entries ahead of the file
offset, the loop of `ReadData` does not use up its bound, and it performs at
most that many successful resynchronizations. -/
theorem ReadDataLoop_bound (K : Consts) (L : Decompressor) (g : Int) :
    ∀ (fuel : Nat) (s : Scanner), indexAhead s.header_.offsets s.stream_.pos < fuel →
      ReadDataLoop K L g fuel s ≠ LoopResult.outOfFuel ∧
      ∀ r n, ReadDataLoop K L g fuel s = LoopResult.returned r n →
        n ≤ indexAhead s.header_.offsets s.stream_.pos := by
  intro fuel
  induction fuel with
  | zero => intro s h; omega
  | succ k ih =>
    intro s hfuel
    unfold ReadDataLoop
    cases hr : ReadAndDecompressData K L g s with
    | none =>
      exact ⟨fun h => LoopResult.noConfusion h, fun r n h => LoopResult.noConfusion h⟩
    | some r =>
      simp only []
      by_cases h1 : (Status.ok r.1 || r.2.abort_on_error) = true
      · rw [if_pos h1]
        refine ⟨fun h => LoopResult.noConfusion h, fun r0 n h => ?_⟩
        injection h with _ hn
        omega
      · rw [if_neg h1]
        by_cases h2 : (!Status.ok (FindFirstBlock r.2).1) = true
        · rw [if_pos h2]
          by_cases h3 : (FindFirstBlock r.2).2.abort_on_error = true
          · rw [if_pos h3]
            refine ⟨fun h => LoopResult.noConfusion h, fun r0 n h => ?_⟩
            injection h with _ hn
            omega
          · rw [if_neg h3]
            refine ⟨fun h => LoopResult.noConfusion h, fun r0 n h => ?_⟩
            injection h with _ hn
            omega
        · rw [if_neg h2]
          have hok : (FindFirstBlock r.2).1 = [] := by
            simpa [Status.ok] using h2
          obtain ⟨hmem, hlt, hhd⟩ := FindFirstBlock_ok r.2 hok
          obtain ⟨-, hhd2, -⟩ := ReadAndDecompressData_preserves K L g s r hr
          have hpos := ReadAndDecompressData_pos K L g s r hr
          rw [hhd2] at hmem hhd
          have hdec : indexAhead s.header_.offsets (FindFirstBlock r.2).2.stream_.pos <
              indexAhead s.header_.offsets s.stream_.pos :=
            lt_of_lt_of_le (indexAhead_lt _ _ _ hlt hmem) (indexAhead_mono _ _ _ hpos)
          by_cases h4 : (!(FindFirstBlock r.2).2.stream_.eosr) = true
          · rw [if_pos h4]
            obtain ⟨hne, hcount⟩ := ih (FindFirstBlock r.2).2 (by rw [hhd]; omega)
            rw [hhd] at hcount
            cases hl : ReadDataLoop K L g k (FindFirstBlock r.2).2 with
            | undefined =>
              exact ⟨fun h => LoopResult.noConfusion h, fun r0 n h => LoopResult.noConfusion h⟩
            | outOfFuel => exact absurd hl hne
            | returned r2 m =>
              refine ⟨fun h => LoopResult.noConfusion h, fun r0 n h => ?_⟩
              have hm := hcount r2 m hl
              injection h with _ hn
              omega
          · rw [if_neg h4]
            refine ⟨fun h => LoopResult.noConfusion h, fun r0 n h => ?_⟩
            injection h with _ hn
            omega

/-- One iteration of `ReadDataLoop`. -/
theorem ReadDataLoop_step (K : Consts) (L : Decompressor) (g : Int) (fuel : Nat) (s : Scanner) :
    ReadDataLoop K L g (fuel + 1) s =
      match ReadAndDecompressData K L g s with
      | none => LoopResult.undefined
      | some r =>
        if Status.ok r.1 || r.2.abort_on_error then LoopResult.returned r 0
        else
          if !(Status.ok (FindFirstBlock r.2).1) then
            if (FindFirstBlock r.2).2.abort_on_error then
              LoopResult.returned (FindFirstBlock r.2) 0
            else LoopResult.returned
              ([], { (FindFirstBlock r.2).2 with eos_read_ := true, bytes_remaining_ := 0 }) 0
          else if !(FindFirstBlock r.2).2.stream_.eosr then
            match ReadDataLoop K L g fuel (FindFirstBlock r.2).2 with
            | LoopResult.returned r2 n => LoopResult.returned r2 (n + 1)
            | LoopResult.undefined => LoopResult.undefined
            | LoopResult.outOfFuel => LoopResult.outOfFuel
          else
            LoopResult.returned
              ([], { (FindFirstBlock r.2).2 with
                reset_scanner_calls := (FindFirstBlock r.2).2.reset_scanner_calls + 1 }) 1 := rfl

/-- A run that does not use up its bound gives the same result with one more
iteration allowed. -/
theorem ReadDataLoop_succ (K : Consts) (L : Decompressor) (g : Int) :
    ∀ (fuel : Nat) (s : Scanner), ReadDataLoop K L g fuel s ≠ LoopResult.outOfFuel →
      ReadDataLoop K L g (fuel + 1) s = ReadDataLoop K L g fuel s := by
  intro fuel
  induction fuel with
  | zero => intro s h; exact absurd rfl h
  | succ k ih =>
    intro s h
    rw [ReadDataLoop_step K L g k s] at h ⊢
    rw [ReadDataLoop_step K L g (k + 1) s]
    cases hr : ReadAndDecompressData K L g s with
    | none => rfl
    | some r =>
      rw [hr] at h
      simp only [] at h ⊢
      by_cases h1 : (Status.ok r.1 || r.2.abort_on_error) = true
      · rw [if_pos h1, if_pos h1]
      · rw [if_neg h1] at h ⊢
        rw [if_neg h1]
        by_cases h2 : (!Status.ok (FindFirstBlock r.2).1) = true
        · rw [if_pos h2, if_pos h2]
        · rw [if_neg h2] at h ⊢
          rw [if_neg h2]
          by_cases h4 : (!(FindFirstBlock r.2).2.stream_.eosr) = true
          · rw [if_pos h4] at h ⊢
            rw [if_pos h4]
            have hne : ReadDataLoop K L g k (FindFirstBlock r.2).2 ≠ LoopResult.outOfFuel := by
              intro hl
              rw [hl] at h
              exact h rfl
            rw [ih _ hne]
          · rw [if_neg h4, if_neg h4]

theorem ReadDataLoop_add (K : Consts) (L : Decompressor) (g : Int) (fuel : Nat) (s : Scanner)
    (h : ReadDataLoop K L g fuel s ≠ LoopResult.outOfFuel) :
    ∀ m, ReadDataLoop K L g (fuel + m) s = ReadDataLoop K L g fuel s := by
  intro m
  induction m with
  | zero => rfl
  | succ j ih =>
    rw [← Nat.add_assoc, ReadDataLoop_succ K L g (fuel + j) s (by rw [ih]; exact h), ih]

/-- C21. The corruption-recovery loop of `ReadData` terminates, for every index
(strictly increasing or not).  Block reads only move the file offset forward,
and every successful resynchronization (`FindFirstBlock` returning OK) moves
it to an indexed offset strictly greater than the offset before it.  So, with
more iterations allowed than there are index entries, the loop never uses up
its bound: either a block read of the run has no defined result (a read outside
a buffer), or `ReadData` returns, after at most as many successful
resynchronizations as there are index entries (indeed, as there are entries
greater than the file offset it started from); and what it returns does not
depend on how many more iterations are allowed. -/
theorem C21_ReadData_terminates (K : Consts) (L : Decompressor) (g : Int) (fuel : Nat)
    (s : Scanner) (hfuel : s.header_.offsets.length < fuel) :
    (∀ s1 r, ReadAndDecompressData K L g s1 = some r → s1.stream_.pos ≤ r.2.stream_.pos) ∧
    (∀ s1, (FindFirstBlock s1).1 = [] →
      ((FindFirstBlock s1).2.stream_.pos : Int) ∈ s1.header_.offsets ∧
      s1.stream_.pos < (FindFirstBlock s1).2.stream_.pos) ∧
    ReadDataLoop K L g fuel s ≠ LoopResult.outOfFuel ∧
    ((ReadDataLoop K L g fuel s = LoopResult.undefined ∧ ReadData K L g fuel s = none) ∨
      ∃ r n, ReadDataLoop K L g fuel s = LoopResult.returned r n ∧
        ReadData K L g fuel s = some r ∧
        n ≤ indexAhead s.header_.offsets s.stream_.pos ∧ n ≤ s.header_.offsets.length) ∧
    (∀ fuel2, s.header_.offsets.length < fuel2 →
      ReadData K L g fuel2 s = ReadData K L g fuel s) := by
  have hle := indexAhead_le s.header_.offsets s.stream_.pos
  obtain ⟨hne, hcount⟩ := ReadDataLoop_bound K L g fuel s (by omega)
  refine ⟨fun s1 r h => ReadAndDecompressData_pos K L g s1 r h,
    fun s1 h => ⟨(FindFirstBlock_ok s1 h).1, (FindFirstBlock_ok s1 h).2.1⟩, hne, ?_, ?_⟩
  · rw [ReadData_eq_loop]
    cases hl : ReadDataLoop K L g fuel s with
    | undefined => exact Or.inl ⟨rfl, rfl⟩
    | outOfFuel => exact absurd hl hne
    | returned r n =>
      have hn := hcount r n hl
      exact Or.inr ⟨r, n, rfl, rfl, hn, by omega⟩
  · intro fuel2 h2
    obtain ⟨hne0, -⟩ := ReadDataLoop_bound K L g (s.header_.offsets.length + 1) s (by omega)
    have e1 := ReadDataLoop_add K L g _ s hne0 (fuel - (s.header_.offsets.length + 1))
    have e2 := ReadDataLoop_add K L g _ s hne0 (fuel2 - (s.header_.offsets.length + 1))
    rw [show s.header_.offsets.length + 1 + (fuel - (s.header_.offsets.length + 1)) = fuel by
      omega] at e1
    rw [show s.header_.offsets.length + 1 + (fuel2 - (s.header_.offsets.length + 1)) = fuel2 by
      omega] at e2
    rw [ReadData_eq_loop, ReadData_eq_loop, e1, e2]

/-- On `recoveryScanner` the read of block 1 fails its checksum at offset 59, one
resynchronization moves the stream to the indexed offset 75, and the read of
block 3 succeeds: two iterations, one resynchronization, two index entries
ahead of the starting offset. -/
theorem recoveryScanner_run :
    ReadDataLoop lzopConsts noDecompressor 0 2 recoveryScanner =
      LoopResult.returned ([], afterRecovery) 1 ∧
    ReadDataLoop lzopConsts noDecompressor 0 1 recoveryScanner = LoopResult.outOfFuel ∧
    indexAhead recoveryScanner.header_.offsets recoveryScanner.stream_.pos = 2 := by
  refine ⟨by decide, by decide, by decide⟩

/-- Witness for C21: `recoveryScanner` with 4 iterations allowed, one more than
the 3 index entries. -/
theorem C21_ReadData_terminates_witness :
    (∀ s1 r, ReadAndDecompressData lzopConsts noDecompressor 0 s1 = some r →
      s1.stream_.pos ≤ r.2.stream_.pos) ∧
    (∀ s1, (FindFirstBlock s1).1 = [] →
      ((FindFirstBlock s1).2.stream_.pos : Int) ∈ s1.header_.offsets ∧
      s1.stream_.pos < (FindFirstBlock s1).2.stream_.pos) ∧
    ReadDataLoop lzopConsts noDecompressor 0 4 recoveryScanner ≠ LoopResult.outOfFuel ∧
    ((ReadDataLoop lzopConsts noDecompressor 0 4 recoveryScanner = LoopResult.undefined ∧
        ReadData lzopConsts noDecompressor 0 4 recoveryScanner = none) ∨
      ∃ r n, ReadDataLoop lzopConsts noDecompressor 0 4 recoveryScanner =
          LoopResult.returned r n ∧
        ReadData lzopConsts noDecompressor 0 4 recoveryScanner = some r ∧
        n ≤ indexAhead recoveryScanner.header_.offsets recoveryScanner.stream_.pos ∧
        n ≤ recoveryScanner.header_.offsets.length) ∧
    (∀ fuel2, recoveryScanner.header_.offsets.length < fuel2 →
      ReadData lzopConsts noDecompressor 0 fuel2 recoveryScanner =
        ReadData lzopConsts noDecompressor 0 4 recoveryScanner) :=
  C21_ReadData_terminates lzopConsts noDecompressor 0 4 recoveryScanner (by decide)

/-! ## ReadHeader on a buffer that ends inside the header -/

/-- `FindFirstBlock` changes the stream only. -/
theorem FindFirstBlock_past_eosr (s : Scanner) :
    (FindFirstBlock s).2.past_eosr_ = s.past_eosr_ := by
  unfold FindFirstBlock
  simp only []
  split <;> rfl

/-- `ReadData` does not touch `past_eosr_`. -/
theorem ReadData_past_eosr (K : Consts) (L : Decompressor) (g : Int) :
    ∀ (fuel : Nat) (s : Scanner) (r : Status × Scanner),
      ReadData K L g fuel s = some r → r.2.past_eosr_ = s.past_eosr_ := by
  intro fuel
  induction fuel with
  | zero => intro s r h; simp [ReadData] at h
  | succ k ih =>
    intro s r h
    unfold ReadData at h
    cases hr : ReadAndDecompressData K L g s with
    | none => rw [hr] at h; simp at h
    | some r1 =>
      obtain ⟨-, -, hp⟩ := ReadAndDecompressData_preserves K L g s r1 hr
      rw [hr] at h
      simp only [Option.bind_eq_bind, Option.some_bind, Option.pure_def] at h
      by_cases h1 : (Status.ok r1.1 || r1.2.abort_on_error) = true
      · rw [if_pos h1] at h
        simp only [Option.some.injEq] at h
        subst h
        exact hp
      · rw [if_neg h1] at h
        have hf := FindFirstBlock_past_eosr r1.2
        by_cases h2 : (!Status.ok (FindFirstBlock r1.2).1) = true
        · rw [if_pos h2] at h
          by_cases h3 : (FindFirstBlock r1.2).2.abort_on_error = true
          · rw [if_pos h3] at h
            simp only [Option.some.injEq] at h
            subst h
            exact hf.trans hp
          · rw [if_neg h3] at h
            simp only [Option.some.injEq] at h
            subst h
            exact hf.trans hp
        · rw [if_neg h2] at h
          by_cases h4 : (!(FindFirstBlock r1.2).2.stream_.eosr) = true
          · rw [if_pos h4] at h
            exact (ih _ r h).trans (hf.trans hp)
          · rw [if_neg h4] at h
            simp only [Option.some.injEq] at h
            subst h
            exact hf.trans hp

/-- `ServeBytes` does not touch `past_eosr_`. -/
theorem ServeBytes_past_eosr (num_bytes : Int) (s2 : Scanner) :
    (ServeBytes num_bytes s2).2.2.past_eosr_ = s2.past_eosr_ := by
  unfold ServeBytes
  simp only []
  split <;> rfl

/-- `FillRead` sets `past_eosr_` when the call begins with the stream at the end
of the split, and never clears it. -/
theorem FillRead_past_eosr (K : Consts) (L : Decompressor) (g : Int) (fuel : Nat)
    (num_bytes : Int) (s : Scanner) (r : Status × Scanner)
    (h : FillRead K L g fuel num_bytes s = some r) :
    r.2.past_eosr_ = (s.past_eosr_ || s.stream_.eosr) := by
  unfold FillRead at h
  simp only [] at h
  have hs1 : (if s.stream_.eosr = true then true else s.past_eosr_) =
      (s.past_eosr_ || s.stream_.eosr) := by
    cases s.stream_.eosr <;> cases s.past_eosr_ <;> rfl
  split at h
  · rw [ReadData_past_eosr K L g fuel _ r h]
    exact hs1
  · simp only [Option.some.injEq] at h
    subst h
    exact hs1

/-- What a `FillByteBuffer` call, successful or not, does to `past_eosr_`. -/
theorem FillByteBuffer_past_eosr (K : Consts) (L : Decompressor) (g : Int) (fuel : Nat)
    (num_bytes : Int) (s s1 : Scanner) (st : Status) (eosr : Bool)
    (h : FillByteBuffer K L g fuel num_bytes s = some (st, eosr, s1)) :
    s1.past_eosr_ = (s.past_eosr_ || (!s.stream_.eof && s.stream_.eosr)) := by
  rw [FillByteBuffer_halves] at h
  by_cases heof : s.stream_.eof = true
  · rw [if_pos heof] at h
    simp only [Option.some.injEq, Prod.mk.injEq] at h
    rw [← h.2.2, heof]
    simp
  · rw [if_neg heof] at h
    have hf : s.stream_.eof = false := by simpa using heof
    cases hr : FillRead K L g fuel num_bytes s with
    | none => rw [hr] at h; simp at h
    | some r =>
      have hp := FillRead_past_eosr K L g fuel num_bytes s r hr
      rw [hr] at h
      simp only [] at h
      rw [hf]
      simp only [Bool.not_false, Bool.true_and]
      by_cases hok : (!Status.ok r.1) = true
      · rw [if_pos hok] at h
        simp only [Option.some.injEq, Prod.mk.injEq] at h
        rw [← h.2.2]
        exact hp
      · rw [if_neg hok] at h
        simp only [Option.some.injEq] at h
        have hsv := ServeBytes_past_eosr num_bytes r.2
        rw [h] at hsv
        exact hsv.trans hp

/-- C7, as the code has it.  After every successful `FillByteBuffer` call the
reported end flag is true exactly when the stream was at end-of-file when the
call began, or `past_eosr_` is set, or `eos_read_` is set and
`bytes_remaining_` is 0.  `past_eosr_` is set after the call exactly when it
was set before the call or the call began with the stream, not at end-of-file,
at or past the end of the split; so the flag is true exactly when the stream
was at end-of-file or at the end of the split when the call began, or
`past_eosr_` was set before, or `eos_read_` is set with no bytes remaining.
Once set, `past_eosr_` stays set through every later call, and every later
successful call reports the flag, whatever `bytes_remaining_` is. -/
theorem C7_end_flag (K : Consts) (L : Decompressor) (g : Int) (fuel : Nat) (num_bytes : Int)
    (s s1 : Scanner) (eosr : Bool)
    (h : FillByteBuffer K L g fuel num_bytes s = some ([], eosr, s1)) :
    (eosr = true ↔
      (s.stream_.eof = true ∨ s1.past_eosr_ = true ∨
        (s1.eos_read_ = true ∧ s1.bytes_remaining_ = 0))) ∧
    (s1.past_eosr_ = true ↔
      (s.past_eosr_ = true ∨ (s.stream_.eof = false ∧ s.stream_.eosr = true))) ∧
    (eosr = true ↔
      (s.stream_.eof = true ∨ s.past_eosr_ = true ∨ s.stream_.eosr = true ∨
        (s1.eos_read_ = true ∧ s1.bytes_remaining_ = 0))) ∧
    (∀ (fuel2 : Nat) (n2 : Int) (st2 : Status) (e2 : Bool) (s2 : Scanner),
      s1.past_eosr_ = true →
      FillByteBuffer K L g fuel2 n2 s1 = some (st2, e2, s2) →
      s2.past_eosr_ = true ∧ (st2 = [] → e2 = true)) := by
  have hflag := FillByteBuffer_end_flag K L g fuel num_bytes s s1 eosr h
  have hp := FillByteBuffer_past_eosr K L g fuel num_bytes s s1 [] eosr h
  have hpast : s1.past_eosr_ = true ↔
      (s.past_eosr_ = true ∨ (s.stream_.eof = false ∧ s.stream_.eosr = true)) := by
    rw [hp]
    simp
  have heofr : s.stream_.eof = true → s.stream_.eosr = true := by
    intro he
    simp [Stream.eosr, he]
  refine ⟨hflag, hpast, ?_, ?_⟩
  · rw [hflag, hpast]
    constructor
    · rintro (h1 | (h2 | ⟨-, h3⟩) | h4)
      · exact Or.inl h1
      · exact Or.inr (Or.inl h2)
      · exact Or.inr (Or.inr (Or.inl h3))
      · exact Or.inr (Or.inr (Or.inr h4))
    · rintro (h1 | h2 | h3 | h4)
      · exact Or.inl h1
      · exact Or.inr (Or.inl (Or.inl h2))
      · by_cases he : s.stream_.eof = true
        · exact Or.inl he
        · exact Or.inr (Or.inl (Or.inr ⟨by simpa using he, h3⟩))
      · exact Or.inr (Or.inr h4)
  · intro fuel2 n2 st2 e2 s2 hset h2
    have hp2 := FillByteBuffer_past_eosr K L g fuel2 n2 s1 s2 st2 e2 h2
    have hs2 : s2.past_eosr_ = true := by
      rw [hp2, hset]
      rfl
    refine ⟨hs2, fun hst => ?_⟩
    subst hst
    exact (FillByteBuffer_end_flag K L g fuel2 n2 s1 s2 e2 h2).mpr (Or.inr (Or.inl hs2))

/-- Witness for C7: the second one-byte call on the split `[43, 50)` that ends
inside block 1.  The call begins with the stream at offset 59, past the end of
the split, sets `past_eosr_` and reports the flag with 2 bytes remaining. -/
theorem C7_end_flag_witness :
    (true = true ↔
      (afterFirstByte.stream_.eof = true ∨ afterSecondByte.past_eosr_ = true ∨
        (afterSecondByte.eos_read_ = true ∧ afterSecondByte.bytes_remaining_ = 0))) ∧
    (afterSecondByte.past_eosr_ = true ↔
      (afterFirstByte.past_eosr_ = true ∨
        (afterFirstByte.stream_.eof = false ∧ afterFirstByte.stream_.eosr = true))) ∧
    (true = true ↔
      (afterFirstByte.stream_.eof = true ∨ afterFirstByte.past_eosr_ = true ∨
        afterFirstByte.stream_.eosr = true ∨
        (afterSecondByte.eos_read_ = true ∧ afterSecondByte.bytes_remaining_ = 0))) ∧
    (∀ (fuel2 : Nat) (n2 : Int) (st2 : Status) (e2 : Bool) (s2 : Scanner),
      afterSecondByte.past_eosr_ = true →
      FillByteBuffer lzopConsts noDecompressor 0 fuel2 n2 afterSecondByte = some (st2, e2, s2) →
      s2.past_eosr_ = true ∧ (st2 = [] → e2 = true)) :=
  C7_end_flag lzopConsts noDecompressor 0 4 1 afterFirstByte afterSecondByte true (by decide)

end HdfsLzoTextScanner
